import Mathlib

/-!
# Object bridge and live synchronisation layer of plugdata

A shallow embedding of the parts of `Source/Pd/PdGui.cpp`, `Source/GUIObjects.cpp`
and `Libraries/libpd/x_libpd_extra_utils.c` that the verified properties are about.

Conventions of the embedding

* C `float` values are rationals (`ℚ`) wherever the code only stores, forwards or
  compares them, and in the definitions that are evaluated where no operation rounds;
  there a float division is `fdiv`, which has no result when the divisor is zero.
* Where rounding, NaN or an infinity decides a property, the float computation is
  embedded a second time over binary32 values (`F32`, namespace `Binary32`): every
  operation is rounded to the nearest binary32 number, ties to even, overflows to an
  infinity, and NaN propagates as IEEE 754 has it.
* C `int` values are `Int`; the conversion `float -> int` truncates toward zero.
* `size_t` arithmetic wraps modulo `2 ^ 64`.
* Pd symbols (`t_symbol*`, interned by `gensym`) are their names (`String`).
* A pointer that may be null is an `Option`.
-/

namespace pd

/-! ## Numeric helpers -/

/-- C++ `std::max(a, b)`: `(a < b) ? b : a`. -/
def stdMax (a b : ℚ) : ℚ := if a < b then b else a

/-- C++ `std::min(a, b)`: `(b < a) ? b : a`. -/
def stdMin (a b : ℚ) : ℚ := if b < a then b else a

/-- Float division `a / b`; no rational result when `b` is zero. -/
def fdiv (a b : ℚ) : Option ℚ := if b = 0 then none else some (a / b)

/-- Conversion `static_cast<int>(float)`: truncation toward zero. -/
def truncToInt (q : ℚ) : Int := if 0 ≤ q then Int.floor q else Int.ceil q

/-! ## Engine objects -/

/-- Control kinds, the enumeration `pd::Type` used throughout `PdGui.cpp`. -/
inductive GuiType where
  | Undefined
  | HorizontalSlider
  | VerticalSlider
  | Toggle
  | Number
  | HorizontalRadio
  | VerticalRadio
  | Bang
  | Panel
  | VuMeter
  | Comment
  | AtomNumber
  | AtomSymbol
  | AtomList
  | Array
  | GraphOnParent
  | Message
  | Subpatch
  | Mousepad
  | Mouse
  | Keyboard
  | Invalid
  deriving DecidableEq, Repr

/-- Engine constant `T_OBJECT` of `m_pd.h` (the `te_type` of an object box). -/
def T_OBJECT : Nat := 1

/-- Engine constant `A_FLOAT` of `m_pd.h`. -/
def A_FLOAT : Nat := 1

/-- Engine constant `A_SYMBOL` of `m_pd.h`. -/
def A_SYMBOL : Nat := 2

/-- An engine atom `t_atom`: its type tag `a_type` and the two members of its word
that the bridge reads. -/
structure TAtom where
  a_type : Nat := 0
  w_float : ℚ := 0
  w_symbol : String := ""
  deriving DecidableEq, Repr

/-- One call of the engine's named-binding primitives. -/
inductive BindCall where
  | bind (name : String)
  | unbind (name : String)
  deriving DecidableEq, Repr

/-- The engine memory behind an object handle.  The C code casts one `void*` to the
layout of the object's class (`t_iemgui`, `t_hslider`, `t_hdial`, `t_canvas`,
`t_fake_gatom`, ...); the record holds the fields those layouts are read and written
through, and every accessor touches only the fields of the layout it casts to.
`bound` is the engine's binding table restricted to this object (the names it is
bound to by `pd_bind`), and `calls` the `pd_bind`/`pd_unbind` calls made on it, oldest
first. -/
structure PdObject where
  /-- the address of the object, its identity as a handle -/
  addr : Nat := 0
  /-- result of `libpd_get_object_class_name` -/
  className : String := ""
  te_type : Nat := 0
  a_flavor : Nat := 0
  a_symfrom : String := ""
  a_symto : String := ""
  /-- `gl_list`: `none` when null, else the class name of the first child
  (`none` when `c` or `c->c_name` is null) -/
  gl_list : Option (Option String) := none
  gl_isgraph : Bool := false
  x_min : ℚ := 0
  x_max : ℚ := 0
  a_draglo : ℚ := 0
  a_draghi : ℚ := 0
  /-- `x_number` of `t_hdial` / `t_vdial`: the stored button count -/
  x_number : Int := 0
  x_snd : String := "empty"
  x_rcv : String := "empty"
  x_snd_able : Bool := false
  x_rcv_able : Bool := false
  x_put_in2out : Bool := true
  bound : List String := []
  calls : List BindCall := []
  /-- `te_width` of `t_text` -/
  te_width : Int := 0
  /-- the atoms of `te_binbuf` (`binbuf_getnatom` / `binbuf_getvec`) -/
  te_binbuf : List TAtom := []
  a_label : String := ""
  /-- the 2-bit field `a_wherelabel` of `t_fake_gatom` -/
  a_wherelabel : Nat := 0
  /-- `x_fval` of the sliders -/
  x_fval : ℚ := 0
  /-- `x_val` of the number box -/
  x_val : ℚ := 0
  /-- `x_on` of the toggle and of the radio groups -/
  x_on : ℚ := 0
  /-- `x_flashed` of the bang -/
  x_flashed : Int := 0
  /-- `x_fp` (RMS) and `x_fr` (peak) of the meter -/
  x_fp : ℚ := 0
  x_fr : ℚ := 0
  x_steady : Int := 0
  x_lin0_log1 : Int := 0
  x_w : Int := 0
  x_h : Int := 0
  x_ldx : Int := 0
  x_ldy : Int := 0
  x_fontsize : Int := 0
  x_lab : String := "empty"
  /-- `x_vis_w`, `x_vis_h` of the panel (`t_my_canvas`) -/
  x_vis_w : Int := 0
  x_vis_h : Int := 0
  deriving DecidableEq

/-- Modelled from the spec: the bridge's decoded atom `pd::Atom` (`PdAtom.h`, not
among the sources): a float, a symbol name, or the untyped placeholder a
default-constructed atom is. -/
inductive Atom where
  | untyped
  | float (value : ℚ)
  | symbol (name : String)
  deriving DecidableEq, Repr

/-- The UI-to-engine queue of a `pd::Instance`: the messages enqueued by
`enqueueDirectMessages(ptr, value)`, oldest first, as (handle address, value);
`listQueue` holds those whose value is a list of atoms. -/
structure Instance where
  queue : List (Nat × ℚ) := []
  listQueue : List (Nat × List Atom) := []
  deriving DecidableEq, Repr

/-- Modelled from the spec: the instance method `enqueueDirectMessages(ptr, value)`
(`PdInstance.cpp`, not among the sources): the message capturing the target handle
and the new value is put at the end of the queue. -/
def Instance.enqueueDirectMessages (i : Instance) (o : PdObject) (value : ℚ) : Instance :=
  { i with queue := i.queue ++ [(o.addr, value)] }

/-- Modelled from the spec: the overload `enqueueDirectMessages(ptr, list)` of
`PdInstance.cpp` (not among the sources) for a list of atoms. -/
def Instance.enqueueDirectMessagesList (i : Instance) (o : PdObject) (value : List Atom) :
    Instance :=
  { i with listQueue := i.listQueue ++ [(o.addr, value)] }

/-- The bridge object `pd::Gui`: handle, owning instance and cached kind. -/
structure Gui where
  ptr : Option PdObject := none
  /-- the owning `Instance*` (field `instance` of the C++ class) -/
  inst : Option Instance := none
  type : GuiType := GuiType.Undefined
  deriving DecidableEq

/-! ## Engine primitives used by the bridge -/

/-- Modelled from the spec: the engine's named-binding primitive `pd_bind` (Pure Data's
`m_pd.c`, not among the sources): the object becomes bound to `name`. -/
def pd_bind (o : PdObject) (name : String) : PdObject :=
  { o with bound := name :: o.bound, calls := o.calls ++ [BindCall.bind name] }

/-- Modelled from the spec: the engine's named-binding primitive `pd_unbind` (Pure
Data's `m_pd.c`, not among the sources): one binding of the object to `name` is
removed, if there is one. -/
def pd_unbind (o : PdObject) (name : String) : PdObject :=
  { o with bound := o.bound.erase name, calls := o.calls ++ [BindCall.unbind name] }

/-- Modelled from the spec: the engine routine `iemgui_verify_snd_ne_rcv` (Pure Data's
`g_all_guis.c`, not among the sources).  It recomputes the `x_put_in2out` flag from
the send and receive names and touches nothing else. -/
def iemgui_verify_snd_ne_rcv (o : PdObject) : PdObject :=
  { o with x_put_in2out := !(o.x_snd_able && o.x_rcv_able && o.x_snd == o.x_rcv) }

/-- Constant `std::numeric_limits<float>::epsilon()`, `2^-23`. -/
def floatEpsilon : ℚ := 1 / 2 ^ 23

/-- Constant `std::numeric_limits<float>::max()`, `(2 - 2^-23) * 2^127`. -/
def floatMax : ℚ := (2 - 1 / 2 ^ 23) * 2 ^ 127

/-! ## Binary32 arithmetic

The type `float` is IEEE 754 binary32: 24 significant bits, exponents from `-126`
(subnormal numbers included) to `127`, every operation rounded to the nearest value,
ties to the even significand. -/

/-- Rounding to the nearest integer, ties to the even one. -/
def roundHalfEven (q : ℚ) : Int :=
  if q - (Int.floor q : ℚ) < 1 / 2 then Int.floor q
  else if 1 / 2 < q - (Int.floor q : ℚ) then Int.floor q + 1
  else if Int.floor q % 2 = 0 then Int.floor q
  else Int.floor q + 1

/-- The binary exponent of a magnitude `q`, not below the exponent `-126` that the
subnormal numbers share with the smallest normal ones. -/
def f32Exponent (q : ℚ) : Int := if q < 2 ^ (-126 : Int) then -126 else Int.log 2 q

/-- The spacing of the binary32 values around a magnitude `q`. -/
def f32Ulp (q : ℚ) : ℚ := 2 ^ (f32Exponent q - 23)

/-- The nearest binary32 value to a magnitude `q` (exponent unbounded above). -/
def roundMag (q : ℚ) : ℚ := (roundHalfEven (q / f32Ulp q) : ℚ) * f32Ulp q

/-- The nearest binary32 value to `q`, ties to even (exponent unbounded above). -/
def roundF32 (q : ℚ) : ℚ := if 0 ≤ q then roundMag q else -roundMag (-q)

/-- A rational is a binary32 number when rounding leaves it as it is. -/
def isF32 (q : ℚ) : Prop := roundF32 q = q

instance (q : ℚ) : Decidable (isF32 q) := by unfold isF32; infer_instance

/-- A binary32 value: not-a-number, an infinity, or a finite number.  The two zeros
are one value: the embedded code never divides by a negative zero (its zero divisors
are converted integers and differences `x - x`) and compares floats only with `<`,
`==` and `!=`, none of which tells the zeros apart. -/
inductive F32 where
  | nan
  | inf (negative : Bool)
  | fin (q : ℚ)
  deriving DecidableEq

/-- The binary32 result of an operation whose exact result is `q`: the nearest
binary32 value, an infinity when that lies beyond `floatMax`. -/
def F32.ofRat (q : ℚ) : F32 :=
  if floatMax < |roundF32 q| then F32.inf (decide (q < 0)) else F32.fin (roundF32 q)

/-- Float comparison `a < b`; false when an operand is NaN. -/
def F32.lt : F32 → F32 → Bool
  | F32.fin a, F32.fin b => decide (a < b)
  | F32.fin _, F32.inf n => !n
  | F32.inf n, F32.fin _ => n
  | F32.inf n, F32.inf m => n && !m
  | F32.nan, _ => false
  | F32.fin _, F32.nan => false
  | F32.inf _, F32.nan => false

/-- Float comparison `a <= b`; false when an operand is NaN. -/
def F32.le : F32 → F32 → Bool
  | F32.fin a, F32.fin b => decide (a ≤ b)
  | F32.fin _, F32.inf n => !n
  | F32.inf n, F32.fin _ => n
  | F32.inf n, F32.inf m => n || !m
  | F32.nan, _ => false
  | F32.fin _, F32.nan => false
  | F32.inf _, F32.nan => false

/-- Float comparison `a == b`; false when an operand is NaN. -/
def F32.eq : F32 → F32 → Bool
  | F32.fin a, F32.fin b => decide (a = b)
  | F32.inf n, F32.inf m => decide (n = m)
  | _, _ => false

/-- C++ `std::max(a, b)` on floats: `(a < b) ? b : a`. -/
def F32.max (a b : F32) : F32 := if F32.lt a b then b else a

/-- C++ `std::min(a, b)` on floats: `(b < a) ? b : a`. -/
def F32.min (a b : F32) : F32 := if F32.lt b a then b else a

/-- Float negation. -/
def F32.neg : F32 → F32
  | F32.nan => F32.nan
  | F32.inf n => F32.inf (!n)
  | F32.fin q => F32.fin (-q)

/-- Float addition `a + b`. -/
def F32.add : F32 → F32 → F32
  | F32.fin a, F32.fin b => F32.ofRat (a + b)
  | F32.fin _, F32.inf n => F32.inf n
  | F32.inf n, F32.fin _ => F32.inf n
  | F32.inf n, F32.inf m => if n = m then F32.inf n else F32.nan
  | F32.nan, _ => F32.nan
  | F32.fin _, F32.nan => F32.nan
  | F32.inf _, F32.nan => F32.nan

/-- Float subtraction `a - b`. -/
def F32.sub (a b : F32) : F32 := F32.add a (F32.neg b)

/-- Float multiplication `a * b`. -/
def F32.mul : F32 → F32 → F32
  | F32.fin a, F32.fin b => F32.ofRat (a * b)
  | F32.fin a, F32.inf n => if a = 0 then F32.nan else F32.inf (xor n (decide (a < 0)))
  | F32.inf n, F32.fin b => if b = 0 then F32.nan else F32.inf (xor n (decide (b < 0)))
  | F32.inf n, F32.inf m => F32.inf (xor n m)
  | F32.nan, _ => F32.nan
  | F32.fin _, F32.nan => F32.nan
  | F32.inf _, F32.nan => F32.nan

/-- Float division `a / b`; a zero divisor is the positive zero. -/
def F32.div : F32 → F32 → F32
  | F32.fin a, F32.fin b =>
    if b = 0 then (if a = 0 then F32.nan else F32.inf (decide (a < 0)))
    else F32.ofRat (a / b)
  | F32.fin _, F32.inf _ => F32.fin 0
  | F32.inf n, F32.fin b => F32.inf (xor n (decide (b < 0)))
  | F32.inf _, F32.inf _ => F32.nan
  | F32.nan, _ => F32.nan
  | F32.fin _, F32.nan => F32.nan
  | F32.inf _, F32.nan => F32.nan

/-- Conversion `static_cast<float>(n)` of an integer. -/
def F32.ofInt (z : Int) : F32 := F32.ofRat (z : ℚ)

/-- The value is NaN. -/
def F32.isNaN : F32 → Bool
  | F32.nan => true
  | _ => false

/-! ## `PdGui.cpp`: the classifier -/

/-- Classifier `Gui::getType(void* ptr)` of `PdGui.cpp`. -/
def Gui.getType (o : PdObject) : GuiType :=
  let name := o.className
  if name = "bng" then GuiType.Bang
  else if name = "hsl" then GuiType.HorizontalSlider
  else if name = "vsl" then GuiType.VerticalSlider
  else if name = "tgl" then GuiType.Toggle
  else if name = "nbx" then GuiType.Number
  else if name = "vradio" then GuiType.VerticalRadio
  else if name = "hradio" then GuiType.HorizontalRadio
  else if name = "cnv" then GuiType.Panel
  else if name = "vu" then GuiType.VuMeter
  else if name = "text" then
    if o.te_type = T_OBJECT then GuiType.Invalid else GuiType.Comment
  else if name = "message" then GuiType.Message
  else if name = "pad" then GuiType.Mousepad
  else if name = "mouse" then GuiType.Mouse
  else if name = "keyboard" then GuiType.Keyboard
  else if name = "gatom" then
    if o.a_flavor = A_FLOAT then GuiType.AtomNumber
    else if o.a_flavor = A_SYMBOL then GuiType.AtomSymbol
    else GuiType.Undefined
  else if name = "canvas" ∨ name = "graph" then
    match o.gl_list with
    | some c =>
      if c = some "array" then GuiType.Array
      else if o.gl_isgraph then GuiType.GraphOnParent
      else GuiType.Subpatch
    | none =>
      if o.gl_isgraph then GuiType.GraphOnParent
      else GuiType.Subpatch
  else if name = "pd" then GuiType.Subpatch
  else GuiType.Undefined

/-- Constructor `Gui::Gui(ptr, patch, instance)`: the kind is classified once, from
the handle. -/
def Gui.new (o : PdObject) (i : Option Instance) : Gui :=
  { ptr := some o, inst := i, type := Gui.getType o }

/-! ## `PdGui.cpp`: range and value accessors -/

/-- Accessor `Gui::getMinimum`. -/
def Gui.getMinimum (g : Gui) : ℚ :=
  match g.ptr with
  | none => 0
  | some o =>
    if g.type = GuiType.HorizontalSlider then o.x_min
    else if g.type = GuiType.VerticalSlider then o.x_min
    else if g.type = GuiType.Number then o.x_min
    else if g.type = GuiType.AtomNumber then
      if |o.a_draglo| > floatEpsilon ∧ |o.a_draghi| > floatEpsilon then o.a_draglo
      else -floatMax
    else 0

/-- Accessor `Gui::getMaximum`.  For a radio group the `int` difference `x_number - 1`
is converted to the returned `float`, which rounds it to binary32. -/
def Gui.getMaximum (g : Gui) : ℚ :=
  match g.ptr with
  | none => 1
  | some o =>
    if g.type = GuiType.HorizontalSlider then o.x_max
    else if g.type = GuiType.VerticalSlider then o.x_max
    else if g.type = GuiType.Number then o.x_max
    else if g.type = GuiType.HorizontalRadio then roundF32 ((o.x_number - 1 : Int) : ℚ)
    else if g.type = GuiType.VerticalRadio then roundF32 ((o.x_number - 1 : Int) : ℚ)
    else if g.type = GuiType.Bang then 1
    else if g.type = GuiType.AtomNumber then
      if |o.a_draglo| > floatEpsilon ∧ |o.a_draghi| > floatEpsilon then o.a_draghi
      else floatMax
    else 1

/-- Mutator `Gui::setMaximum`.  For a radio group `x_number = value + 1` is a float
addition, rounded to binary32, whose result is converted to `int` (the conversion is
undefined in C++ outside the range of `int`, where the mathematical integer is
kept). -/
def Gui.setMaximum (g : Gui) (value : ℚ) : Gui :=
  match g.ptr with
  | none => g
  | some o =>
    if g.type = GuiType.HorizontalSlider then { g with ptr := some { o with x_max := value } }
    else if g.type = GuiType.VerticalSlider then { g with ptr := some { o with x_max := value } }
    else if g.type = GuiType.Number then { g with ptr := some { o with x_max := value } }
    else if g.type = GuiType.HorizontalRadio then
      { g with ptr := some { o with x_number := truncToInt (roundF32 (value + 1)) } }
    else if g.type = GuiType.VerticalRadio then
      { g with ptr := some { o with x_number := truncToInt (roundF32 (value + 1)) } }
    else if g.type = GuiType.AtomNumber then
      if |value| > floatEpsilon ∧ |value| > floatEpsilon then
        { g with ptr := some { o with a_draghi := value } }
      else g
    else g

/-- Mutator `Gui::setValue`: the value is routed through the instance's queue. -/
def Gui.setValue (g : Gui) (value : ℚ) : Gui :=
  match g.inst, g.ptr with
  | some i, some o =>
    if g.type = GuiType.Comment ∨ g.type = GuiType.AtomSymbol then g
    else { g with inst := some (i.enqueueDirectMessages o value) }
  | _, _ => g

/-! ## `GUIObjects.cpp`: the scaled value contract of `GUIComponent`

Over exact rationals, as the refinement of the specification's formulas is stated; the
same methods with every operation rounded to binary32 are `Binary32.GUIComponent`
below. -/

/-- The fields of `GUIComponent` the value contract reads and writes. -/
structure GUIComponent where
  gui : Gui := {}
  value : ℚ := 0
  min : ℚ := 0
  max : ℚ := 1
  edited : Bool := false
  deriving DecidableEq

/-- Method `GUIComponent::setValueOriginal`. -/
def GUIComponent.setValueOriginal (c : GUIComponent) (v : ℚ) : GUIComponent :=
  let minimum := c.min
  let maximum := c.max
  let value :=
    if minimum < maximum then stdMax (stdMin v maximum) minimum
    else stdMax (stdMin v minimum) maximum
  { c with value := value, gui := c.gui.setValue value }

/-- Method `GUIComponent::getValueScaled`. -/
def GUIComponent.getValueScaled (c : GUIComponent) : Option ℚ :=
  let minimum := c.min
  let maximum := c.max
  if minimum < maximum then fdiv (c.value - minimum) (maximum - minimum)
  else (fdiv (c.value - maximum) (minimum - maximum)).map (fun q => 1 - q)

/-- Method `GUIComponent::setValueScaled`. -/
def GUIComponent.setValueScaled (c : GUIComponent) (v : ℚ) : GUIComponent :=
  let minimum := c.min
  let maximum := c.max
  let value :=
    if minimum < maximum then stdMax (stdMin v 1) 0 * (maximum - minimum) + minimum
    else (1 - stdMax (stdMin v 1) 0) * (minimum - maximum) + maximum
  { c with value := value, gui := c.gui.setValue value }

/-! ## `PdGui.cpp`: send and receive bindings

`isIEM()` and `isAtom()` are declared in `PdGui.h`, which is not among the sources;
they are tests on the cached kind and are taken as parameters. -/

section Bindings

variable (isIEM isAtom : GuiType → Bool)

/-- Mutator `Gui::setSendSymbol`. -/
def Gui.setSendSymbol (g : Gui) (symbol : String) : Gui :=
  let g1 : Gui :=
    match g.ptr with
    | some iemgui =>
      if isIEM g.type then
        if symbol = "empty" then
          { g with ptr := some { iemgui with x_snd_able := false } }
        else
          { g with ptr := some (iemgui_verify_snd_ne_rcv
              { iemgui with x_snd := symbol, x_snd_able := true }) }
      else g
    | none => g
  match g1.ptr with
  | some gatom =>
    if isAtom g1.type then { g1 with ptr := some { gatom with a_symto := symbol } }
    else g1
  | none => g1

/-- Mutator `Gui::setReceiveSymbol`, the statements acting on the engine object
`iemgui` of an IEM control. -/
def setReceiveSymbolIem (iemgui : PdObject) (symbol : String) : PdObject :=
  let rcvable : Bool := if symbol = "empty" then false else true
  let o1 : PdObject :=
    if rcvable then
      if symbol ≠ iemgui.x_rcv then
        let o := if iemgui.x_rcv_able then pd_unbind iemgui iemgui.x_rcv else iemgui
        let o := { o with x_rcv := symbol }
        pd_bind o o.x_rcv
      else iemgui
    else if iemgui.x_rcv_able then
      let o := pd_unbind iemgui iemgui.x_rcv
      { o with x_rcv := symbol }
    else iemgui
  let o2 := { o1 with x_rcv_able := rcvable }
  let o3 := { o2 with x_rcv := symbol }
  iemgui_verify_snd_ne_rcv o3

/-- Mutator `Gui::setReceiveSymbol`. -/
def Gui.setReceiveSymbol (g : Gui) (symbol : String) : Gui :=
  match g.ptr with
  | some o =>
    if isIEM g.type then { g with ptr := some (setReceiveSymbolIem o symbol) }
    else if isAtom g.type then { g with ptr := some { o with a_symfrom := symbol } }
    else g
  | none => g

/-- Accessor `Gui::getSendSymbol`. -/
def Gui.getSendSymbol (g : Gui) : String :=
  match g.ptr with
  | some iemgui =>
    if isIEM g.type then
      let name := iemgui.x_snd
      if name = "empty" then "" else name
    else ""
  | none => ""

/-- Accessor `Gui::getReceiveSymbol`. -/
def Gui.getReceiveSymbol (g : Gui) : String :=
  match g.ptr with
  | some iemgui =>
    if isIEM g.type then
      let name := iemgui.x_rcv
      if name = "empty" then "" else name
    else ""
  | none => ""

end Bindings

/-! ## `GUIObjects.cpp`: `RadioComponent` -/

/-- The radio group: the base component, its range copies and its buttons.  A button
is represented by the index `i` its `onClick` closure captures. -/
structure RadioComponent where
  base : GUIComponent := {}
  minimum : ℚ := 0
  maximum : ℚ := 1
  radioButtons : List Int := []
  deriving DecidableEq

/-- The loop `for (int i = 0; i < numButtons; i++) radioButtons.add(...)` of
`RadioComponent::updateRange`, run for at most `fuel` iterations from `i`. -/
def updateRangeLoop (numButtons : Int) : Nat → Int → List Int → List Int
  | 0, _, buttons => buttons
  | fuel + 1, i, buttons =>
    if i < numButtons then updateRangeLoop numButtons fuel (i + 1) (buttons ++ [i])
    else buttons

/-- Method `RadioComponent::updateRange`.  The loop needs `numButtons` iterations when
that is positive and none otherwise, so `numButtons.toNat` is enough fuel. -/
def RadioComponent.updateRange (r : RadioComponent) : RadioComponent :=
  let minimum := r.base.gui.getMinimum
  let maximum := r.base.gui.getMaximum
  let numButtons : Int := truncToInt maximum - truncToInt minimum
  { r with
    minimum := minimum
    maximum := maximum
    radioButtons := updateRangeLoop numButtons numButtons.toNat 0 [] }

/-! ## The live array mirror: `GraphicalArray` of `GUIObjects.cpp`

Over exact rationals: these definitions are evaluated below only at inputs where every
intermediate value is a binary32 number, so that no operation rounds.  The same methods
over binary32 values, with rounding and NaN, are `Binary32.GraphicalArray` below. -/

/-- The canvas fields `gl_y1`, `gl_y2` read by `libpd_array_get_scale`. -/
structure Glist where
  gl_y1 : ℚ := 1
  gl_y2 : ℚ := -1
  deriving DecidableEq, Repr

/-- The engine's array (`t_fake_garray` of `x_libpd_extra_utils.c`) with its samples. -/
structure Garray where
  x_glist : Option Glist := none
  samples : List ℚ := []
  deriving DecidableEq, Repr

/-- Function `libpd_array_get_scale` of `x_libpd_extra_utils.c`; the argument is the
result of `libpd_array_get_byname(name)`, the result is `(*min, *max)`. -/
def libpd_array_get_scale (array : Option Garray) : ℚ × ℚ :=
  match array with
  | some a =>
    match a.x_glist with
    | some cnv => (cnv.gl_y2, cnv.gl_y1)
    | none => (-1, 1)
  | none => (-1, 1)

/-- The bridge's `pd::Array`: a name and what the engine resolves it to (`none` when
the name resolves to no array). -/
structure PdArray where
  name : String := ""
  garray : Option Garray := none
  deriving DecidableEq, Repr

/-- Modelled from the spec: `Array::getScale` (`PdArray.cpp`, not among the sources),
the two-element scale `(min, max)` the engine reports for the name. -/
def PdArray.getScale (a : PdArray) : ℚ × ℚ := libpd_array_get_scale a.garray

/-- Modelled from the spec: `Array::read` (`PdArray.cpp`, not among the sources), a
full read of the engine's buffer; it fails (throws) when the name does not resolve,
and then leaves its output argument as it was. -/
def PdArray.read (a : PdArray) : Option (List ℚ) := a.garray.map (fun g => g.samples)

/-- Modelled from the spec: `Array::write` (`PdArray.cpp`, not among the sources), a
write of one element; it fails (throws) when the name does not resolve or the index
is out of the engine buffer's range. -/
def PdArray.write (a : PdArray) (pos : Nat) (input : ℚ) : Option PdArray :=
  match a.garray with
  | some g =>
    if pos < g.samples.length then
      some { a with garray := some { g with samples := g.samples.set pos input } }
    else none
  | none => none

/-- Modelled from the spec: the helper `clip(value, lower, upper)` used by
`GraphicalArray` (declared outside the sources): the value clamped to
`[lower, upper]`. -/
def clip (value lower upper : ℚ) : ℚ := stdMax lower (stdMin value upper)

/-- C++ `std::round`: to the nearest integer, halfway cases away from zero. -/
def stdRound (q : ℚ) : Int := if 0 ≤ q then Int.floor (q + 1 / 2) else -Int.floor (-q + 1 / 2)

/-- Unsigned `size_t` subtraction `a - b` on a 64-bit target. -/
def sizeSub (a b : Nat) : Nat := (a + 2 ^ 64 - b % 2 ^ 64) % 2 ^ 64

/-- A pointer event: the position relative to the component. -/
structure MouseEvent where
  x : Int := 0
  y : Int := 0
  deriving DecidableEq, Repr

/-- The mirror `GraphicalArray`: the engine array it names, the local buffer `vec`,
the scratch buffer `temp`, the two flags, the component's size, and counters of the
`repaint()` and `enqueueMessages` calls made so far. -/
structure GraphicalArray where
  array : PdArray := {}
  vec : List ℚ := []
  temp : List ℚ := []
  edited : Bool := false
  error : Bool := false
  width : Int := 0
  height : Int := 0
  repaints : Nat := 0
  enqueued : Nat := 0
  deriving DecidableEq, Repr

/-- The buffer index `GraphicalArray::mouseDrag` computes from the pointer's `x`:
`static_cast<size_t>(std::round(clip(x / w, 0.f, 1.f) * s))`. -/
def GraphicalArray.dragIndex (a : GraphicalArray) (event : MouseEvent) : Option Nat :=
  let s : ℚ := (sizeSub a.vec.length 1 : Nat)
  let w : ℚ := a.width
  let x : ℚ := event.x
  (fdiv x w).map (fun r => (stdRound (clip r 0 1 * s)).toNat)

/-- The value `GraphicalArray::mouseDrag` computes from the pointer's `y`:
`(1.f - clip(y / h, 0.f, 1.f)) * (scale[1] - scale[0]) + scale[0]`. -/
def GraphicalArray.dragValue (a : GraphicalArray) (event : MouseEvent) : Option ℚ :=
  let h : ℚ := a.height
  let y : ℚ := event.y
  let scale := a.array.getScale
  (fdiv y h).map (fun r => (1 - clip r 0 1) * (scale.2 - scale.1) + scale.1)

/-- Method `GraphicalArray::mouseDrag`.  `lockAcquired` is the result of
`cs->tryEnter()`.  There is no result when a quotient is not a number or when
`vec[index]` is outside the buffer (undefined behaviour in the source). -/
def GraphicalArray.mouseDrag (a : GraphicalArray) (event : MouseEvent) (lockAcquired : Bool) :
    Option GraphicalArray :=
  if a.error then some a
  else
    match a.dragIndex event, a.dragValue event with
    | some index, some value =>
      if index < a.vec.length then
        let a1 := { a with vec := a.vec.set index value }
        let a2 :=
          if lockAcquired then
            match a1.array.write index value with
            | some arr => { a1 with array := arr }
            | none => { a1 with error := true }
          else a1
        some { a2 with enqueued := a2.enqueued + 1, repaints := a2.repaints + 1 }
      else none
    | _, _ => none

/-- Method `GraphicalArray::mouseDown`. -/
def GraphicalArray.mouseDown (a : GraphicalArray) (e : MouseEvent) (lockAcquired : Bool) :
    Option GraphicalArray :=
  if a.error then some a
  else GraphicalArray.mouseDrag { a with edited := true } e lockAcquired

/-- Method `GraphicalArray::mouseUp`. -/
def GraphicalArray.mouseUp (a : GraphicalArray) : GraphicalArray :=
  if a.error then a else { a with edited := false }

/-- Method `GraphicalArray::timerCallback`. -/
def GraphicalArray.timerCallback (a : GraphicalArray) : GraphicalArray :=
  if !a.edited then
    let a1 := { a with error := false }
    let a2 :=
      match a1.array.read with
      | some buffer => { a1 with temp := buffer }
      | none => { a1 with error := true }
    if a2.temp ≠ a2.vec then
      { a2 with vec := a2.temp, temp := a2.vec, repaints := a2.repaints + 1 }
    else a2
  else a

/-! ## `PdGui.cpp`: the remaining accessors

An accessor that dereferences `ptr` or `instance` without testing it has no result
(`none`) when that pointer is null. -/

/-- Modelled from the spec: the engine primitive `atom_getfloat` (Pure Data's
`m_atom.c`, not among the sources): the float of a float atom, `0` otherwise. -/
def atom_getfloat (a : TAtom) : ℚ := if a.a_type = A_FLOAT then a.w_float else 0

/-- Modelled from the spec: the engine primitive `atom_getsymbol` (Pure Data's
`m_atom.c`, not among the sources): the name of a symbol atom, the symbol `float`
otherwise. -/
def atom_getsymbol (a : TAtom) : String := if a.a_type = A_SYMBOL then a.w_symbol else "float"

/-- Conversion `int -> size_t` on a 64-bit target. -/
def sizeOfInt (z : Int) : Nat := (z % 2 ^ 64).toNat

/-- Helper `fake_gatom_getatom` of `PdGui.cpp`: the binbuf is reset to one atom of the
box's flavor when it does not hold exactly one such atom; the result is the object,
whose `te_binbuf` is the returned vector. -/
def fake_gatom_getatom (x : PdObject) : PdObject :=
  let ac := x.te_binbuf.length
  let av := x.te_binbuf
  if x.a_flavor = A_FLOAT ∧ (ac ≠ 1 ∨ av.head?.map TAtom.a_type ≠ some A_FLOAT) then
    { x with te_binbuf := [{ a_type := A_FLOAT, w_float := 0 }] }
  else if x.a_flavor = A_SYMBOL ∧ (ac ≠ 1 ∨ av.head?.map TAtom.a_type ≠ some A_SYMBOL) then
    { x with te_binbuf := [{ a_type := A_SYMBOL, w_symbol := "" }] }
  else x

/-- Accessor `Gui::getNumberOfSteps`. -/
def Gui.getNumberOfSteps (g : Gui) : Nat :=
  match g.ptr with
  | none => 0
  | some o =>
    if g.type = GuiType.Toggle then 2
    else if g.type = GuiType.HorizontalRadio then sizeOfInt (o.x_number - 1)
    else if g.type = GuiType.VerticalRadio then sizeOfInt o.x_number
    else if g.type = GuiType.AtomNumber then (if o.te_width = 1 then 1 else 0)
    else 0

/-- Accessor `Gui::getValue`: the value and the bridge object afterwards (the bang's
flash flag is reset by the read, and an atom box's binbuf may be normalised).  No
result when the atom box has no atom to read. -/
def Gui.getValue (g : Gui) : Option (ℚ × Gui) :=
  match g.ptr with
  | none => some (0, g)
  | some o =>
    if g.type = GuiType.HorizontalSlider then some (o.x_fval, g)
    else if g.type = GuiType.VerticalSlider then some (o.x_fval, g)
    else if g.type = GuiType.Toggle then some (o.x_on, g)
    else if g.type = GuiType.Number then some (o.x_val, g)
    else if g.type = GuiType.HorizontalRadio then some (o.x_on, g)
    else if g.type = GuiType.VerticalRadio then some (o.x_on, g)
    else if g.type = GuiType.Bang then
      if o.x_flashed > 0 then some (1, { g with ptr := some { o with x_flashed := 0 } })
      else some (0, g)
    else if g.type = GuiType.VuMeter then some (o.x_fp, g)
    else if g.type = GuiType.AtomNumber then
      let o1 := fake_gatom_getatom o
      match o1.te_binbuf.head? with
      | some a => some (atom_getfloat a, { g with ptr := some o1 })
      | none => none
    else some (0, g)

/-- The decoding of one engine atom in the loop of `Gui::getList`. -/
def decodeAtom (a : TAtom) : Atom :=
  if a.a_type = A_FLOAT then Atom.float (atom_getfloat a)
  else if a.a_type = A_SYMBOL then Atom.symbol (atom_getsymbol a)
  else Atom.untyped

/-- The loop `for (int i = 0; i < ac; ++i) array.push_back(...)` of `Gui::getList`
over the atoms not yet visited. -/
def getListLoop : List TAtom → List Atom → List Atom
  | [], array => array
  | a :: rest, array => getListLoop rest (array ++ [decodeAtom a])

/-- Accessor `Gui::getList`. -/
def Gui.getList (g : Gui) : Option (List Atom) :=
  match g.ptr with
  | none => some []
  | some o =>
    if g.type ≠ GuiType.AtomList then some []
    else
      match g.inst with
      | none => none
      | some _ => some (getListLoop o.te_binbuf [])

/-- Mutator `Gui::setList`. -/
def Gui.setList (g : Gui) (value : List Atom) : Option Gui :=
  match g.ptr with
  | none => some g
  | some o =>
    if g.type ≠ GuiType.AtomList then some g
    else
      match g.inst with
      | none => none
      | some i => some { g with inst := some (i.enqueueDirectMessagesList o value) }

/-- Accessor `Gui::jumpOnClick`. -/
def Gui.jumpOnClick (g : Gui) : Bool :=
  match g.ptr with
  | none => false
  | some o =>
    if g.type = GuiType.HorizontalSlider then decide (o.x_steady = 0)
    else if g.type = GuiType.VerticalSlider then decide (o.x_steady = 0)
    else false

/-- Accessor `Gui::getSymbol`; `binbuf_gettext` is the engine's rendering of a binbuf
as text.  The result is the text and the bridge object afterwards. -/
def Gui.getSymbol (binbuf_gettext : List TAtom → String) (g : Gui) : Option (String × Gui) :=
  match g.ptr with
  | none => some ("", g)
  | some o =>
    if g.type = GuiType.Message then
      match g.inst with
      | none => none
      | some _ => some (binbuf_gettext o.te_binbuf, g)
    else if g.type = GuiType.AtomSymbol then
      match g.inst with
      | none => none
      | some _ =>
        let o1 := fake_gatom_getatom o
        match o1.te_binbuf.head? with
        | some a => some (atom_getsymbol a, { g with ptr := some o1 })
        | none => none
    else some ("", g)

/-- The four integers `{x, y, width, height}` of a bounding box. -/
structure Bounds where
  x : Int := 0
  y : Int := 0
  w : Int := 0
  h : Int := 0
  deriving DecidableEq, Repr

section Geometry

variable (isIEM isAtom : GuiType → Bool)

/-- Accessor `Gui::getBounds`; `bounds` is the value of `Object::getBounds()`
(`PdObject.cpp`, not among the sources), the engine's bounding box of the object.
The panel and IEM branches read the handle without testing it. -/
def Gui.getBounds (bounds : Bounds) (g : Gui) : Option Bounds :=
  if g.type = GuiType.Panel then
    g.ptr.map (fun o => { x := bounds.x, y := bounds.y, w := o.x_vis_w + 1, h := o.x_vis_h + 1 })
  else if g.type = GuiType.AtomNumber ∨ g.type = GuiType.AtomSymbol then
    some { x := bounds.x, y := bounds.y, w := bounds.w, h := bounds.h - 2 }
  else if g.type = GuiType.Comment then
    some { x := bounds.x + 2, y := bounds.y + 2, w := bounds.w, h := bounds.h - 2 }
  else if isIEM g.type then
    g.ptr.map (fun iemgui => { x := bounds.x, y := bounds.y, w := iemgui.x_w, h := iemgui.x_h })
  else some bounds

/-- Mutator `Gui::setSize`; `setWidth` is `Object::setWidth` (`PdObject.cpp`, not among
the sources).  The panel and IEM branches write through the handle without testing
it. -/
def Gui.setSize (setWidth : Gui → Int → Gui) (g : Gui) (w h : Int) : Option Gui :=
  if g.type = GuiType.Panel then
    g.ptr.map (fun o => { g with ptr := some { o with x_vis_w := w - 1, x_vis_h := h - 1 } })
  else if isIEM g.type then
    g.ptr.map (fun iemgui => { g with ptr := some { iemgui with x_w := w, x_h := h } })
  else some (setWidth g w)

/-- Accessor `Gui::getLabelPosition`; `canvas_realizedollar` is the engine's label
resolution (`none` for a null symbol) and `glist_fontwidth` the engine's font width
of the owning canvas.  The position is `(posx, posy)`. -/
def Gui.getLabelPosition (canvas_realizedollar : String → Option String)
    (glist_fontwidth : Int) (g : Gui) (bounds : Bounds) : Option (Int × Int) :=
  match g.inst with
  | none => none
  | some _ =>
    let fontheight : Int := 17
    if isIEM g.type then
      match g.ptr with
      | none => none
      | some iemgui =>
        match canvas_realizedollar iemgui.x_lab with
        | some _ => some (bounds.x + iemgui.x_ldx, bounds.y + iemgui.x_ldy)
        | none => some (bounds.x, bounds.y)
    else if isAtom g.type then
      match g.ptr with
      | none => none
      | some gatom =>
        match canvas_realizedollar gatom.a_label with
        | some text =>
          if gatom.a_wherelabel = 0 then
            let nchars : Int := text.utf8ByteSize
            let fwidth := glist_fontwidth
            some (bounds.x - 4 - nchars * fwidth, bounds.y + 2 + fontheight / 2)
          else if gatom.a_wherelabel = 1 then
            some (bounds.x + bounds.w + 2, bounds.y + 2 + fontheight / 2)
          else if gatom.a_wherelabel = 2 then
            some (bounds.x - 1, bounds.y - 1 - fontheight / 2)
          else
            some (bounds.x - 1, bounds.y + bounds.h + 2 + fontheight / 2)
        | none => some (bounds.x, bounds.y)
    else some (bounds.x, bounds.y)

end Geometry

/-! ## `GUIObjects.cpp`: `Subpatch` -/

/-- Method `Subpatch::updateValue`: whether it calls `box->setType(box->getText(),
true)`, which makes the box create the control anew.  No result on a null handle. -/
def Subpatch.updateValue (c : GUIComponent) : Option Bool :=
  c.gui.ptr.map (fun o => o.gl_isgraph)

/-- Modelled from the spec: `Gui::isIEM` (declared in `PdGui.h`, not among the
sources), the kinds whose engine object starts with the `t_iemgui` layout: the
sliders, toggle, number box, radio groups, bang, panel and meter. -/
def iemKinds (t : GuiType) : Bool :=
  decide (t ∈ [GuiType.HorizontalSlider, GuiType.VerticalSlider, GuiType.Toggle,
    GuiType.Number, GuiType.HorizontalRadio, GuiType.VerticalRadio, GuiType.Bang,
    GuiType.Panel, GuiType.VuMeter])

/-- Modelled from the spec: `Gui::isAtom` (declared in `PdGui.h`, not among the
sources), the atom-box kinds. -/
def atomKinds (t : GuiType) : Bool :=
  decide (t ∈ [GuiType.AtomNumber, GuiType.AtomSymbol, GuiType.AtomList])

/-! ## `GUIObjects.cpp`: engine snapshots and the `edited` flag

The two one-way channels of the cross-thread queue.  `enqueueFunction`
(`PdInstance.cpp`) and `MessageManager::callAsync` (the toolkit) are not among the
sources; a step of the engine thread runs the oldest queued closure and a step of the UI
thread runs the oldest scheduled callback, and the steps of the two threads interleave
freely. -/

/-- A control with the state of its two channels. -/
structure ControlSync where
  comp : GUIComponent := {}
  /-- the closures `updateValue` has handed to `enqueueFunction` and the engine thread has
  not run yet -/
  pending : Nat := 0
  /-- the callbacks handed to `callAsync` and not run yet, each with the value `v` it
  captured, oldest first -/
  callbacks : List ℚ := []
  /-- the calls of `update()` so far -/
  updates : Nat := 0
  /-- the values sent by `enqueueMessages(stringGui, stringMouse, ...)`, oldest first -/
  mouseMessages : List ℚ := []
  deriving DecidableEq

/-- Method `GUIComponent::updateValue`, on the UI thread. -/
def ControlSync.updateValue (s : ControlSync) : ControlSync :=
  if s.comp.edited = false then { s with pending := s.pending + 1 } else s

/-- Modelled from the spec: one step of the engine thread's drain, which runs the oldest
closure queued by `updateValue`; the closure's body `float const v = gui.getValue();
MessageManager::callAsync(...)` is that of the source. -/
def ControlSync.drain (s : ControlSync) : Option ControlSync :=
  if s.pending = 0 then some s
  else
    match s.comp.gui.getValue with
    | some (v, gui) =>
      some { s with comp := { s.comp with gui := gui }, pending := s.pending - 1,
                    callbacks := s.callbacks ++ [v] }
    | none => none

/-- Modelled from the spec: one step of the UI thread's message loop, which runs the
oldest callback scheduled by `callAsync`; the callback's body `if (v != value) { value = v;
update(); }` is that of the source. -/
def ControlSync.callback (s : ControlSync) : ControlSync :=
  match s.callbacks with
  | [] => s
  | v :: rest =>
    if v ≠ s.comp.value then
      { s with comp := { s.comp with value := v }, updates := s.updates + 1, callbacks := rest }
    else { s with callbacks := rest }

/-- Method `GUIComponent::startEdition`. -/
def ControlSync.startEdition (s : ControlSync) : Option ControlSync :=
  let s1 := { s with comp := { s.comp with edited := true },
                     mouseMessages := s.mouseMessages ++ [1] }
  match s1.comp.gui.getValue with
  | some (v, gui) => some { s1 with comp := { s1.comp with gui := gui, value := v } }
  | none => none

/-- Method `GUIComponent::stopEdition`. -/
def ControlSync.stopEdition (s : ControlSync) : ControlSync :=
  { s with comp := { s.comp with edited := false }, mouseMessages := s.mouseMessages ++ [0] }

/-- The slider's `onValueChange` for a linear slider: `setValueScaled(val)`. -/
def ControlSync.setValueScaled (s : ControlSync) (val : ℚ) : ControlSync :=
  { s with comp := s.comp.setValueScaled val }

/-! ## `GUIObjects.cpp`: construction and gestures of `GraphicalArray` -/

/-- Constructor `GraphicalArray::GraphicalArray`.  The member `error` is not in the
initialiser list; `error` is the value it has when the body starts (its declaration is in
`GUIObjects.h`, not among the sources). -/
def GraphicalArray.new (graph : PdArray) (width height : Int) (error : Bool) : GraphicalArray :=
  if graph.name = "" then
    { array := graph, edited := false, error := error, width := width, height := height }
  else
    match graph.read with
    | some buffer =>
      { array := graph, vec := buffer, edited := false, error := error, width := width,
        height := height }
    | none =>
      { array := graph, edited := false, error := true, width := width, height := height }

/-- What can happen to a mirror: the three pointer callbacks (with the outcome of
`tryEnter` where the lock is tried), a timer tick, and a change on the engine's side of
what the array's name resolves to. -/
inductive MirrorEvent where
  | mouseDown (e : MouseEvent) (lockAcquired : Bool)
  | mouseDrag (e : MouseEvent) (lockAcquired : Bool)
  | mouseUp
  | timerCallback
  | engine (garray : Option Garray)
  deriving DecidableEq, Repr

/-- One event applied to a mirror. -/
def GraphicalArray.step (a : GraphicalArray) : MirrorEvent → Option GraphicalArray
  | MirrorEvent.mouseDown e lockAcquired => a.mouseDown e lockAcquired
  | MirrorEvent.mouseDrag e lockAcquired => a.mouseDrag e lockAcquired
  | MirrorEvent.mouseUp => some a.mouseUp
  | MirrorEvent.timerCallback => some a.timerCallback
  | MirrorEvent.engine garray => some { a with array := { a.array with garray := garray } }

/-- A sequence of events applied to a mirror, oldest first. -/
def GraphicalArray.run (a : GraphicalArray) : List MirrorEvent → Option GraphicalArray
  | [] => some a
  | e :: rest =>
    match a.step e with
    | some a1 => GraphicalArray.run a1 rest
    | none => none

/-! ## `GUIObjects.cpp`: `MessageComponent` -/

/-- C++ `std::max(a, b)` on `int`: `(a < b) ? b : a`. -/
def stdMaxInt (a b : Int) : Int := if a < b then b else a

/-- The fields of `MessageComponent` that `updateValue` reads and writes, and the calls
of `update()` so far. -/
structure MessageComponent where
  base : GUIComponent := {}
  lastMessage : String := ""
  numLines : Int := 1
  longestLine : Int := 7
  updates : Nat := 0
  deriving DecidableEq

/-- The loop `for (auto& c : v)` of `MessageComponent::updateValue` over the characters
not yet visited; the state is `(numLines, longestLine, currentLineLength)`.  The loop
visits the `char`s of a `std::string`, its bytes; the text is given as its characters,
which are its bytes for an ASCII text. -/
def messageScan : List Char → Int × Int × Int → Int × Int × Int
  | [], state => state
  | c :: rest, (numLines, longestLine, currentLineLength) =>
    if c = Char.ofNat 10 then
      messageScan rest (numLines + 1, stdMaxInt longestLine currentLineLength, 0)
    else
      messageScan rest (numLines, longestLine, currentLineLength + 1)

/-- Method `MessageComponent::updateValue`; `binbuf_gettext` is the engine's rendering of
a binbuf as text, used by `gui.getSymbol()`.  The test `String(v).startsWith("click")` is
the comparison of the first five characters of `v` with `click`. -/
def MessageComponent.updateValue (binbuf_gettext : List TAtom → String)
    (m : MessageComponent) : Option MessageComponent :=
  if !m.base.edited then
    match m.base.gui.getSymbol binbuf_gettext with
    | none => none
    | some (v, gui) =>
      let m1 := { m with base := { m.base with gui := gui } }
      if m.lastMessage ≠ v ∧ ¬ (v.toList.take 5 = "click".toList) then
        let scanned := messageScan v.toList (1, 7, 0)
        let numLines := scanned.1
        let longestLine :=
          if numLines = 1 then stdMaxInt scanned.2.1 scanned.2.2 else scanned.2.1
        some { m1 with numLines := numLines, longestLine := longestLine, lastMessage := v,
                       updates := m1.updates + 1 }
      else some m1
  else some m

/-! ## IEM colours: `x_libpd_extra_utils.c` and `PdGui.cpp` -/

/-- Conversion of an `int` to `unsigned int` (32 bits, two's complement). -/
def toU32 (z : Int) : Nat := (z % 2 ^ 32).toNat

/-- Function `convert_from_iem_color` of `x_libpd_extra_utils.c`, in 32-bit unsigned
arithmetic. -/
def convert_from_iem_color (color : Int) : Nat :=
  let c : Nat := ((toU32 color <<< 8) ||| 0xFF) % 2 ^ 32
  ((0xFF <<< 24) ||| ((c >>> 24) <<< 16) ||| ((c >>> 16) <<< 8) ||| (c >>> 8)) % 2 ^ 32

/-- Function `fromIemColors` of `PdGui.cpp`, in 32-bit unsigned arithmetic. -/
def fromIemColors (color : Int) : Nat :=
  let c : Nat := ((toU32 color <<< 8) ||| 0xFF) % 2 ^ 32
  ((0xFF <<< 24) ||| ((c >>> 24) <<< 16) ||| ((c >>> 16) <<< 8) ||| (c >>> 8)) % 2 ^ 32

/-! ## The scaling as the specification words it -/

/-- The specification's scaling of a normalized input: `min + clamp(v, 0, 1) * (max -
min)`, one formula for both orders of the range. -/
def setValueScaledSpec (minimum maximum v : ℚ) : ℚ :=
  minimum + Max.max 0 (Min.min v 1) * (maximum - minimum)

/-- The specification's normalisation of a stored value: `(value - min) / (max - min)`,
one formula for both orders of the range. -/
def getValueScaledSpec (minimum maximum value : ℚ) : ℚ :=
  (value - minimum) / (maximum - minimum)

/-! ## The float computations over binary32 values

The definitions above compute on exact rationals, which is what the code computes
wherever no operation rounds.  The definitions of this section repeat the float
computations of `GUIComponent` and of `GraphicalArray` on binary32 values: every
operation is rounded on its own (no fused multiply-add), and NaN and the infinities
take part as IEEE 754 has them. -/

/-- C++ `std::round` on a float: to the nearest integer, halfway cases away from
zero; NaN and the infinities are returned as they are. -/
def F32.round : F32 → F32
  | F32.fin q => F32.fin (stdRound q : ℚ)
  | F32.inf n => F32.inf n
  | F32.nan => F32.nan

/-- Conversion `static_cast<size_t>(x)` of a float on a 64-bit target: truncation
toward zero.  The conversion is undefined, and has no result here, for NaN, for an
infinity and for a value whose truncation is outside `[0, 2 ^ 64)`. -/
def F32.toSize : F32 → Option Nat
  | F32.fin q => if -1 < q ∧ q < 2 ^ 64 then some (truncToInt q).toNat else none
  | F32.inf _ => none
  | F32.nan => none

/-- Comparison `a == b` of two `std::vector<float>`: equal sizes and elements that
compare equal with the float `==`, one by one. -/
def vectorEq : List F32 → List F32 → Bool
  | [], [] => true
  | x :: xs, y :: ys => F32.eq x y && vectorEq xs ys
  | [], _ :: _ => false
  | _ :: _, [] => false

namespace Binary32

/-- The fields of `GUIComponent` the value contract reads and writes: `min` and
`max` are the floats `static_cast<float>(min.getValue())` and
`static_cast<float>(max.getValue())`, and `setValueCalls` holds the arguments of the
calls `gui.setValue(value)` made so far, oldest first. -/
structure GUIComponent where
  value : F32 := F32.fin 0
  min : F32 := F32.fin 0
  max : F32 := F32.fin 1
  setValueCalls : List F32 := []
  deriving DecidableEq

/-- Method `GUIComponent::setValueOriginal`. -/
def GUIComponent.setValueOriginal (c : GUIComponent) (v : F32) : GUIComponent :=
  let minimum := c.min
  let maximum := c.max
  let value :=
    if F32.lt minimum maximum then F32.max (F32.min v maximum) minimum
    else F32.max (F32.min v minimum) maximum
  { c with value := value, setValueCalls := c.setValueCalls ++ [value] }

/-- Method `GUIComponent::getValueScaled`. -/
def GUIComponent.getValueScaled (c : GUIComponent) : F32 :=
  let minimum := c.min
  let maximum := c.max
  if F32.lt minimum maximum then
    F32.div (F32.sub c.value minimum) (F32.sub maximum minimum)
  else
    F32.sub (F32.fin 1) (F32.div (F32.sub c.value maximum) (F32.sub minimum maximum))

/-- Method `GUIComponent::setValueScaled`. -/
def GUIComponent.setValueScaled (c : GUIComponent) (v : F32) : GUIComponent :=
  let minimum := c.min
  let maximum := c.max
  let value :=
    if F32.lt minimum maximum then
      F32.add (F32.mul (F32.max (F32.min v (F32.fin 1)) (F32.fin 0)) (F32.sub maximum minimum))
        minimum
    else
      F32.add
        (F32.mul (F32.sub (F32.fin 1) (F32.max (F32.min v (F32.fin 1)) (F32.fin 0)))
          (F32.sub minimum maximum))
        maximum
  { c with value := value, setValueCalls := c.setValueCalls ++ [value] }

/-- The canvas fields `gl_y1`, `gl_y2` read by `libpd_array_get_scale`. -/
structure Glist where
  gl_y1 : F32 := F32.fin 1
  gl_y2 : F32 := F32.fin (-1)
  deriving DecidableEq

/-- The engine's array (`t_fake_garray` of `x_libpd_extra_utils.c`) with its samples. -/
structure Garray where
  x_glist : Option Glist := none
  samples : List F32 := []
  deriving DecidableEq

/-- Function `libpd_array_get_scale` of `x_libpd_extra_utils.c`; the argument is the
result of `libpd_array_get_byname(name)`, the result is `(*min, *max)`. -/
def libpd_array_get_scale (array : Option Garray) : F32 × F32 :=
  match array with
  | some a =>
    match a.x_glist with
    | some cnv => (cnv.gl_y2, cnv.gl_y1)
    | none => (F32.fin (-1), F32.fin 1)
  | none => (F32.fin (-1), F32.fin 1)

/-- The bridge's `pd::Array`: a name and what the engine resolves it to (`none` when
the name resolves to no array). -/
structure PdArray where
  name : String := ""
  garray : Option Garray := none
  deriving DecidableEq

/-- Modelled from the spec: `Array::getScale` (`PdArray.cpp`, not among the sources),
the two-element scale `(min, max)` the engine reports for the name. -/
def PdArray.getScale (a : PdArray) : F32 × F32 := libpd_array_get_scale a.garray

/-- Modelled from the spec: `Array::read` (`PdArray.cpp`, not among the sources), a
full read of the engine's buffer; it fails (throws) when the name does not resolve,
and then leaves its output argument as it was. -/
def PdArray.read (a : PdArray) : Option (List F32) := a.garray.map (fun g => g.samples)

/-- Modelled from the spec: `Array::write` (`PdArray.cpp`, not among the sources), a
write of one element; it fails (throws) when the name does not resolve or the index
is out of the engine buffer's range. -/
def PdArray.write (a : PdArray) (pos : Nat) (input : F32) : Option PdArray :=
  match a.garray with
  | some g =>
    if pos < g.samples.length then
      some { a with garray := some { g with samples := g.samples.set pos input } }
    else none
  | none => none

/-- Modelled from the spec: the helper `clip(value, lower, upper)` used by
`GraphicalArray` (declared outside the sources): the value clamped to
`[lower, upper]`, as `std::max(lower, std::min(value, upper))`. -/
def clip (value lower upper : F32) : F32 := F32.max lower (F32.min value upper)

/-- The mirror `GraphicalArray`: the engine array it names, the local buffer `vec`,
the scratch buffer `temp`, the two flags, the component's size, and counters of the
`repaint()` and `enqueueMessages` calls made so far. -/
structure GraphicalArray where
  array : PdArray := {}
  vec : List F32 := []
  temp : List F32 := []
  edited : Bool := false
  error : Bool := false
  width : Int := 0
  height : Int := 0
  repaints : Nat := 0
  enqueued : Nat := 0
  deriving DecidableEq

/-- The float `index` expression of `GraphicalArray::mouseDrag` before its conversion
to `size_t`: `std::round(clip(x / w, 0.f, 1.f) * s)` with
`s = static_cast<float>(vec.size() - 1)`. -/
def GraphicalArray.dragPosition (a : GraphicalArray) (event : MouseEvent) : F32 :=
  let s := F32.ofRat ((sizeSub a.vec.length 1 : Nat) : ℚ)
  let w := F32.ofInt a.width
  let x := F32.ofInt event.x
  F32.round (F32.mul (clip (F32.div x w) (F32.fin 0) (F32.fin 1)) s)

/-- The buffer index `GraphicalArray::mouseDrag` computes from the pointer's `x`:
`static_cast<size_t>(std::round(clip(x / w, 0.f, 1.f) * s))`. -/
def GraphicalArray.dragIndex (a : GraphicalArray) (event : MouseEvent) : Option Nat :=
  F32.toSize (a.dragPosition event)

/-- The value `GraphicalArray::mouseDrag` computes from the pointer's `y`:
`(1.f - clip(y / h, 0.f, 1.f)) * (scale[1] - scale[0]) + scale[0]`. -/
def GraphicalArray.dragValue (a : GraphicalArray) (event : MouseEvent) : F32 :=
  let h := F32.ofInt a.height
  let y := F32.ofInt event.y
  let scale := a.array.getScale
  F32.add
    (F32.mul (F32.sub (F32.fin 1) (clip (F32.div y h) (F32.fin 0) (F32.fin 1)))
      (F32.sub scale.2 scale.1))
    scale.1

/-- Method `GraphicalArray::mouseDrag`.  `lockAcquired` is the result of
`cs->tryEnter()`.  There is no result when the conversion to `size_t` is undefined or
when `vec[index]` is outside the buffer (undefined behaviour in the source). -/
def GraphicalArray.mouseDrag (a : GraphicalArray) (event : MouseEvent) (lockAcquired : Bool) :
    Option GraphicalArray :=
  if a.error then some a
  else
    match a.dragIndex event with
    | some index =>
      if index < a.vec.length then
        let value := a.dragValue event
        let a1 := { a with vec := a.vec.set index value }
        let a2 :=
          if lockAcquired then
            match a1.array.write index value with
            | some arr => { a1 with array := arr }
            | none => { a1 with error := true }
          else a1
        some { a2 with enqueued := a2.enqueued + 1, repaints := a2.repaints + 1 }
      else none
    | none => none

/-- Method `GraphicalArray::mouseDown`. -/
def GraphicalArray.mouseDown (a : GraphicalArray) (e : MouseEvent) (lockAcquired : Bool) :
    Option GraphicalArray :=
  if a.error then some a
  else GraphicalArray.mouseDrag { a with edited := true } e lockAcquired

/-- Method `GraphicalArray::timerCallback`; `temp != vec` is the comparison of two
`std::vector<float>`. -/
def GraphicalArray.timerCallback (a : GraphicalArray) : GraphicalArray :=
  if !a.edited then
    let a1 := { a with error := false }
    let a2 :=
      match a1.array.read with
      | some buffer => { a1 with temp := buffer }
      | none => { a1 with error := true }
    if !vectorEq a2.temp a2.vec then
      { a2 with vec := a2.temp, temp := a2.vec, repaints := a2.repaints + 1 }
    else a2
  else a

end Binary32

/-- The number the clamp `std::max(std::min(v, 1.f), 0.f)` yields for a float that is
not NaN. -/
def unitClampNum : F32 → ℚ
  | F32.fin q => stdMax (stdMin q 1) 0
  | F32.inf false => 1
  | F32.inf true => 0
  | F32.nan => 0

/-- The unit roundoff of binary32, `2 ^ -24`. -/
def unitRoundoff : ℚ := 1 / 2 ^ 24

/-- Half the spacing of the subnormal numbers of binary32, `2 ^ -150`. -/
def subnormalHalfUlp : ℚ := 1 / 2 ^ 150

/-- The error `2 ^ -24 * (d + |a|) + 2 ^ -150` one rounding can add to a sum of
magnitude at most `d + |a|`. -/
def stepError (a d : ℚ) : ℚ := unitRoundoff * (d + |a|) + subnormalHalfUlp

/-- The tolerance of the scaled round trip over a span `d` anchored at the end `a`:
seven step errors relative to the span, and the roundings of `1 - x` and of the
result. -/
def roundTripTolerance (a d : ℚ) : ℚ :=
  7 * (stepError a d / d) + 4 * unitRoundoff + 3 * subnormalHalfUlp

/-! ## Concrete controls and mirrors used as inputs below -/

/-- A horizontal radio group as the engine creates it, with 8 buttons. -/
def hradio8 : Gui :=
  { ptr := some { className := "hradio", x_number := 8 }, type := GuiType.HorizontalRadio }

/-- A vertical radio group with 8 buttons. -/
def vradio8 : Gui :=
  { ptr := some { className := "vradio", x_number := 8 }, type := GuiType.VerticalRadio }

/-- Scenario 2's mirror: the array `tab1` of 100 samples in a graph whose vertical
range runs from `gl_y1 = 1` (top) to `gl_y2 = -1` (bottom), so that the scale is
`(-1, 1)`, shown in a component of 200 by 140 pixels. -/
def tab1Mirror : GraphicalArray :=
  { array := { name := "tab1",
               garray := some { x_glist := some { gl_y1 := 1, gl_y2 := -1 },
                                samples := List.replicate 100 0 } },
    vec := List.replicate 100 0, width := 200, height := 140, edited := true }

/-- A mirror in step with the engine: the one-sample array `tab1` holds `1`, and so
do the mirror and, after a timer tick, the scratch buffer. -/
def syncedMirror : GraphicalArray :=
  { array := { name := "tab1", garray := some { samples := [1] } }, vec := [1], temp := [1],
    width := 200, height := 140 }

/-- The mirror `syncedMirror` after a click at a quarter of its height that did not
get the callback lock, followed by the removal of the array from the engine: the
name resolves to nothing, the mirror holds the edit and the scratch buffer the read
before it. -/
def orphanMirror : GraphicalArray :=
  { array := { name := "tab1", garray := none }, vec := [1 / 2], temp := [1],
    width := 200, height := 140, repaints := 1, enqueued := 1 }

/-- A bang whose send and receive names are both `bar`, bound to its receive name. -/
def bngBar : Gui :=
  { ptr := some { className := "bng", x_snd := "bar", x_snd_able := true,
                  x_rcv := "bar", x_rcv_able := true, bound := ["bar"],
                  x_put_in2out := false },
    type := GuiType.Bang }

/-- A bang bound to the receive name `foo`. -/
def bngFoo : Gui :=
  { ptr := some { className := "bng", x_rcv := "foo", x_rcv_able := true, bound := ["foo"] },
    type := GuiType.Bang }

/-- A bang whose stored receive name is `foo` while its receive flag is clear and it
is bound to nothing. -/
def bngIdleFoo : Gui :=
  { ptr := some { className := "bng", x_rcv := "foo", x_rcv_able := false, bound := [] },
    type := GuiType.Bang }

/-- A graph whose first child is an array and whose graph flag is set, as the engine
builds one for an array. -/
def arrayGraph : PdObject :=
  { className := "graph", gl_list := some (some "array"), gl_isgraph := true }

/-- The engine's asynchronous write of the graph flag (`gl_isgraph = 1`) into the
object behind the handle, the event the comment of `Subpatch::updateValue` speaks of;
the bridge object itself is not touched. -/
def Gui.engineSetsGraphFlag (g : Gui) : Gui :=
  { g with ptr := g.ptr.map (fun o => { o with gl_isgraph := true }) }

/-- A sub-patch canvas without children whose graph flag is clear. -/
def subpatchCanvas : PdObject :=
  { className := "canvas", gl_list := none, gl_isgraph := false }

/-- An atom box whose flavor tag is `A_NULL` (0), holding a two-atom list. -/
def listGatom : PdObject :=
  { className := "gatom", a_flavor := 0,
    te_binbuf := [{ a_type := A_FLOAT, w_float := 3 }, { a_type := A_SYMBOL, w_symbol := "x" }] }

/-- An object box: class `text` with `te_type = T_OBJECT`. -/
def objectBox : PdObject :=
  { className := "text", te_type := T_OBJECT }

/-- A toggle with a live handle at address 7 and a live instance with an empty queue. -/
def liveToggle : Gui :=
  { ptr := some { addr := 7, className := "tgl" }, inst := some {}, type := GuiType.Toggle }

/-- A list box: kind `AtomList` over an atom box holding a float, a symbol and a
pointer atom (type tag 3). -/
def listBox : Gui :=
  { ptr := some { className := "gatom",
                  te_binbuf := [{ a_type := A_FLOAT, w_float := 3 },
                                { a_type := A_SYMBOL, w_symbol := "x" },
                                { a_type := 3 }] },
    inst := some {}, type := GuiType.AtomList }

/-- A panel whose visible size is 99 by 59. -/
def panel100 : Gui :=
  { ptr := some { className := "cnv", x_vis_w := 99, x_vis_h := 59 }, type := GuiType.Panel }

/-- A comment. -/
def commentBox : Gui :=
  { ptr := some { className := "text" }, type := GuiType.Comment }

/-- A number atom box labelled `freq`, label on the left. -/
def gatomFreq : Gui :=
  { ptr := some { className := "gatom", a_flavor := A_FLOAT, a_label := "freq",
                  a_wherelabel := 0 },
    inst := some {}, type := GuiType.AtomNumber }

/-- The engine bounding box used in the examples. -/
def box10 : Bounds := { x := 10, y := 20, w := 30, h := 40 }

/-- A label resolution that resolves every label to itself. -/
def realizeSelf (label : String) : Option String := some label

/-- A horizontal slider over `[0, 1]` that displays `0` while the engine holds `3/10`. -/
def staleSlider : ControlSync :=
  { comp := { gui := { ptr := some { className := "hsl", x_fval := 3 / 10, x_min := 0,
                                     x_max := 1 },
                       inst := some {}, type := GuiType.HorizontalSlider },
              value := 0, min := 0, max := 1 } }

/-- The interleaving: `updateValue` (not edited), the engine's drain of its closure,
`startEdition`, a drag to `7/10`, and then the UI callback of the snapshot taken before
the edit began.  The result is the state before and after that callback. -/
def staleSnapshotTrace : Option (ControlSync × ControlSync) :=
  staleSlider.updateValue.drain.bind (fun s2 =>
    s2.startEdition.map (fun s3 =>
      (s3.setValueScaled (7 / 10), (s3.setValueScaled (7 / 10)).callback)))

/-- The mirror built for an array without a name, in a component of 200 by 140. -/
def emptyMirror : GraphicalArray := GraphicalArray.new { name := "" } 200 140 false

/-- A gesture on `syncedMirror` whose write-through fails because the array has been
removed from the engine, followed by the end of the gesture and a timer tick. -/
def failedGesture : List MirrorEvent :=
  [MirrorEvent.engine none, MirrorEvent.mouseDown { x := 0, y := 35 } true,
   MirrorEvent.mouseUp, MirrorEvent.timerCallback]

/-- The mirror `syncedMirror` after the array has been removed from the engine. -/
def removedMirror : GraphicalArray :=
  { array := { name := "tab1", garray := none }, vec := [1], temp := [1],
    width := 200, height := 140 }

/-- The mirror `removedMirror` after a click at `(0, 35)` whose write-through was tried
and failed: both the edit flag and the error flag are set. -/
def stuckMirror : GraphicalArray :=
  { array := { name := "tab1", garray := none }, vec := [1 / 2], temp := [1],
    edited := true, error := true, width := 200, height := 140, repaints := 1,
    enqueued := 1 }

/-- A two-line message text whose second line, of 12 characters, is the longest. -/
def twoLineText : String := "ab\nabcdefghijkl"

/-- A message box that has not shown any text yet. -/
def messageBox : MessageComponent :=
  { base := { gui := { ptr := some { className := "message" }, inst := some {},
                       type := GuiType.Message } } }

/-- A component over the range `(0, 127)`, in binary32. -/
def slider127 : Binary32.GUIComponent := { min := F32.fin 0, max := F32.fin 127 }

/-- A component over the inverted range `(10, 0)`, in binary32. -/
def sliderInverted : Binary32.GUIComponent := { min := F32.fin 10, max := F32.fin 0 }

/-- A mirror of the one-sample array `tab1` whose sample is NaN, as is the mirror's. -/
def nanMirror : Binary32.GraphicalArray :=
  { array := { name := "tab1", garray := some { samples := [F32.nan] } }, vec := [F32.nan],
    temp := [F32.nan], width := 200, height := 140 }

/-- A mirror holding `[0]` of the one-sample array `tab1`, which holds `[1]`. -/
def staleMirror : Binary32.GraphicalArray :=
  { array := { name := "tab1", garray := some { samples := [F32.fin 1] } }, vec := [F32.fin 0],
    width := 200, height := 140 }

/-- A mirror whose array no longer resolves in the engine. -/
def unresolvedMirror : Binary32.GraphicalArray :=
  { array := { name := "tab1", garray := none }, vec := [F32.fin 0], width := 200,
    height := 140 }

/-- A mirror that is being edited. -/
def editedMirror : Binary32.GraphicalArray :=
  { array := { name := "tab1", garray := some { samples := [F32.fin 1] } }, vec := [F32.fin 0],
    edited := true, width := 200, height := 140 }

/-- Scenario 2's mirror in binary32: the array `tab1` of 100 samples in a graph whose
vertical range runs from `gl_y1 = 1` to `gl_y2 = -1`, in a component of 200 by 140
pixels, being edited. -/
def tab1Mirror32 : Binary32.GraphicalArray :=
  { array := { name := "tab1",
               garray := some { x_glist := some { gl_y1 := F32.fin 1, gl_y2 := F32.fin (-1) },
                                samples := List.replicate 100 (F32.fin 0) } },
    vec := List.replicate 100 (F32.fin 0), width := 200, height := 140, edited := true }

/-- The mirror `tab1Mirror32` with its error flag set. -/
def erroredMirror32 : Binary32.GraphicalArray :=
  { tab1Mirror32 with error := true, edited := false }

/-- A mirror of 12 samples in a component 22 pixels wide and 140 high, whose graph
runs from `gl_y2 = -5.4247556f` (the binary32 number `-11376537 / 2 ^ 21`) to
`gl_y1 = 8.905414f` (the binary32 number `9338003 / 2 ^ 20`). -/
def twelveMirror : Binary32.GraphicalArray :=
  { array := { name := "tab2",
               garray := some { x_glist := some { gl_y1 := F32.fin (9338003 / 1048576),
                                                  gl_y2 := F32.fin (-11376537 / 2097152) },
                                samples := List.replicate 12 (F32.fin 0) } },
    vec := List.replicate 12 (F32.fin 0), width := 22, height := 140, edited := true }

/-- A mirror in step with the engine: the array `tab3` of 16777220 zero samples (a
little over six minutes of sound at 44.1 kHz), in a component of 200 by 140 pixels. -/
def largeSyncedMirror : Binary32.GraphicalArray :=
  { array := { name := "tab3",
               garray := some { samples := List.replicate 16777220 (F32.fin 0) } },
    vec := List.replicate 16777220 (F32.fin 0), temp := List.replicate 16777220 (F32.fin 0),
    width := 200, height := 140 }

/-- The mirror `largeSyncedMirror` after a click at its centre `(100, 70)` that did not
get the callback lock: the gesture has begun, the value `0` has been written at index
8388610, where it was before. -/
def largeMirror : Binary32.GraphicalArray :=
  { largeSyncedMirror with edited := true, repaints := 1, enqueued := 1 }

/-- A component over the range `(-5, -1.6f)`; `-1.6f` is the binary32 number
`-13421773 / 2 ^ 23`. -/
def sliderNegative : Binary32.GUIComponent :=
  { min := F32.fin (-5), max := F32.fin (-13421773 / 8388608) }

/-- A component over the degenerate range `(5, 5)`. -/
def sliderDegenerate : Binary32.GUIComponent := { min := F32.fin 5, max := F32.fin 5 }

/-- A component over the range `(0.1f, 0.7f)`: the binary32 numbers
`13421773 / 2 ^ 27` and `11744051 / 2 ^ 24`. -/
def sliderTenths : Binary32.GUIComponent :=
  { min := F32.fin (13421773 / 134217728), max := F32.fin (11744051 / 16777216) }

/-- A component over the range `(2 ^ 24, 2 ^ 24 + 2)`, two adjacent binary32
numbers. -/
def sliderAdjacent : Binary32.GUIComponent :=
  { min := F32.fin 16777216, max := F32.fin 16777218 }

/-! ## State invariants -/

/-- The receive-binding invariant of an IEM object: it is bound to its stored receive
name exactly when its receive flag is set, and to nothing else. -/
def rcvInvariant (o : PdObject) : Prop :=
  o.bound = if o.x_rcv_able then [o.x_rcv] else []

instance (o : PdObject) : Decidable (rcvInvariant o) := by
  unfold rcvInvariant; infer_instance

/-- The convention of the engine for an object that receives nothing: its stored
receive name is the sentinel `empty`. -/
def rcvIdleIsEmpty (o : PdObject) : Prop :=
  o.x_rcv_able = false → o.x_rcv = "empty"

instance (o : PdObject) : Decidable (rcvIdleIsEmpty o) := by
  unfold rcvIdleIsEmpty; infer_instance

/-! # Properties -/

/-! ## Helper lemmas -/

theorem stdMin_le_right (a b : ℚ) : stdMin a b ≤ b := by
  unfold stdMin; split_ifs with h
  · exact le_refl b
  · exact not_lt.mp h

theorem stdMin_eq_of_le {a b : ℚ} (h : a ≤ b) : stdMin a b = a := by
  unfold stdMin; rw [if_neg (not_lt.mpr h)]

theorem stdMax_eq_of_le {a b : ℚ} (h : b ≤ a) : stdMax a b = a := by
  unfold stdMax; rw [if_neg (not_lt.mpr h)]

theorem unit_clamp_id {x : ℚ} (h0 : 0 ≤ x) (h1 : x ≤ 1) : stdMax (stdMin x 1) 0 = x := by
  rw [stdMin_eq_of_le h1, stdMax_eq_of_le h0]

theorem truncToInt_intCast (z : Int) : truncToInt (z : ℚ) = z := by
  unfold truncToInt; split_ifs <;> simp

/-! ## Binary32 rounding: monotone, idempotent, exact on the grid -/

theorem roundHalfEven_intCast (z : Int) : roundHalfEven (z : ℚ) = z := by
  unfold roundHalfEven
  simp

theorem floor_le_roundHalfEven (q : ℚ) : Int.floor q ≤ roundHalfEven q := by
  unfold roundHalfEven
  split_ifs <;> omega

theorem roundHalfEven_le_floor_succ (q : ℚ) : roundHalfEven q ≤ Int.floor q + 1 := by
  unfold roundHalfEven
  split_ifs <;> omega

theorem roundHalfEven_mono {x y : ℚ} (h : x ≤ y) : roundHalfEven x ≤ roundHalfEven y := by
  have hf : Int.floor x ≤ Int.floor y := Int.floor_mono h
  rcases hf.lt_or_eq with hlt | heq
  · calc roundHalfEven x ≤ Int.floor x + 1 := roundHalfEven_le_floor_succ x
      _ ≤ Int.floor y := hlt
      _ ≤ roundHalfEven y := floor_le_roundHalfEven y
  · unfold roundHalfEven
    rw [heq]
    split_ifs <;> first | omega | (exfalso; linarith)

theorem roundHalfEven_sub_le (q : ℚ) : |(roundHalfEven q : ℚ) - q| ≤ 1 / 2 := by
  have h1 := Int.floor_le q
  have h2 := Int.lt_floor_add_one q
  unfold roundHalfEven
  rw [abs_le]
  split_ifs <;> constructor <;> push_cast <;> linarith

theorem two_zpow_pos (e : Int) : (0 : ℚ) < 2 ^ e := zpow_pos (by norm_num) e

theorem f32Exponent_of_small {q : ℚ} (h : q < 2 ^ (-126 : Int)) : f32Exponent q = -126 := by
  unfold f32Exponent; rw [if_pos h]

theorem f32Exponent_of_binade {q : ℚ} {e : Int} (he : -126 ≤ e) (h1 : 2 ^ e ≤ q)
    (h2 : q < 2 ^ (e + 1)) : f32Exponent q = e := by
  have hq : 0 < q := lt_of_lt_of_le (two_zpow_pos e) h1
  have hge : (2 : ℚ) ^ (-126 : Int) ≤ q :=
    le_trans (zpow_le_zpow_right₀ (by norm_num) he) h1
  unfold f32Exponent
  rw [if_neg (not_lt.mpr hge)]
  apply le_antisymm
  · have := (Int.lt_zpow_iff_log_lt (b := 2) (by norm_num) hq (x := e + 1)).mp
      (by simpa using h2)
    omega
  · exact (Int.zpow_le_iff_le_log (b := 2) (by norm_num) hq).mp (by simpa using h1)

theorem f32Exponent_ge (q : ℚ) : -126 ≤ f32Exponent q := by
  unfold f32Exponent
  split_ifs with h
  · exact le_refl _
  · have hge : (2 : ℚ) ^ (-126 : Int) ≤ q := not_lt.mp h
    have hq : 0 < q := lt_of_lt_of_le (two_zpow_pos _) hge
    exact (Int.zpow_le_iff_le_log (b := 2) (by norm_num) hq).mp (by simpa using hge)

theorem lt_zpow_f32Exponent_succ (q : ℚ) : q < 2 ^ (f32Exponent q + 1) := by
  unfold f32Exponent
  split_ifs with h
  · exact lt_trans h (zpow_lt_zpow_right₀ (by norm_num) (by norm_num))
  · simpa using Int.lt_zpow_succ_log_self (b := 2) (by norm_num) q

theorem zpow_f32Exponent_le {q : ℚ} (h : 2 ^ (-126 : Int) ≤ q) : 2 ^ f32Exponent q ≤ q := by
  have hq : 0 < q := lt_of_lt_of_le (two_zpow_pos _) h
  unfold f32Exponent
  rw [if_neg (not_lt.mpr h)]
  simpa using Int.zpow_log_le_self (b := 2) (by norm_num) hq

theorem f32Ulp_pos (q : ℚ) : 0 < f32Ulp q := two_zpow_pos _

theorem roundMag_zero : roundMag 0 = 0 := by
  unfold roundMag
  have h := roundHalfEven_intCast 0
  simp only [Int.cast_zero] at h
  rw [zero_div, h]
  simp

/-- An integer multiple `m * 2 ^ (k - 23)` of a binary32 spacing, `0 ≤ m ≤ 2 ^ 24`,
`-126 ≤ k`, is a binary32 value. -/
theorem roundMag_grid_lt (m k : Int) (hk : -126 ≤ k) (hm0 : 0 ≤ m) (hm : m < 2 ^ 24) :
    roundMag ((m : ℚ) * 2 ^ (k - 23)) = (m : ℚ) * 2 ^ (k - 23) := by
  set r : ℚ := (m : ℚ) * 2 ^ (k - 23) with hr
  have hr0 : 0 ≤ r := mul_nonneg (by exact_mod_cast hm0) (le_of_lt (two_zpow_pos _))
  have hrlt : r < 2 ^ (k + 1) := by
    have h1 : (m : ℚ) < 2 ^ (24 : Int) := by
      have : ((2 : Int) ^ 24 : Int) = ((2 : ℚ) ^ (24 : Int) : ℚ) := by norm_num
      calc (m : ℚ) < ((2 ^ 24 : Int) : ℚ) := by exact_mod_cast hm
        _ = 2 ^ (24 : Int) := by norm_num
    calc r < 2 ^ (24 : Int) * 2 ^ (k - 23) :=
          mul_lt_mul_of_pos_right h1 (two_zpow_pos _)
      _ = 2 ^ (k + 1) := by
          rw [← zpow_add₀ (by norm_num : (2 : ℚ) ≠ 0)]; congr 1; ring
  -- the exponent of `r` is at most `k`
  have he : f32Exponent r ≤ k := by
    by_cases hs : r < 2 ^ (-126 : Int)
    · rw [f32Exponent_of_small hs]; exact hk
    · have h1 := zpow_f32Exponent_le (not_lt.mp hs)
      have h2 : (2 : ℚ) ^ f32Exponent r < 2 ^ (k + 1) := lt_of_le_of_lt h1 hrlt
      have := (zpow_lt_zpow_iff_right₀ (by norm_num : (1 : ℚ) < 2)).mp h2
      omega
  obtain ⟨d, hd⟩ : ∃ d : Nat, k - f32Exponent r = d := ⟨(k - f32Exponent r).toNat, by omega⟩
  have hquot : r / f32Ulp r = ((m * 2 ^ d : Int) : ℚ) := by
    unfold f32Ulp
    rw [hr, mul_div_assoc, ← zpow_sub₀ (by norm_num : (2 : ℚ) ≠ 0)]
    have : k - 23 - (f32Exponent r - 23) = (d : Int) := by omega
    rw [this]
    push_cast
    rw [zpow_natCast]
  unfold roundMag
  rw [hquot, roundHalfEven_intCast, ← hquot]
  exact div_mul_cancel₀ r (ne_of_gt (f32Ulp_pos r))

theorem roundMag_grid (m k : Int) (hk : -126 ≤ k) (hm0 : 0 ≤ m) (hm : m ≤ 2 ^ 24) :
    roundMag ((m : ℚ) * 2 ^ (k - 23)) = (m : ℚ) * 2 ^ (k - 23) := by
  rcases hm.lt_or_eq with hlt | heq
  · exact roundMag_grid_lt m k hk hm0 hlt
  · have h := roundMag_grid_lt (2 ^ 23) (k + 1) (by omega) (by norm_num) (by norm_num)
    have hval : ((m : Int) : ℚ) * 2 ^ (k - 23) = (((2 : Int) ^ 23 : Int) : ℚ) * 2 ^ (k + 1 - 23) := by
      rw [heq]
      have : k + 1 - 23 = (k - 23) + 1 := by ring
      rw [this, zpow_add₀ (by norm_num : (2 : ℚ) ≠ 0)]
      push_cast
      ring
    rw [hval]
    exact h

/-- The significand `roundHalfEven (q / ulp)` of a non-negative `q` lies in
`[0, 2 ^ 24]`. -/
theorem significand_bounds {q : ℚ} (h0 : 0 ≤ q) :
    0 ≤ roundHalfEven (q / f32Ulp q) ∧ roundHalfEven (q / f32Ulp q) ≤ 2 ^ 24 := by
  constructor
  · have h := roundHalfEven_mono (div_nonneg h0 (le_of_lt (f32Ulp_pos q)))
    have hz := roundHalfEven_intCast 0
    simp only [Int.cast_zero] at hz
    rw [hz] at h
    exact h
  · have hlt : q / f32Ulp q ≤ (((2 : Int) ^ 24 : Int) : ℚ) := by
      rw [div_le_iff₀ (f32Ulp_pos q)]
      unfold f32Ulp
      have h1 := lt_zpow_f32Exponent_succ q
      have : (((2 : Int) ^ 24 : Int) : ℚ) * 2 ^ (f32Exponent q - 23) = 2 ^ (f32Exponent q + 1) := by
        have h24 : (((2 : Int) ^ 24 : Int) : ℚ) = 2 ^ (24 : Int) := by norm_num
        rw [h24, ← zpow_add₀ (by norm_num : (2 : ℚ) ≠ 0)]; congr 1; ring
      rw [this]
      exact le_of_lt h1
    have h := roundHalfEven_mono hlt
    rw [roundHalfEven_intCast] at h
    exact h

theorem roundMag_nonneg {q : ℚ} (h0 : 0 ≤ q) : 0 ≤ roundMag q := by
  unfold roundMag
  exact mul_nonneg (by exact_mod_cast (significand_bounds h0).1) (le_of_lt (f32Ulp_pos q))

theorem roundMag_idem {q : ℚ} (h0 : 0 ≤ q) : roundMag (roundMag q) = roundMag q := by
  unfold roundMag
  exact roundMag_grid _ _ (f32Exponent_ge q) (significand_bounds h0).1 (significand_bounds h0).2

/-- Rounding does not cross a power of two from below. -/
theorem roundMag_le_zpow {a : ℚ} {k : Int} (hk : -126 ≤ k) (h : a ≤ 2 ^ k) :
    roundMag a ≤ 2 ^ k := by
  have he : f32Exponent a ≤ k := by
    by_cases hs : a < 2 ^ (-126 : Int)
    · rw [f32Exponent_of_small hs]; exact hk
    · have h1 := zpow_f32Exponent_le (not_lt.mp hs)
      exact (zpow_le_zpow_iff_right₀ (by norm_num : (1 : ℚ) < 2)).mp (le_trans h1 h)
  obtain ⟨d, hd⟩ : ∃ d : Nat, k - f32Exponent a + 23 = d :=
    ⟨(k - f32Exponent a + 23).toNat, by omega⟩
  have hpow : (2 : ℚ) ^ k = (((2 : Int) ^ d : Int) : ℚ) * f32Ulp a := by
    unfold f32Ulp
    push_cast
    rw [← zpow_natCast, ← zpow_add₀ (by norm_num : (2 : ℚ) ≠ 0)]
    congr 1
    omega
  have hq : a / f32Ulp a ≤ (((2 : Int) ^ d : Int) : ℚ) := by
    rw [div_le_iff₀ (f32Ulp_pos a), ← hpow]; exact h
  have hm := roundHalfEven_mono hq
  rw [roundHalfEven_intCast] at hm
  unfold roundMag
  rw [hpow]
  exact mul_le_mul_of_nonneg_right (by exact_mod_cast hm) (le_of_lt (f32Ulp_pos a))

/-- Rounding does not cross the lower end of its binade. -/
theorem zpow_f32Exponent_le_roundMag {b : ℚ} (h : 2 ^ (-126 : Int) ≤ b) :
    2 ^ f32Exponent b ≤ roundMag b := by
  have h1 := zpow_f32Exponent_le h
  have hpow : (2 : ℚ) ^ f32Exponent b = (((2 : Int) ^ 23 : Int) : ℚ) * f32Ulp b := by
    unfold f32Ulp
    have h23 : (((2 : Int) ^ 23 : Int) : ℚ) = 2 ^ (23 : Int) := by norm_num
    rw [h23, ← zpow_add₀ (by norm_num : (2 : ℚ) ≠ 0)]
    congr 1
    ring
  have hq : (((2 : Int) ^ 23 : Int) : ℚ) ≤ b / f32Ulp b := by
    rw [le_div_iff₀ (f32Ulp_pos b), ← hpow]; exact h1
  have hm := roundHalfEven_mono hq
  rw [roundHalfEven_intCast] at hm
  unfold roundMag
  rw [hpow]
  exact mul_le_mul_of_nonneg_right (by exact_mod_cast hm) (le_of_lt (f32Ulp_pos b))

theorem roundMag_mono {a b : ℚ} (h : a ≤ b) : roundMag a ≤ roundMag b := by
  by_cases hs : b < 2 ^ (-126 : Int)
  · have ha : f32Ulp a = f32Ulp b := by
      unfold f32Ulp
      rw [f32Exponent_of_small hs, f32Exponent_of_small (lt_of_le_of_lt h hs)]
    unfold roundMag
    rw [ha]
    have hm := roundHalfEven_mono (div_le_div_of_nonneg_right h (le_of_lt (f32Ulp_pos b)))
    exact mul_le_mul_of_nonneg_right (by exact_mod_cast hm) (le_of_lt (f32Ulp_pos b))
  · have hb := not_lt.mp hs
    by_cases hab : a < 2 ^ f32Exponent b
    · exact le_trans (roundMag_le_zpow (f32Exponent_ge b) (le_of_lt hab))
        (zpow_f32Exponent_le_roundMag hb)
    · have hea : f32Exponent a = f32Exponent b :=
        f32Exponent_of_binade (f32Exponent_ge b) (not_lt.mp hab)
          (lt_of_le_of_lt h (lt_zpow_f32Exponent_succ b))
      have ha : f32Ulp a = f32Ulp b := by unfold f32Ulp; rw [hea]
      unfold roundMag
      rw [ha]
      have hm := roundHalfEven_mono (div_le_div_of_nonneg_right h (le_of_lt (f32Ulp_pos b)))
      exact mul_le_mul_of_nonneg_right (by exact_mod_cast hm) (le_of_lt (f32Ulp_pos b))

/-! ### `roundF32` -/

theorem roundF32_of_nonneg {q : ℚ} (h : 0 ≤ q) : roundF32 q = roundMag q := by
  unfold roundF32; rw [if_pos h]

theorem roundF32_zero : roundF32 0 = 0 := by
  rw [roundF32_of_nonneg (le_refl 0), roundMag_zero]

theorem roundF32_neg (q : ℚ) : roundF32 (-q) = -roundF32 q := by
  unfold roundF32
  rcases lt_trichotomy q 0 with h | h | h
  · rw [if_pos (by linarith), if_neg (by linarith)]; simp
  · subst h; simp [roundMag_zero]
  · rw [if_neg (by linarith), if_pos (by linarith)]; simp

theorem roundF32_nonneg {q : ℚ} (h : 0 ≤ q) : 0 ≤ roundF32 q := by
  rw [roundF32_of_nonneg h]; exact roundMag_nonneg h

theorem roundF32_nonpos {q : ℚ} (h : q ≤ 0) : roundF32 q ≤ 0 := by
  have := roundF32_nonneg (neg_nonneg.mpr h)
  rw [roundF32_neg] at this
  linarith

theorem roundF32_mono {a b : ℚ} (h : a ≤ b) : roundF32 a ≤ roundF32 b := by
  by_cases ha : 0 ≤ a
  · rw [roundF32_of_nonneg ha, roundF32_of_nonneg (le_trans ha h)]
    exact roundMag_mono h
  · by_cases hb : 0 ≤ b
    · exact le_trans (roundF32_nonpos (le_of_lt (not_le.mp ha))) (roundF32_nonneg hb)
    · have h1 : 0 ≤ -b := by linarith
      have h2 : -b ≤ -a := by linarith
      have := roundMag_mono h2
      rw [← roundF32_of_nonneg h1, ← roundF32_of_nonneg (le_trans h1 h2), roundF32_neg,
        roundF32_neg] at this
      linarith

theorem roundF32_idem (q : ℚ) : roundF32 (roundF32 q) = roundF32 q := by
  by_cases h : 0 ≤ q
  · rw [roundF32_of_nonneg h, roundF32_of_nonneg (roundMag_nonneg h), roundMag_idem h]
  · have h1 : 0 ≤ -q := by linarith
    have e : roundF32 q = -roundMag (-q) := by unfold roundF32; rw [if_neg h]
    rw [e, roundF32_neg, roundF32_of_nonneg (roundMag_nonneg h1), roundMag_idem h1]

theorem isF32_roundF32 (q : ℚ) : isF32 (roundF32 q) := roundF32_idem q

theorem isF32_neg {q : ℚ} (h : isF32 q) : isF32 (-q) := by
  unfold isF32 at *; rw [roundF32_neg, h]

theorem isF32_grid (m k : Int) (hk : -126 ≤ k) (hm : |m| ≤ 2 ^ 24) :
    isF32 ((m : ℚ) * 2 ^ (k - 23)) := by
  unfold isF32
  by_cases h : 0 ≤ m
  · have h0 : (0 : ℚ) ≤ (m : ℚ) * 2 ^ (k - 23) :=
      mul_nonneg (by exact_mod_cast h) (le_of_lt (two_zpow_pos _))
    rw [roundF32_of_nonneg h0]
    exact roundMag_grid m k hk h (by rw [abs_of_nonneg h] at hm; exact hm)
  · have hneg : 0 ≤ -m := by omega
    have h0 : (0 : ℚ) ≤ ((-m : Int) : ℚ) * 2 ^ (k - 23) :=
      mul_nonneg (by exact_mod_cast hneg) (le_of_lt (two_zpow_pos _))
    have e : (m : ℚ) * 2 ^ (k - 23) = -(((-m : Int) : ℚ) * 2 ^ (k - 23)) := by push_cast; ring
    rw [e, roundF32_neg, roundF32_of_nonneg h0,
      roundMag_grid (-m) k hk hneg (by rw [abs_of_neg (by omega)] at hm; exact hm)]

/-- Every integer of magnitude at most `2 ^ 24` is a binary32 number. -/
theorem isF32_intCast (z : Int) (hz : |z| ≤ 2 ^ 24) : isF32 (z : ℚ) := by
  have h := isF32_grid z 23 (by norm_num) hz
  simpa using h

/-- Rounding stays between binary32 bounds of its argument. -/
theorem roundF32_between {lo hi q : ℚ} (hlo : isF32 lo) (hhi : isF32 hi) (h1 : lo ≤ q)
    (h2 : q ≤ hi) : lo ≤ roundF32 q ∧ roundF32 q ≤ hi := by
  constructor
  · have := roundF32_mono h1; rw [hlo] at this; exact this
  · have := roundF32_mono h2; rw [hhi] at this; exact this


/-! ### Evaluation at concrete values -/

theorem roundHalfEven_eq_of_near {q : ℚ} (m : Int) (h : |q - m| < 1 / 2) :
    roundHalfEven q = m := by
  rw [abs_lt] at h
  by_cases hq : (m : ℚ) ≤ q
  · have hf : Int.floor q = m := by
      rw [Int.floor_eq_iff]; constructor <;> linarith
    unfold roundHalfEven
    rw [hf, if_pos (by linarith)]
  · have hf : Int.floor q = m - 1 := by
      rw [Int.floor_eq_iff]; push_cast; constructor <;> linarith
    unfold roundHalfEven
    rw [hf, if_neg (by push_cast; linarith), if_pos (by push_cast; linarith)]
    ring

theorem roundHalfEven_tie {q : ℚ} (m : Int) (h : q = m + 1 / 2) :
    roundHalfEven q = if m % 2 = 0 then m else m + 1 := by
  have hf : Int.floor q = m := by
    rw [Int.floor_eq_iff]; constructor <;> linarith
  unfold roundHalfEven
  rw [hf, if_neg (by linarith), if_neg (by linarith)]

theorem roundMag_eval {q : ℚ} (e m : Int) (he : -126 ≤ e) (h1 : 2 ^ e ≤ q)
    (h2 : q < 2 ^ (e + 1)) (hm : roundHalfEven (q / 2 ^ (e - 23)) = m) :
    roundMag q = (m : ℚ) * 2 ^ (e - 23) := by
  unfold roundMag f32Ulp
  rw [f32Exponent_of_binade he h1 h2, hm]

theorem roundF32_eval {q : ℚ} (e m : Int) (he : -126 ≤ e) (h1 : 2 ^ e ≤ q)
    (h2 : q < 2 ^ (e + 1)) (hm : roundHalfEven (q / 2 ^ (e - 23)) = m) :
    roundF32 q = (m : ℚ) * 2 ^ (e - 23) := by
  rw [roundF32_of_nonneg (le_trans (le_of_lt (two_zpow_pos e)) h1)]
  exact roundMag_eval e m he h1 h2 hm

/-! ## C2, C3: the radio group's maximum and button count -/

/-- An integer of magnitude at most `2 ^ 24` survives the conversion to `float`. -/
theorem roundF32_intCast (z : Int) (hz : |z| ≤ 2 ^ 24) : roundF32 (z : ℚ) = z :=
  isF32_intCast z hz

/-- What `setMaximum(n)` stores for `n < 2 ^ 24`: the float sum `n + 1` is exact. -/
theorem truncToInt_roundF32_succ (n : Nat) (hn : n < 2 ^ 24) :
    truncToInt (roundF32 ((n : ℚ) + 1)) = (n : Int) + 1 := by
  have h := roundF32_intCast ((n : Int) + 1) (by rw [abs_of_nonneg (by omega)]; omega)
  have ht := truncToInt_intCast ((n : Int) + 1)
  push_cast at h ht
  rw [h, ht]

/-- What `getMaximum()` returns for a stored count `n + 1`, `n < 2 ^ 24`: the
conversion of `n` to `float` is exact. -/
theorem roundF32_natCast (n : Nat) (hn : n ≤ 2 ^ 24) : roundF32 (n : ℚ) = n := by
  have h := roundF32_intCast (n : Int) (by rw [abs_of_nonneg (by omega)]; omega)
  exact_mod_cast h

/-- The float sum `2 ^ 24 + 1` is a tie between `2 ^ 24` and `2 ^ 24 + 2` and rounds to
the even significand, `2 ^ 24`. -/
theorem roundF32_two_pow_24_succ : roundF32 ((16777216 : ℚ) + 1) = 16777216 := by
  rw [roundF32_eval 24 8388608 (by norm_num) (by norm_num) (by norm_num)
    (by rw [roundHalfEven_tie 8388608 (by norm_num)]; norm_num)]
  norm_num

/-- C2 (as stated, refuted): `n = 2 ^ 24 = 16777216` is a non-negative integer and a
binary32 number, yet `setMaximum(n)` on a horizontal radio group stores the button
count `16777216`, not `n + 1` (the float sum `n + 1` rounds back to `n`), and the
following `getMaximum()` returns `16777215`, not `n`. -/
theorem radio_setMaximum_rounds_at_two_pow_24 :
    isF32 16777216 ∧
    (hradio8.setMaximum 16777216).ptr
      = some ({ className := "hradio", x_number := 16777216 } : PdObject) ∧
    (hradio8.setMaximum 16777216).getMaximum = 16777215 ∧
    (hradio8.setMaximum 16777216).getMaximum ≠ 16777216 := by
  have h1 : truncToInt (roundF32 ((16777216 : ℚ) + 1)) = 16777216 := by
    rw [roundF32_two_pow_24_succ]
    have h := truncToInt_intCast 16777216
    norm_num at h ⊢
    exact h
  have h2 : roundF32 (((16777216 - 1 : Int)) : ℚ) = 16777215 := by
    have h := roundF32_intCast 16777215 (by norm_num)
    norm_num at h ⊢
    exact h
  have hmax : (hradio8.setMaximum 16777216).getMaximum = 16777215 := by
    simp only [hradio8, Gui.setMaximum, Gui.getMaximum, h1]
    simpa using h2
  refine ⟨?_, ?_, hmax, ?_⟩
  · have h := isF32_intCast 16777216 (by norm_num)
    norm_num at h ⊢
    exact h
  · simp [hradio8, Gui.setMaximum, h1]
  · rw [hmax]; norm_num

/-- C2 (amended): for a horizontal or vertical radio control with a live handle and
every non-negative integer `n` below `2 ^ 24`, `setMaximum(n)` stores the button count
`n + 1` and a following `getMaximum()` returns `n`. -/
theorem radio_getMaximum_setMaximum (g : Gui) (o : PdObject) (n : Nat) (hptr : g.ptr = some o)
    (hradio : g.type = GuiType.HorizontalRadio ∨ g.type = GuiType.VerticalRadio)
    (hn : n < 2 ^ 24) :
    (g.setMaximum n).ptr = some { o with x_number := (n : Int) + 1 } ∧
    (g.setMaximum n).getMaximum = n := by
  have htr := truncToInt_roundF32_succ n hn
  have hback := roundF32_natCast n (le_of_lt hn)
  rcases hradio with h | h <;>
    simp [Gui.setMaximum, Gui.getMaximum, hptr, h, htr, hback]

/-- C2 witness: a vertical radio group holding 8 buttons, set to maximum 3. -/
theorem radio_getMaximum_setMaximum_witness :
    (vradio8.setMaximum (3 : Nat)).ptr
      = some { ({ className := "vradio", x_number := 8 } : PdObject) with
          x_number := ((3 : Nat) : Int) + 1 } ∧
    (vradio8.setMaximum (3 : Nat)).getMaximum = (3 : Nat) :=
  radio_getMaximum_setMaximum vradio8 _ 3 rfl (Or.inr rfl) (by norm_num)

/-- The loop of `updateRange` adds one button per iteration it is allowed. -/
theorem updateRangeLoop_length (numButtons : Int) :
    ∀ (fuel : Nat) (i : Int) (buttons : List Int), i + fuel = numButtons → 0 ≤ i →
      (updateRangeLoop numButtons fuel i buttons).length = buttons.length + fuel := by
  intro fuel
  induction fuel with
  | zero => intro i buttons _ _; simp [updateRangeLoop]
  | succ k ih =>
    intro i buttons h hi
    have hlt : i < numButtons := by push_cast at h; omega
    rw [updateRangeLoop, if_pos hlt, ih (i + 1) (buttons ++ [i]) (by push_cast at h ⊢; omega)
      (by omega)]
    simp; omega

/-- The button count `updateRange` builds for a radio control: after `setMaximum(n)`,
`n < 2 ^ 24`, it is `n`, one less than the stored button count `n + 1`, while
`getMinimum()` is `0`. -/
theorem updateRange_count_after_setMaximum (r : RadioComponent) (o : PdObject) (n : Nat)
    (hptr : r.base.gui.ptr = some o)
    (hradio : r.base.gui.type = GuiType.HorizontalRadio ∨
      r.base.gui.type = GuiType.VerticalRadio)
    (hlt : n < 2 ^ 24) :
    ({ r with base := { r.base with gui := (r.base.gui.setMaximum n) } }
        : RadioComponent).updateRange.radioButtons.length = n ∧
    (r.base.gui.setMaximum n).getMinimum = 0 := by
  have htr := truncToInt_roundF32_succ n hlt
  have hback := roundF32_natCast n (le_of_lt hlt)
  have h0 : truncToInt (0 : ℚ) = 0 := by simp [truncToInt]
  have hn : truncToInt (n : ℚ) = (n : Int) := by
    have h := truncToInt_intCast (n : Int)
    push_cast at h
    exact h
  have hmax : (r.base.gui.setMaximum n).getMaximum = n := by
    rcases hradio with h | h <;> simp [Gui.setMaximum, Gui.getMaximum, hptr, h, htr, hback]
  have hmin : (r.base.gui.setMaximum n).getMinimum = 0 := by
    rcases hradio with h | h <;> simp [Gui.setMaximum, Gui.getMinimum, hptr, h]
  refine ⟨?_, hmin⟩
  simp only [RadioComponent.updateRange, hmax, hmin, h0, hn, sub_zero, Int.toNat_ofNat]
  rw [updateRangeLoop_length (n : Int) n 0 [] (by simp) (le_refl 0)]
  simp

/-- C3 (the code at the failing input): a horizontal radio group after
`setMaximum(7)` stores 8 buttons and reports maximum 7 and minimum 0, yet
`updateRange` builds 7 buttons, not `7 - 0 + 1 = 8`. -/
theorem updateRange_builds_one_button_too_few :
    (hradio8.setMaximum 7).ptr = some ({ className := "hradio", x_number := 8 } : PdObject) ∧
    (hradio8.setMaximum 7).getMaximum = 7 ∧
    (hradio8.setMaximum 7).getMinimum = 0 ∧
    ({ base := { gui := (hradio8.setMaximum 7) } } : RadioComponent).updateRange.radioButtons
      = [0, 1, 2, 3, 4, 5, 6] := by
  have h8 : truncToInt (roundF32 ((7 : ℚ) + 1)) = 8 := by
    have h := truncToInt_roundF32_succ 7 (by norm_num)
    norm_num at h ⊢
    exact h
  have hback : roundF32 (((8 - 1 : Int)) : ℚ) = 7 := by
    have h := roundF32_intCast 7 (by norm_num)
    norm_num at h ⊢
    exact h
  have h7 : truncToInt (7 : ℚ) = 7 := by
    have h := truncToInt_intCast 7
    norm_num at h ⊢
    exact h
  have h0 : truncToInt (0 : ℚ) = 0 := by simp [truncToInt]
  refine ⟨?_, ?_, ?_, ?_⟩
  · simp [hradio8, Gui.setMaximum, h8]
  · simp only [hradio8, Gui.setMaximum, Gui.getMaximum, h8]
    simpa using hback
  · simp [hradio8, Gui.setMaximum, Gui.getMinimum]
  · have hmax : (hradio8.setMaximum 7).getMaximum = 7 := by
      simp only [hradio8, Gui.setMaximum, Gui.getMaximum, h8]
      simpa using hback
    have hmin : (hradio8.setMaximum 7).getMinimum = 0 := by
      simp [hradio8, Gui.setMaximum, Gui.getMinimum]
    simp only [RadioComponent.updateRange, hmax, hmin, h7, h0]
    simp [updateRangeLoop]

/-! ## C4, C5, C6: the live array mirror -/

theorem clip_unit_nonneg (r : ℚ) : 0 ≤ clip r 0 1 := by
  unfold clip stdMax; split_ifs with h
  · exact le_of_lt h
  · exact le_refl 0

theorem clip_unit_le_one (r : ℚ) : clip r 0 1 ≤ 1 := by
  unfold clip stdMax; split_ifs with h
  · exact stdMin_le_right r 1
  · norm_num

theorem clip_half : clip (1 / 2) 0 1 = 1 / 2 := by
  norm_num [clip, stdMax, stdMin]

theorem clip_zero : clip 0 0 1 = 0 := by
  norm_num [clip, stdMax, stdMin]

theorem sizeSub_hundred : sizeSub 100 1 = 99 := by
  norm_num [sizeSub]

theorem stdRound_half_of_99 : stdRound ((1 / 2 : ℚ) * ((99 : Nat) : ℚ)) = 50 := by
  unfold stdRound
  rw [if_pos (by norm_num)]
  have h : (1 / 2 : ℚ) * ((99 : Nat) : ℚ) + 1 / 2 = ((50 : Int) : ℚ) := by norm_num
  rw [h, Int.floor_intCast]

theorem half_of_double {x w : Int} (hx : 2 * x = w) (hw : w ≠ 0) :
    (x : ℚ) / (w : ℚ) = 1 / 2 := by
  have hx0 : (x : ℚ) ≠ 0 := by
    intro h0
    have : x = 0 := by exact_mod_cast h0
    omega
  rw [← hx]; push_cast
  field_simp
  ring

/-- The index a drag at half the width maps to in a mirror of 100 samples. -/
theorem dragIndex_centre_of_hundred (a : GraphicalArray) (event : MouseEvent)
    (hlen : a.vec.length = 100) (hw : a.width ≠ 0) (hx : 2 * event.x = a.width) :
    a.dragIndex event = some 50 := by
  have hw' : (a.width : ℚ) ≠ 0 := by exact_mod_cast hw
  unfold GraphicalArray.dragIndex
  simp only [fdiv, if_neg hw', Option.map_some', half_of_double hx hw, hlen, sizeSub_hundred,
    clip_half, stdRound_half_of_99]
  rfl

/-- The value a drag at the top edge maps to under the scale `(-1, 1)`. -/
theorem dragValue_top_of_unit_scale (a : GraphicalArray) (event : MouseEvent)
    (hscale : a.array.getScale = (-1, 1)) (hh : a.height ≠ 0) (hy : event.y = 0) :
    a.dragValue event = some 1 := by
  have hh' : (a.height : ℚ) ≠ 0 := by exact_mod_cast hh
  simp [GraphicalArray.dragValue, fdiv, hh', hy, hscale, clip_zero]

/-- C6 (as stated, refuted): in scenario 2's mirror (100 samples, scale `(-1, 1)`) a
drag at normalized position `(0.5, 0.0)` writes index 50 with the value `1.0`, the
scale's maximum, not `0.0`. -/
theorem scenario2_drag_writes_one_not_zero :
    tab1Mirror.vec.length = 100 ∧ tab1Mirror.array.getScale = (-1, 1) ∧
    fdiv ((100 : Int) : ℚ) (tab1Mirror.width : ℚ) = some (1 / 2) ∧
    fdiv ((0 : Int) : ℚ) (tab1Mirror.height : ℚ) = some 0 ∧
    tab1Mirror.dragIndex { x := 100, y := 0 } = some 50 ∧
    tab1Mirror.dragValue { x := 100, y := 0 } = some 1 ∧
    (∃ a', tab1Mirror.mouseDrag { x := 100, y := 0 } true = some a' ∧
      a'.vec[50]? = some 1 ∧ a'.vec[50]? ≠ some 0) := by
  have hi := dragIndex_centre_of_hundred tab1Mirror { x := 100, y := 0 }
    (by simp [tab1Mirror]) (by simp [tab1Mirror]) (by simp [tab1Mirror])
  have hv := dragValue_top_of_unit_scale tab1Mirror { x := 100, y := 0 }
    (by simp [tab1Mirror, PdArray.getScale, libpd_array_get_scale])
    (by simp [tab1Mirror]) rfl
  refine ⟨by simp [tab1Mirror], by simp [tab1Mirror, PdArray.getScale, libpd_array_get_scale],
    by norm_num [tab1Mirror, fdiv], by norm_num [tab1Mirror, fdiv], hi, hv, ?_⟩
  have hlt : 50 < tab1Mirror.vec.length := by simp [tab1Mirror]
  have herr : tab1Mirror.error = false := rfl
  unfold GraphicalArray.mouseDrag
  simp only [herr, hi, hv, hlt, if_true, Bool.false_eq_true, if_false]
  cases hw : tab1Mirror.array.write 50 1 with
  | none => exact ⟨_, rfl, by simp [hlt], by simp [hlt]⟩
  | some arr => exact ⟨_, rfl, by simp [hlt], by simp [hlt]⟩

/-- C6 (amended): for an array mirror of length 100 with vertical scale `(-1, 1)`, a
drag at normalized position `(x/w, y/h) = (0.5, 0.0)` writes index 50 with the value
`1.0` (the top edge maps to the scale's maximum) and changes no other element. -/
theorem scenario2_drag_writes_index_50_value_one (a : GraphicalArray) (event : MouseEvent)
    (lockAcquired : Bool) (herr : a.error = false) (hlen : a.vec.length = 100)
    (hscale : a.array.getScale = (-1, 1)) (hw : a.width ≠ 0) (hh : a.height ≠ 0)
    (hx : 2 * event.x = a.width) (hy : event.y = 0) :
    fdiv (event.x : ℚ) (a.width : ℚ) = some (1 / 2) ∧
    fdiv (event.y : ℚ) (a.height : ℚ) = some 0 ∧
    ∃ a', a.mouseDrag event lockAcquired = some a' ∧ a'.vec = a.vec.set 50 1 ∧
      a'.vec[50]? = some 1 := by
  have hi := dragIndex_centre_of_hundred a event hlen hw hx
  have hv := dragValue_top_of_unit_scale a event hscale hh hy
  have hlt : 50 < a.vec.length := by omega
  have hw' : (a.width : ℚ) ≠ 0 := by exact_mod_cast hw
  have hh' : (a.height : ℚ) ≠ 0 := by exact_mod_cast hh
  refine ⟨?_, ?_, ?_⟩
  · simp only [fdiv, if_neg hw', half_of_double hx hw]
  · simp [fdiv, hh', hy]
  · unfold GraphicalArray.mouseDrag
    simp only [herr, hi, hv, hlt, if_true, Bool.false_eq_true, if_false]
    cases lockAcquired with
    | false => exact ⟨_, rfl, rfl, by simp [hlt]⟩
    | true =>
      cases hwr : a.array.write 50 1 with
      | none => exact ⟨_, rfl, rfl, by simp [hlt]⟩
      | some arr => exact ⟨_, rfl, rfl, by simp [hlt]⟩

/-- C6 witness: scenario 2's mirror with the pointer at `(100, 0)` of 200 by 140. -/
theorem scenario2_drag_writes_index_50_value_one_witness :
    fdiv ((100 : Int) : ℚ) (tab1Mirror.width : ℚ) = some (1 / 2) ∧
    fdiv ((0 : Int) : ℚ) (tab1Mirror.height : ℚ) = some 0 ∧
    ∃ a', tab1Mirror.mouseDrag { x := 100, y := 0 } true = some a' ∧
      a'.vec = tab1Mirror.vec.set 50 1 ∧ a'.vec[50]? = some 1 :=
  scenario2_drag_writes_index_50_value_one tab1Mirror { x := 100, y := 0 } true rfl
    (by simp [tab1Mirror]) (by simp [tab1Mirror, PdArray.getScale, libpd_array_get_scale])
    (by simp [tab1Mirror]) (by simp [tab1Mirror]) (by simp [tab1Mirror]) rfl

/-- A tick on a mirror that already equals the engine's buffer only refreshes the
scratch buffer and clears the error flag. -/
theorem timerCallback_of_synced (b : GraphicalArray) (buffer : List ℚ)
    (hed : b.edited = false) (hread : b.array.read = some buffer) (hv : b.vec = buffer) :
    b.timerCallback = { b with error := false, temp := buffer } := by
  unfold GraphicalArray.timerCallback
  simp [hed, hread, hv]

/-- With a read that succeeds and an engine that does not change, the second timer
tick (and so every later one) leaves the mirror as the first tick left it and
requests no repaint. -/
theorem timerCallback_twice_of_read_ok (a : GraphicalArray) (buffer : List ℚ)
    (hed : a.edited = false) (hread : a.array.read = some buffer) :
    a.timerCallback.vec = buffer ∧
    a.timerCallback.timerCallback.vec = a.timerCallback.vec ∧
    a.timerCallback.timerCallback.repaints = a.timerCallback.repaints ∧
    a.timerCallback.timerCallback.error = false := by
  have h1 : a.timerCallback.vec = buffer ∧ a.timerCallback.edited = false ∧
      a.timerCallback.array = a.array := by
    unfold GraphicalArray.timerCallback
    by_cases hne : buffer = a.vec <;> simp [hed, hread, hne]
  obtain ⟨hv, he, ha⟩ := h1
  rw [timerCallback_of_synced a.timerCallback buffer he (by rw [ha]; exact hread) hv]
  exact ⟨hv, rfl, rfl, rfl⟩

/-- The state `orphanMirror` arises from the synced mirror by one click (whose
write-through is dropped because the lock is taken), the end of the gesture, and
the removal of the array in the engine. -/
theorem orphanMirror_reachable :
    ∃ s, syncedMirror.mouseDown { x := 0, y := 35 } false = some s ∧
      { s.mouseUp with array := { name := "tab1", garray := none } } = orphanMirror := by
  have hi : ({ syncedMirror with edited := true } : GraphicalArray).dragIndex { x := 0, y := 35 }
      = some 0 := by
    have hr : stdRound ((0 : ℚ)) = 0 := by
      unfold stdRound
      rw [if_pos (le_refl 0)]
      have h : (0 : ℚ) + 1 / 2 = 1 / 2 := by norm_num
      rw [h, Int.floor_eq_iff]
      norm_num
    have hs : sizeSub 1 1 = 0 := by norm_num [sizeSub]
    simp [GraphicalArray.dragIndex, syncedMirror, fdiv, hs, hr]
  have hv : ({ syncedMirror with edited := true } : GraphicalArray).dragValue { x := 0, y := 35 }
      = some (1 / 2) := by
    have hc : clip (1 / 4) 0 1 = 1 / 4 := by norm_num [clip, stdMax, stdMin]
    have hq : (35 : ℚ) / 140 = 1 / 4 := by norm_num
    simp only [GraphicalArray.dragValue, syncedMirror, fdiv, PdArray.getScale,
      libpd_array_get_scale]
    norm_num [hq, hc]
  refine ⟨{ syncedMirror with edited := true, vec := [1 / 2], repaints := 1, enqueued := 1 }, ?_,
    ?_⟩
  · unfold GraphicalArray.mouseDown GraphicalArray.mouseDrag
    rw [hi, hv]
    simp [syncedMirror]
  · simp [GraphicalArray.mouseUp, syncedMirror, orphanMirror]

/-- C5 (the code at the failing input): the array of `orphanMirror` no longer
resolves, so every read fails and the engine never changes; the first tick swaps the
stale scratch buffer into the mirror and the second tick swaps it back, each with a
repaint. -/
theorem timerCallback_flips_mirror_when_read_fails :
    orphanMirror.edited = false ∧ orphanMirror.array.read = none ∧
    orphanMirror.timerCallback.array = orphanMirror.array ∧
    orphanMirror.timerCallback.timerCallback.array = orphanMirror.array ∧
    orphanMirror.timerCallback.vec = [1] ∧
    orphanMirror.timerCallback.timerCallback.vec = [1 / 2] ∧
    orphanMirror.timerCallback.timerCallback.vec ≠ orphanMirror.timerCallback.vec ∧
    orphanMirror.timerCallback.timerCallback.repaints
      = orphanMirror.timerCallback.repaints + 1 := by
  refine ⟨rfl, rfl, ?_, ?_, ?_, ?_, ?_, ?_⟩ <;>
    simp [orphanMirror, GraphicalArray.timerCallback, PdArray.read]

/-! ## C7, C8, C9: send and receive bindings -/

/-- C7: for an IEM control bound to the receive name `foo` (stored name `foo`,
receive flag set, bound to `foo` and nothing else), `setReceiveSymbol("empty")` makes
exactly one binding call, the unbinding of `foo`, leaves the object bound to no name
with its receive flag cleared, and a following `getReceiveSymbol()` returns the empty
string. -/
theorem setReceiveSymbol_empty_unbinds (isIEM isAtom : GuiType → Bool) (g : Gui) (o : PdObject)
    (hptr : g.ptr = some o) (hiem : isIEM g.type = true)
    (hrcv : o.x_rcv = "foo") (hable : o.x_rcv_able = true) (hbound : o.bound = ["foo"]) :
    ∃ o', (g.setReceiveSymbol isIEM isAtom "empty").ptr = some o' ∧
      o'.calls = o.calls ++ [BindCall.unbind "foo"] ∧
      o'.bound = [] ∧ o'.x_rcv_able = false ∧
      (g.setReceiveSymbol isIEM isAtom "empty").getReceiveSymbol isIEM = "" := by
  refine ⟨setReceiveSymbolIem o "empty", ?_, ?_, ?_, ?_, ?_⟩
  · simp [Gui.setReceiveSymbol, hptr, hiem]
  · simp [setReceiveSymbolIem, iemgui_verify_snd_ne_rcv, pd_unbind, hable, hrcv]
  · simp [setReceiveSymbolIem, iemgui_verify_snd_ne_rcv, pd_unbind, hable, hrcv, hbound]
  · simp [setReceiveSymbolIem, iemgui_verify_snd_ne_rcv, pd_unbind, hable]
  · simp [Gui.setReceiveSymbol, Gui.getReceiveSymbol, hptr, hiem, setReceiveSymbolIem,
      iemgui_verify_snd_ne_rcv, pd_unbind, hable]

/-- C7 witness: the bang `bngFoo`. -/
theorem setReceiveSymbol_empty_unbinds_witness :
    ∃ o', (bngFoo.setReceiveSymbol iemKinds atomKinds "empty").ptr = some o' ∧
      o'.calls = ([] : List BindCall) ++ [BindCall.unbind "foo"] ∧
      o'.bound = [] ∧ o'.x_rcv_able = false ∧
      (bngFoo.setReceiveSymbol iemKinds atomKinds "empty").getReceiveSymbol iemKinds = "" :=
  setReceiveSymbol_empty_unbinds iemKinds atomKinds bngFoo
    { className := "bng", x_rcv := "foo", x_rcv_able := true, bound := ["foo"] }
    rfl (by decide) rfl rfl rfl

/-- C8 (as stated, refuted): the bang `bngIdleFoo` satisfies the stated invariant
(receive flag clear, bound to nothing), yet `setReceiveSymbol("foo")` makes no binding
call and leaves it bound to nothing with the flag set: it is not bound to `foo`, and
the invariant no longer holds. -/
theorem setReceiveSymbol_same_name_leaves_unbound :
    ∃ o o', bngIdleFoo.ptr = some o ∧ iemKinds bngIdleFoo.type = true ∧ rcvInvariant o ∧
      ("foo" : String) ≠ "empty" ∧
      (bngIdleFoo.setReceiveSymbol iemKinds atomKinds "foo").ptr = some o' ∧
      o'.calls = [] ∧ o'.bound = [] ∧ o'.bound ≠ ["foo"] ∧ o'.x_rcv_able = true ∧
      ¬ rcvInvariant o' := by
  refine ⟨_, _, rfl, by decide, by decide, by decide, rfl, ?_⟩
  decide

/-- C8 (amended): for every IEM control whose state satisfies the receive-binding
invariant and keeps the stored name `empty` while the receive flag is clear, and
every name `s` other than `empty`, `setReceiveSymbol(s)` unbinds the previous name (if
one was bound and differs from `s`) before binding `s`; afterwards the object is bound
to exactly `s`, and both conditions hold again. -/
theorem setReceiveSymbol_rebinds (isIEM isAtom : GuiType → Bool) (g : Gui) (o : PdObject)
    (s : String) (hptr : g.ptr = some o) (hiem : isIEM g.type = true)
    (hinv : rcvInvariant o) (hidle : rcvIdleIsEmpty o) (hs : s ≠ "empty") :
    ∃ o', (g.setReceiveSymbol isIEM isAtom s).ptr = some o' ∧
      o'.calls = o.calls ++
        (if s = o.x_rcv then []
         else (if o.x_rcv_able then [BindCall.unbind o.x_rcv] else []) ++ [BindCall.bind s]) ∧
      o'.bound = [s] ∧ o'.x_rcv = s ∧ o'.x_rcv_able = true ∧
      rcvInvariant o' ∧ rcvIdleIsEmpty o' := by
  refine ⟨setReceiveSymbolIem o s, ?_, ?_⟩
  · simp [Gui.setReceiveSymbol, hptr, hiem]
  unfold rcvInvariant at hinv
  unfold rcvIdleIsEmpty at hidle
  by_cases hsame : s = o.x_rcv
  · have hable : o.x_rcv_able = true := by
      by_contra hf
      have hf' : o.x_rcv_able = false := by simpa using hf
      exact hs (hsame.trans (hidle hf'))
    rw [hable] at hinv
    subst hsame
    simp [rcvInvariant, rcvIdleIsEmpty, setReceiveSymbolIem, iemgui_verify_snd_ne_rcv, hs,
      hinv, hable]
  · cases hable : o.x_rcv_able with
    | true =>
      rw [hable] at hinv
      simp [rcvInvariant, rcvIdleIsEmpty, setReceiveSymbolIem, iemgui_verify_snd_ne_rcv,
        pd_bind, pd_unbind, hs, hsame, hable, hinv]
    | false =>
      rw [hable] at hinv
      simp [rcvInvariant, rcvIdleIsEmpty, setReceiveSymbolIem, iemgui_verify_snd_ne_rcv,
        pd_bind, pd_unbind, hs, hsame, hable, hinv]

/-- C8 witness: the bang `bngFoo`, bound to `foo`, rebound to `baz`. -/
theorem setReceiveSymbol_rebinds_witness :
    ∃ o', (bngFoo.setReceiveSymbol iemKinds atomKinds "baz").ptr = some o' ∧
      o'.calls = ([] : List BindCall) ++
        (if ("baz" : String) = "foo" then []
         else (if true then [BindCall.unbind "foo"] else []) ++ [BindCall.bind "baz"]) ∧
      o'.bound = ["baz"] ∧ o'.x_rcv = "baz" ∧ o'.x_rcv_able = true ∧
      rcvInvariant o' ∧ rcvIdleIsEmpty o' :=
  setReceiveSymbol_rebinds iemKinds atomKinds bngFoo
    { className := "bng", x_rcv := "foo", x_rcv_able := true, bound := ["foo"] } "baz"
    rfl (by decide) (by decide) (by decide) (by decide)

/-- C9 (the code at the failing input): the bang `bngBar` holds the send name `bar`;
after `setSendSymbol("empty")` only its send flag is cleared and `getSendSymbol()`
still returns `bar`, whereas on the receive side `setReceiveSymbol("empty")` followed
by `getReceiveSymbol()` returns the empty string. -/
theorem getSendSymbol_after_empty_returns_old_name :
    iemKinds bngBar.type = true ∧
    (bngBar.setSendSymbol iemKinds atomKinds "empty").getSendSymbol iemKinds = "bar" ∧
    (bngBar.setSendSymbol iemKinds atomKinds "empty").getSendSymbol iemKinds ≠ "" ∧
    (bngBar.setReceiveSymbol iemKinds atomKinds "empty").getReceiveSymbol iemKinds = "" := by
  decide

/-! ## C10: classification of canvases and graphs -/

/-- C10 (as stated, refuted): the graph `arrayGraph` has its graph flag set, yet its
first child is an array and `getType` returns `Array`, not `GraphOnParent`. -/
theorem getType_graph_flag_set_yet_array :
    arrayGraph.className = "graph" ∧ arrayGraph.gl_isgraph = true ∧
    Gui.getType arrayGraph = GuiType.Array ∧
    Gui.getType arrayGraph ≠ GuiType.GraphOnParent := by
  decide

/-- C10 (amended): for every object whose class name is `canvas` or `graph`,
`getType` returns `Array` whenever the first child is the engine's array-storage
class, whatever the graph flag; otherwise it returns `GraphOnParent` when the graph
flag is set and `Subpatch` when it is clear. -/
theorem getType_canvas (o : PdObject) (hname : o.className = "canvas" ∨ o.className = "graph") :
    Gui.getType o =
      if o.gl_list = some (some "array") then GuiType.Array
      else if o.gl_isgraph then GuiType.GraphOnParent
      else GuiType.Subpatch := by
  unfold Gui.getType
  rcases hname with h | h <;> simp only [h] <;>
    cases hl : o.gl_list <;> simp

/-- C10 witness: the graph `arrayGraph`. -/
theorem getType_canvas_witness :
    Gui.getType arrayGraph =
      if arrayGraph.gl_list = some (some "array") then GuiType.Array
      else if arrayGraph.gl_isgraph then GuiType.GraphOnParent
      else GuiType.Subpatch :=
  getType_canvas arrayGraph (Or.inr rfl)

/-! ## C11, C12, C13: the classifier and the cached kind -/

/-- The classification of a canvas or graph, by first child and graph flag. -/
theorem getType_of_canvas_class (o : PdObject)
    (hname : o.className = "canvas" ∨ o.className = "graph") :
    Gui.getType o =
      if o.gl_list = some (some "array") then GuiType.Array
      else if o.gl_isgraph then GuiType.GraphOnParent
      else GuiType.Subpatch := by
  unfold Gui.getType
  rcases hname with h | h <;> simp only [h] <;>
    cases hl : o.gl_list <;> simp

/-- C11 (as stated, refuted): the control built on `subpatchCanvas` while its graph
flag is clear has kind `Subpatch`; after the engine sets the flag the same control
still holds the kind `Subpatch`, not `GraphOnParent`. -/
theorem cached_kind_stays_subpatch :
    subpatchCanvas.gl_isgraph = false ∧
    (Gui.new subpatchCanvas none).type = GuiType.Subpatch ∧
    (Gui.new subpatchCanvas none).engineSetsGraphFlag.ptr
      = some { subpatchCanvas with gl_isgraph := true } ∧
    (Gui.new subpatchCanvas none).engineSetsGraphFlag.type = GuiType.Subpatch ∧
    (Gui.new subpatchCanvas none).engineSetsGraphFlag.type ≠ GuiType.GraphOnParent := by
  decide

/-- C11 (amended): a control constructed from a sub-patch handle (class `canvas` or
`graph`, first child not an array) while its graph flag was false keeps the kind
`Subpatch` it was given at construction after the engine sets the graph flag; the
classifier invoked again on the handle yields `GraphOnParent`,
`Subpatch::updateValue` then asks the box to create the control anew, and the control
constructed again from the handle has kind `GraphOnParent`. -/
theorem subpatch_becomes_graph_on_reconstruction (o : PdObject) (i : Option Instance)
    (hname : o.className = "canvas" ∨ o.className = "graph")
    (hchild : o.gl_list ≠ some (some "array")) (hflag : o.gl_isgraph = false) :
    (Gui.new o i).type = GuiType.Subpatch ∧
    (Gui.new o i).engineSetsGraphFlag.ptr = some { o with gl_isgraph := true } ∧
    (Gui.new o i).engineSetsGraphFlag.type = GuiType.Subpatch ∧
    Gui.getType { o with gl_isgraph := true } = GuiType.GraphOnParent ∧
    Subpatch.updateValue { gui := (Gui.new o i).engineSetsGraphFlag } = some true ∧
    (Gui.new { o with gl_isgraph := true } i).type = GuiType.GraphOnParent := by
  have h1 : Gui.getType o = GuiType.Subpatch := by
    rw [getType_of_canvas_class o hname]; simp [hchild, hflag]
  have h2 : Gui.getType { o with gl_isgraph := true } = GuiType.GraphOnParent := by
    have h := getType_of_canvas_class { o with gl_isgraph := true } (by simpa using hname)
    rw [h]; simp [hchild]
  refine ⟨h1, rfl, h1, h2, rfl, h2⟩

/-- C11 witness: the canvas `subpatchCanvas`. -/
theorem subpatch_becomes_graph_on_reconstruction_witness :
    (Gui.new subpatchCanvas none).type = GuiType.Subpatch ∧
    (Gui.new subpatchCanvas none).engineSetsGraphFlag.ptr
      = some { subpatchCanvas with gl_isgraph := true } ∧
    (Gui.new subpatchCanvas none).engineSetsGraphFlag.type = GuiType.Subpatch ∧
    Gui.getType { subpatchCanvas with gl_isgraph := true } = GuiType.GraphOnParent ∧
    Subpatch.updateValue { gui := (Gui.new subpatchCanvas none).engineSetsGraphFlag }
      = some true ∧
    (Gui.new { subpatchCanvas with gl_isgraph := true } none).type = GuiType.GraphOnParent :=
  subpatch_becomes_graph_on_reconstruction subpatchCanvas none (Or.inl rfl) (by decide) rfl

/-- C12: `getType` is total and read-only.  For every object whose class name is none
of the eighteen known names it returns `Undefined`; for a `text` object of engine type
`T_OBJECT` it returns `Invalid`; and the control constructed around the
classification holds the inspected object exactly as it was (the classifier is a
function of the object that yields only a kind). -/
theorem getType_total_read_only (o : PdObject) (i : Option Instance) :
    (o.className ∉ ["bng", "hsl", "vsl", "tgl", "nbx", "vradio", "hradio", "cnv", "vu", "text",
        "message", "pad", "mouse", "keyboard", "gatom", "canvas", "graph", "pd"] →
      Gui.getType o = GuiType.Undefined) ∧
    (o.className = "text" → o.te_type = T_OBJECT → Gui.getType o = GuiType.Invalid) ∧
    (Gui.new o i).ptr = some o ∧ (Gui.new o i).inst = i := by
  refine ⟨?_, ?_, rfl, rfl⟩
  · intro h
    simp only [List.mem_cons, List.mem_singleton, List.not_mem_nil, or_false, not_or] at h
    obtain ⟨h1, h2, h3, h4, h5, h6, h7, h8, h9, h10, h11, h12, h13, h14, h15, h16, h17, h18⟩ := h
    unfold Gui.getType
    simp [h1, h2, h3, h4, h5, h6, h7, h8, h9, h10, h11, h12, h13, h14, h15, h16, h17, h18]
  · intro hname hty
    unfold Gui.getType
    simp [hname, hty]

/-- C12 witness: an object of the unknown class `osc~`, and the object box
`objectBox`. -/
theorem getType_total_read_only_witness :
    Gui.getType { className := "osc~" } = GuiType.Undefined ∧
    Gui.getType objectBox = GuiType.Invalid :=
  ⟨(getType_total_read_only { className := "osc~" } none).1 (by decide),
   (getType_total_read_only objectBox none).2.1 rfl rfl⟩

/-- A conditional differs from `t` when both of its branches do. -/
theorem ite_ne_of_branches {α : Type} {c : Prop} [Decidable c] {a b t : α} (ha : a ≠ t)
    (hb : b ≠ t) : (if c then a else b) ≠ t := by
  by_cases h : c
  · rw [if_pos h]; exact ha
  · rw [if_neg h]; exact hb

/-- The classifier never yields the list-box kind. -/
theorem getType_ne_AtomList (o : PdObject) : Gui.getType o ≠ GuiType.AtomList := by
  unfold Gui.getType
  dsimp only
  iterate 9 refine ite_ne_of_branches (by decide) ?_
  refine ite_ne_of_branches (ite_ne_of_branches (by decide) (by decide)) ?_
  iterate 4 refine ite_ne_of_branches (by decide) ?_
  refine ite_ne_of_branches
    (ite_ne_of_branches (by decide) (ite_ne_of_branches (by decide) (by decide))) ?_
  refine ite_ne_of_branches ?_ (ite_ne_of_branches (by decide) (by decide))
  cases o.gl_list with
  | none => exact ite_ne_of_branches (by decide) (by decide)
  | some c =>
    exact ite_ne_of_branches (by decide) (ite_ne_of_branches (by decide) (by decide))

/-- C13 (as stated, refuted): the atom box `listGatom`, whose flavor tag is neither
float nor symbol, is classified `Undefined`, not `AtomList`. -/
theorem gatom_list_flavor_is_undefined :
    listGatom.className = "gatom" ∧ listGatom.a_flavor ≠ A_FLOAT ∧
    listGatom.a_flavor ≠ A_SYMBOL ∧
    Gui.getType listGatom = GuiType.Undefined ∧
    Gui.getType listGatom ≠ GuiType.AtomList := by
  decide

/-- C13 (amended): a gatom object whose flavor tag is neither float nor symbol is
classified `Undefined` (the `AtomList` branch of `getType` is disabled), so that for the
control built on it `getList` returns the empty list and `setList` does nothing. -/
theorem gatom_other_flavor_undefined (o : PdObject) (i : Option Instance) (value : List Atom)
    (hname : o.className = "gatom") (hf : o.a_flavor ≠ A_FLOAT) (hs : o.a_flavor ≠ A_SYMBOL) :
    Gui.getType o = GuiType.Undefined ∧
    (Gui.new o i).getList = some [] ∧
    (Gui.new o i).setList value = some (Gui.new o i) := by
  have h : Gui.getType o = GuiType.Undefined := by
    unfold Gui.getType
    simp [hname, hf, hs]
  refine ⟨h, ?_, ?_⟩
  · simp [Gui.getList, Gui.new, h]
  · simp [Gui.setList, Gui.new, h]

/-- C13 witness: the atom box `listGatom`. -/
theorem gatom_other_flavor_undefined_witness :
    Gui.getType listGatom = GuiType.Undefined ∧
    (Gui.new listGatom none).getList = some [] ∧
    (Gui.new listGatom none).setList [Atom.float 1] = some (Gui.new listGatom none) :=
  gatom_other_flavor_undefined listGatom none [Atom.float 1] rfl (by decide) (by decide)

/-! ## C14, C15, C16: null handles, the queue, and list decoding -/

/-- The constructor `Gui::Gui` keeps the handle it classified the kind from: a bridge
object it built has a live handle. -/
theorem Gui.new_ptr (o : PdObject) (i : Option Instance) :
    (Gui.new o i).ptr = some o ∧ (Gui.new o i).type = Gui.getType o :=
  ⟨rfl, rfl⟩

/-- C15: `setValue` never writes engine memory.  With a live handle and a live
instance and a kind that is neither `Comment` nor `AtomSymbol` it appends exactly one
message (handle, v) to the UI-to-engine queue and changes nothing else; for a
`Comment`, an `AtomSymbol`, a null handle or a null instance it changes nothing at
all; in every case the engine object behind the handle is as it was. -/
theorem setValue_routes_through_queue (g : Gui) (v : ℚ) :
    (∀ (o : PdObject) (i : Instance), g.ptr = some o → g.inst = some i →
      g.type ≠ GuiType.Comment → g.type ≠ GuiType.AtomSymbol →
      g.setValue v = { g with inst := some { i with queue := i.queue ++ [(o.addr, v)] } }) ∧
    (g.ptr = none ∨ g.inst = none ∨ g.type = GuiType.Comment ∨ g.type = GuiType.AtomSymbol →
      g.setValue v = g) ∧
    (g.setValue v).ptr = g.ptr ∧ (g.setValue v).type = g.type := by
  refine ⟨?_, ?_, ?_, ?_⟩
  · intro o i hptr hinst hc hs
    simp [Gui.setValue, hptr, hinst, hc, hs, Instance.enqueueDirectMessages]
  · intro h
    unfold Gui.setValue
    cases hi : g.inst with
    | none => rfl
    | some i =>
      cases hp : g.ptr with
      | none => rfl
      | some o =>
        rcases h with h | h | h | h
        · rw [hp] at h; cases h
        · rw [hi] at h; cases h
        · simp [h]
        · simp [h]
  · unfold Gui.setValue
    split
    · split_ifs <;> rfl
    · rfl
  · unfold Gui.setValue
    split
    · split_ifs <;> rfl
    · rfl

/-- C15 witness: the toggle `liveToggle` is sent the value 1; the comment `commentBox`
is sent the value 1. -/
theorem setValue_routes_through_queue_witness :
    liveToggle.setValue 1
      = { liveToggle with inst := some { ({} : Instance) with queue := [] ++ [(7, 1)] } } ∧
    commentBox.setValue 1 = commentBox :=
  ⟨(setValue_routes_through_queue liveToggle 1).1 { addr := 7, className := "tgl" } {} rfl rfl
      (by decide) (by decide),
   (setValue_routes_through_queue commentBox 1).2.1 (Or.inr (Or.inr (Or.inl rfl)))⟩

/-- The loop of `getList` appends the decoding of each atom, in order. -/
theorem getListLoop_eq (atoms : List TAtom) :
    ∀ array : List Atom, getListLoop atoms array = array ++ atoms.map decodeAtom := by
  induction atoms with
  | nil => intro array; simp [getListLoop]
  | cons a rest ih => intro array; simp [getListLoop, ih]

/-- C16: for a list-kind control with a live handle and instance, `getList` returns a
list as long as the object's atom vector, whose k-th element is the float of the k-th
atom if that atom is a float, its symbol name if it is a symbol, and the untyped
placeholder otherwise: no atom is dropped and the order is kept. -/
theorem getList_decodes_every_atom (g : Gui) (o : PdObject) (i : Instance)
    (hptr : g.ptr = some o) (hinst : g.inst = some i) (hty : g.type = GuiType.AtomList) :
    ∃ l, g.getList = some l ∧ l.length = o.te_binbuf.length ∧
      ∀ (k : Nat) (a : TAtom), o.te_binbuf[k]? = some a →
        (a.a_type = A_FLOAT → l[k]? = some (Atom.float a.w_float)) ∧
        (a.a_type = A_SYMBOL → l[k]? = some (Atom.symbol a.w_symbol)) ∧
        (a.a_type ≠ A_FLOAT → a.a_type ≠ A_SYMBOL → l[k]? = some Atom.untyped) := by
  refine ⟨o.te_binbuf.map decodeAtom, ?_, ?_, ?_⟩
  · simp [Gui.getList, hptr, hinst, hty, getListLoop_eq]
  · simp
  · intro k a hk
    have hget : (o.te_binbuf.map decodeAtom)[k]? = some (decodeAtom a) := by
      rw [List.getElem?_map, hk]; rfl
    rw [hget]
    refine ⟨?_, ?_, ?_⟩
    · intro hf
      simp [decodeAtom, atom_getfloat, hf]
    · intro hs
      have hne : ¬ (A_SYMBOL = A_FLOAT) := by decide
      simp [decodeAtom, atom_getsymbol, hs, hne]
    · intro hf hs
      simp [decodeAtom, hf, hs]

/-- C16 witness: the list box `listBox`, holding a float, a symbol and a pointer
atom. -/
theorem getList_decodes_every_atom_witness :
    ∃ l, listBox.getList = some l ∧
      l.length = ([{ a_type := A_FLOAT, w_float := 3 }, { a_type := A_SYMBOL, w_symbol := "x" },
        { a_type := 3 }] : List TAtom).length ∧
      ∀ (k : Nat) (a : TAtom),
        ([{ a_type := A_FLOAT, w_float := 3 }, { a_type := A_SYMBOL, w_symbol := "x" },
          { a_type := 3 }] : List TAtom)[k]? = some a →
        (a.a_type = A_FLOAT → l[k]? = some (Atom.float a.w_float)) ∧
        (a.a_type = A_SYMBOL → l[k]? = some (Atom.symbol a.w_symbol)) ∧
        (a.a_type ≠ A_FLOAT → a.a_type ≠ A_SYMBOL → l[k]? = some Atom.untyped) :=
  getList_decodes_every_atom listBox
    { className := "gatom",
      te_binbuf := [{ a_type := A_FLOAT, w_float := 3 }, { a_type := A_SYMBOL, w_symbol := "x" },
        { a_type := 3 }] }
    {} rfl rfl rfl

/-- The decoded list of `listBox`, evaluated: nothing is dropped. -/
theorem getList_listBox :
    listBox.getList = some [Atom.float 3, Atom.symbol "x", Atom.untyped] := by
  simp [listBox, Gui.getList, getListLoop, decodeAtom, atom_getfloat, atom_getsymbol, A_FLOAT,
    A_SYMBOL]

/-! ## C17, C18, C19: bounds and label position -/

/-- C17: for a panel with a live handle and all integers `w`, `h`, `setSize(w, h)`
stores `w - 1` and `h - 1` as the visible width and height, a following `getBounds()`
reports width `w` and height `h`, and the reported `x` and `y` are those reported
before the call, the engine's. -/
theorem panel_setSize_getBounds (isIEM : GuiType → Bool) (setWidth : Gui → Int → Gui) (g : Gui)
    (o : PdObject) (b : Bounds) (w h : Int) (hptr : g.ptr = some o)
    (hty : g.type = GuiType.Panel) :
    ∃ g', g.setSize isIEM setWidth w h = some g' ∧
      g'.ptr = some { o with x_vis_w := w - 1, x_vis_h := h - 1 } ∧
      g'.getBounds isIEM b = some { x := b.x, y := b.y, w := w, h := h } ∧
      g.getBounds isIEM b = some { x := b.x, y := b.y, w := o.x_vis_w + 1, h := o.x_vis_h + 1 } := by
  refine ⟨{ g with ptr := some { o with x_vis_w := w - 1, x_vis_h := h - 1 } }, ?_, rfl, ?_, ?_⟩
  · simp [Gui.setSize, hty, hptr]
  · simp [Gui.getBounds, hty]
  · simp [Gui.getBounds, hty, hptr]

/-- C17 witness: the panel `panel100` resized to 200 by 120 inside `box10`. -/
theorem panel_setSize_getBounds_witness :
    ∃ g', panel100.setSize iemKinds (fun g _ => g) 200 120 = some g' ∧
      g'.ptr = some { ({ className := "cnv", x_vis_w := 99, x_vis_h := 59 } : PdObject) with
        x_vis_w := 200 - 1, x_vis_h := 120 - 1 } ∧
      g'.getBounds iemKinds box10 = some { x := box10.x, y := box10.y, w := 200, h := 120 } ∧
      panel100.getBounds iemKinds box10
        = some { x := box10.x, y := box10.y,
                 w := ({ className := "cnv", x_vis_w := 99, x_vis_h := 59 } : PdObject).x_vis_w + 1,
                 h := ({ className := "cnv", x_vis_w := 99, x_vis_h := 59 } : PdObject).x_vis_h + 1 } :=
  panel_setSize_getBounds iemKinds (fun g _ => g) panel100 _ box10 200 120 rfl rfl

/-- C18 (as stated, refuted): for the comment `commentBox` in the engine box
`(10, 20, 30, 40)`, `getBounds` reports `(12, 22, 30, 38)`: `x` and `y` are not the
engine's. -/
theorem comment_getBounds_shifts_origin :
    commentBox.type = GuiType.Comment ∧
    commentBox.getBounds iemKinds box10 = some { x := 12, y := 22, w := 30, h := 38 } ∧
    commentBox.getBounds iemKinds box10 ≠ some { x := 10, y := 20, w := 30, h := 38 } := by
  decide

/-- C18 (amended): for the `AtomNumber` and `AtomSymbol` kinds `getBounds` differs
from the engine's bounding box only in the height, which is reduced by exactly 2; for
the `Comment` kind the height is reduced by 2 as well, the width is the engine's, and
`x` and `y` are each moved by 2. -/
theorem atom_comment_getBounds (isIEM : GuiType → Bool) (g : Gui) (b : Bounds) :
    (g.type = GuiType.AtomNumber ∨ g.type = GuiType.AtomSymbol →
      g.getBounds isIEM b = some { x := b.x, y := b.y, w := b.w, h := b.h - 2 }) ∧
    (g.type = GuiType.Comment →
      g.getBounds isIEM b = some { x := b.x + 2, y := b.y + 2, w := b.w, h := b.h - 2 }) := by
  refine ⟨?_, ?_⟩
  · intro h
    rcases h with h | h <;> simp [Gui.getBounds, h]
  · intro h
    simp [Gui.getBounds, h]

/-- C18 witness: the atom box `gatomFreq` and the comment `commentBox` in `box10`. -/
theorem atom_comment_getBounds_witness :
    gatomFreq.getBounds iemKinds box10
      = some { x := box10.x, y := box10.y, w := box10.w, h := box10.h - 2 } ∧
    commentBox.getBounds iemKinds box10
      = some { x := box10.x + 2, y := box10.y + 2, w := box10.w, h := box10.h - 2 } :=
  ⟨(atom_comment_getBounds iemKinds gatomFreq box10).1 (Or.inl rfl),
   (atom_comment_getBounds iemKinds commentBox box10).2 rfl⟩

/-- C19: `getLabelPosition` on a control with a live handle and instance and the
bounds `(x, y, w, h)`.  For an atom-kind control whose label resolves to a text of
`nchars` characters the position is selected by `a_wherelabel`: 0 (left) gives
`(x - 4 - nchars * fontwidth, y + 2 + 8)`, 1 (right) gives `(x + w + 2, y + 2 + 8)`,
2 (above) gives `(x - 1, y - 1 - 8)`, 3 (below) gives `(x - 1, y + h + 2 + 8)`, `8`
being `17 / 2`; for an IEM control whose label resolves it is `(x + x_ldx, y + x_ldy)`;
with no resolvable label it is `(x, y)`. -/
theorem getLabelPosition_rules (isIEM isAtom : GuiType → Bool)
    (canvas_realizedollar : String → Option String) (glist_fontwidth : Int) (g : Gui)
    (o : PdObject) (i : Instance) (b : Bounds) (hptr : g.ptr = some o)
    (hinst : g.inst = some i) :
    ((17 : Int) / 2 = 8) ∧
    (isIEM g.type = false → isAtom g.type = true →
      ∀ text, canvas_realizedollar o.a_label = some text →
        (o.a_wherelabel = 0 →
          g.getLabelPosition isIEM isAtom canvas_realizedollar glist_fontwidth b
            = some (b.x - 4 - (text.utf8ByteSize : Int) * glist_fontwidth, b.y + 2 + 8)) ∧
        (o.a_wherelabel = 1 →
          g.getLabelPosition isIEM isAtom canvas_realizedollar glist_fontwidth b
            = some (b.x + b.w + 2, b.y + 2 + 8)) ∧
        (o.a_wherelabel = 2 →
          g.getLabelPosition isIEM isAtom canvas_realizedollar glist_fontwidth b
            = some (b.x - 1, b.y - 1 - 8)) ∧
        (o.a_wherelabel = 3 →
          g.getLabelPosition isIEM isAtom canvas_realizedollar glist_fontwidth b
            = some (b.x - 1, b.y + b.h + 2 + 8))) ∧
    (isIEM g.type = true → ∀ text, canvas_realizedollar o.x_lab = some text →
      g.getLabelPosition isIEM isAtom canvas_realizedollar glist_fontwidth b
        = some (b.x + o.x_ldx, b.y + o.x_ldy)) ∧
    (isIEM g.type = true → canvas_realizedollar o.x_lab = none →
      g.getLabelPosition isIEM isAtom canvas_realizedollar glist_fontwidth b
        = some (b.x, b.y)) ∧
    (isIEM g.type = false → isAtom g.type = true → canvas_realizedollar o.a_label = none →
      g.getLabelPosition isIEM isAtom canvas_realizedollar glist_fontwidth b
        = some (b.x, b.y)) ∧
    (isIEM g.type = false → isAtom g.type = false →
      g.getLabelPosition isIEM isAtom canvas_realizedollar glist_fontwidth b
        = some (b.x, b.y)) := by
  have h8 : (17 : Int) / 2 = 8 := by decide
  refine ⟨h8, ?_, ?_, ?_, ?_, ?_⟩
  · intro hiem hatom text hsym
    refine ⟨?_, ?_, ?_, ?_⟩ <;> intro hw <;>
      simp [Gui.getLabelPosition, hinst, hptr, hiem, hatom, hsym, hw, h8]
  · intro hiem text hsym
    simp [Gui.getLabelPosition, hinst, hptr, hiem, hsym]
  · intro hiem hsym
    simp [Gui.getLabelPosition, hinst, hptr, hiem, hsym]
  · intro hiem hatom hsym
    simp [Gui.getLabelPosition, hinst, hptr, hiem, hatom, hsym]
  · intro hiem hatom
    simp [Gui.getLabelPosition, hinst, hiem, hatom]

/-- C19 witness: the atom box `gatomFreq`, label `freq` (4 characters) on the left,
font width 6, in `box10`: the label is at `(10 - 4 - 4 * 6, 20 + 2 + 8)`. -/
theorem getLabelPosition_rules_witness :
    gatomFreq.getLabelPosition iemKinds atomKinds realizeSelf 6 box10
      = some (box10.x - 4 - (("freq" : String).utf8ByteSize : Int) * 6, box10.y + 2 + 8) :=
  ((getLabelPosition_rules iemKinds atomKinds realizeSelf 6 gatomFreq
      { className := "gatom", a_flavor := A_FLOAT, a_label := "freq", a_wherelabel := 0 } {}
      box10 rfl rfl).2.1 (by decide) (by decide) "freq" rfl).1 rfl

/-- The position of `gatomFreq`'s label, evaluated. -/
theorem getLabelPosition_gatomFreq :
    gatomFreq.getLabelPosition iemKinds atomKinds realizeSelf 6 box10 = some (-18, 30) := by
  decide

/-! ## The clamp of the scaled mutator -/

theorem stdMax_eq_max (a b : ℚ) : stdMax a b = max a b := by
  unfold stdMax
  split_ifs with h
  · exact (max_eq_right (le_of_lt h)).symm
  · exact (max_eq_left (not_lt.mp h)).symm

theorem stdMin_eq_min (a b : ℚ) : stdMin a b = min a b := by
  unfold stdMin
  split_ifs with h
  · exact (min_eq_right (le_of_lt h)).symm
  · exact (min_eq_left (not_lt.mp h)).symm

/-- The clamp `std::max(std::min(v, 1.f), 0.f)` of the scaled mutator lies in
`[0, 1]`. -/
theorem unitClamp_mem (v : ℚ) : 0 ≤ stdMax (stdMin v 1) 0 ∧ stdMax (stdMin v 1) 0 ≤ 1 := by
  rw [stdMax_eq_max, stdMin_eq_min]
  exact ⟨le_max_right _ _, max_le (min_le_right _ _) zero_le_one⟩

/-- The clamp of the scaled mutator is monotone. -/
theorem unitClamp_mono {v₁ v₂ : ℚ} (h : v₁ ≤ v₂) :
    stdMax (stdMin v₁ 1) 0 ≤ stdMax (stdMin v₂ 1) 0 := by
  rw [stdMax_eq_max, stdMin_eq_min, stdMax_eq_max, stdMin_eq_min]
  exact max_le_max (min_le_min h (le_refl 1)) (le_refl 0)

theorem unitClamp_of_nonpos {v : ℚ} (h : v ≤ 0) : stdMax (stdMin v 1) 0 = 0 := by
  rw [stdMax_eq_max, stdMin_eq_min]
  exact max_eq_right (le_trans (min_le_left _ _) h)

theorem unitClamp_of_one_le {v : ℚ} (h : 1 ≤ v) : stdMax (stdMin v 1) 0 = 1 := by
  rw [stdMax_eq_max, stdMin_eq_min, min_eq_right h]
  exact max_eq_left zero_le_one

/-- The value `setValueScaled` stores, in either branch, written with the clamp. -/
theorem setValueScaled_value (c : GUIComponent) (v : ℚ) :
    (c.setValueScaled v).value = c.min + stdMax (stdMin v 1) 0 * (c.max - c.min) := by
  simp only [GUIComponent.setValueScaled]
  split_ifs <;> ring

/-! ## C21: engine snapshots and the `edited` flag -/

/-- While the `edited` flag is set, `updateValue` requests no snapshot. -/
theorem updateValue_while_edited (s : ControlSync) (h : s.comp.edited = true) :
    s.updateValue = s := by
  simp [ControlSync.updateValue, h]

/-- A snapshot equal to the displayed value changes nothing and triggers no `update()`:
the callback is only taken off the queue. -/
theorem callback_of_equal_snapshot (s : ControlSync) (v : ℚ) (rest : List ℚ)
    (hq : s.callbacks = v :: rest) (hv : v = s.comp.value) :
    s.callback = { s with callbacks := rest } ∧ s.callback.comp = s.comp ∧
    s.callback.updates = s.updates := by
  have h : s.callback = { s with callbacks := rest } := by
    simp [ControlSync.callback, hq, hv]
  rw [h]
  exact ⟨rfl, rfl, rfl⟩

/-- C21 (the code at the failing interleaving): for the slider `staleSlider` the snapshot
`3/10` is requested and taken while the control is not edited; the edit then begins and
the user drags to `7/10`; the UI callback of the snapshot runs while `edited` is true, and
replaces the displayed `7/10` by `3/10` with a call of `update()`. -/
theorem stale_snapshot_applied_while_edited :
    ∃ before after, staleSnapshotTrace = some (before, after) ∧
      before.comp.edited = true ∧ before.comp.value = 7 / 10 ∧ before.callbacks = [3 / 10] ∧
      after.comp.edited = true ∧ after.comp.value = 3 / 10 ∧
      after.updates = before.updates + 1 := by
  have hclamp : stdMax (stdMin (7 / 10) 1) 0 = 7 / 10 := unit_clamp_id (by norm_num) (by norm_num)
  have hne : ¬ ((3 : ℚ) / 10 = 7 / 10) := by norm_num
  refine ⟨{ comp := { staleSlider.comp with
                      gui := staleSlider.comp.gui.setValue (7 / 10), value := 7 / 10,
                      edited := true },
            pending := 0, callbacks := [3 / 10], updates := 0, mouseMessages := [1] },
          { comp := { staleSlider.comp with
                      gui := staleSlider.comp.gui.setValue (7 / 10), value := 3 / 10,
                      edited := true },
            pending := 0, callbacks := [], updates := 1, mouseMessages := [1] },
          ?_, rfl, rfl, rfl, rfl, rfl, rfl⟩
  simp [staleSnapshotTrace, staleSlider, ControlSync.updateValue, ControlSync.drain,
    ControlSync.startEdition, ControlSync.setValueScaled, ControlSync.callback, Gui.getValue,
    GUIComponent.setValueScaled, hclamp, hne]

/-! ## C22, C23, C24: the timer tick, the drag and the end of the gesture -/

/-- Two vectors that compare equal with `==` hold the same numbers. -/
theorem vectorEq_eq : ∀ (a b : List F32), vectorEq a b = true → a = b
  | [], [], _ => rfl
  | [], _ :: _, h => by simp [vectorEq] at h
  | _ :: _, [], h => by simp [vectorEq] at h
  | x :: xs, y :: ys, h => by
    simp only [vectorEq, Bool.and_eq_true] at h
    have hxy : x = y := by
      cases x with
      | nan => simp [F32.eq] at h
      | inf n =>
        cases y with
        | nan => simp [F32.eq] at h
        | inf m => simpa [F32.eq] using h.1
        | fin q => simp [F32.eq] at h
      | fin p =>
        cases y with
        | nan => simp [F32.eq] at h
        | inf m => simp [F32.eq] at h
        | fin q => simpa [F32.eq] using h.1
    rw [hxy, vectorEq_eq xs ys h.2]

/-- A vector without NaN compares equal to itself. -/
theorem vectorEq_self : ∀ (a : List F32), (∀ x ∈ a, x.isNaN = false) → vectorEq a a = true
  | [], _ => rfl
  | x :: xs, h => by
    have hx : F32.eq x x = true := by
      have := h x (List.mem_cons_self x xs)
      cases x with
      | nan => simp [F32.isNaN] at this
      | inf n => simp [F32.eq]
      | fin q => simp [F32.eq]
    simp only [vectorEq, hx, Bool.true_and]
    exact vectorEq_self xs (fun y hy => h y (List.mem_cons_of_mem x hy))

/-- A vector with a NaN element compares unequal to every vector. -/
theorem vectorEq_of_nan : ∀ (a b : List F32), (∃ x ∈ a, x.isNaN = true) → vectorEq a b = false
  | [], _, h => by simp at h
  | _ :: _, [], _ => rfl
  | x :: xs, y :: ys, h => by
    simp only [vectorEq]
    cases x with
    | nan => simp [F32.eq]
    | inf n =>
      have h2 : ∃ z ∈ xs, z.isNaN = true := by simpa [F32.isNaN] using h
      rw [vectorEq_of_nan xs ys h2]; simp
    | fin q =>
      have h2 : ∃ z ∈ xs, z.isNaN = true := by simpa [F32.isNaN] using h
      rw [vectorEq_of_nan xs ys h2]; simp

/-- C22 (as stated, refuted): the mirror `nanMirror` is not being edited and equals the
engine's buffer `[NaN]`.  The read of a timer tick succeeds, yet `temp != vec` holds
(NaN is unequal to itself), so the tick swaps the buffers and requests a repaint
although the mirror did not change; the next tick does the same. -/
theorem timerCallback_repaints_unchanged_nan_mirror :
    nanMirror.edited = false ∧ nanMirror.array.read = some [F32.nan] ∧
    nanMirror.timerCallback.error = false ∧
    nanMirror.timerCallback.vec = nanMirror.vec ∧
    nanMirror.timerCallback.repaints = nanMirror.repaints + 1 ∧
    nanMirror.timerCallback.timerCallback.vec = nanMirror.vec ∧
    nanMirror.timerCallback.timerCallback.repaints = nanMirror.repaints + 2 := by
  refine ⟨rfl, rfl, ?_, ?_, ?_, ?_, ?_⟩ <;>
    simp [nanMirror, Binary32.GraphicalArray.timerCallback, Binary32.PdArray.read, vectorEq,
      F32.eq]

/-- C22 (amended): one timer tick of a mirror whose edit flag is clear attempts a full
read.  If the read succeeds, the error flag is cleared and the mirror afterwards
equals the engine's buffer; one repaint is requested exactly when the mirror changed
provided the engine's buffer holds no NaN, and on every tick when it holds one.  If the
read fails, the error flag is set.  While the edit flag is set a tick changes
nothing. -/
theorem timerCallback_tick (a : Binary32.GraphicalArray) :
    (a.edited = false → ∀ buffer, a.array.read = some buffer →
      a.timerCallback.error = false ∧ a.timerCallback.vec = buffer ∧
      ((∀ x ∈ buffer, x.isNaN = false) →
        a.timerCallback.repaints
          = a.repaints + (if a.timerCallback.vec ≠ a.vec then 1 else 0)) ∧
      ((∃ x ∈ buffer, x.isNaN = true) → a.timerCallback.repaints = a.repaints + 1)) ∧
    (a.edited = false → a.array.read = none → a.timerCallback.error = true) ∧
    (a.edited = true → a.timerCallback = a) := by
  refine ⟨?_, ?_, ?_⟩
  · intro hed buffer hread
    by_cases heq : vectorEq buffer a.vec = true
    · have hvec := vectorEq_eq _ _ heq
      have ht : a.timerCallback = { a with error := false, temp := buffer } := by
        simp [Binary32.GraphicalArray.timerCallback, hed, hread, heq]
      rw [ht]
      refine ⟨rfl, hvec.symm, ?_, ?_⟩
      · intro _
        simp
      · intro hnan
        rw [vectorEq_of_nan _ _ hnan] at heq
        cases heq
    · have ht : a.timerCallback
          = { a with error := false, vec := buffer, temp := a.vec,
                     repaints := a.repaints + 1 } := by
        simp [Binary32.GraphicalArray.timerCallback, hed, hread, heq]
      rw [ht]
      refine ⟨rfl, rfl, ?_, fun _ => rfl⟩
      intro hnum
      have hne : buffer ≠ a.vec := by
        intro h
        rw [← h] at heq
        exact heq (vectorEq_self buffer hnum)
      simp [hne]
  · intro hed hread
    unfold Binary32.GraphicalArray.timerCallback
    by_cases hne : vectorEq a.temp a.vec = true <;> simp [hed, hread, hne]
  · intro hed
    simp [Binary32.GraphicalArray.timerCallback, hed]

/-- C22 witness: the mirror `staleMirror` (a read that succeeds with `[1]`, no NaN), the
mirror `unresolvedMirror` (a read that fails) and the mirror `editedMirror`. -/
theorem timerCallback_tick_witness :
    (staleMirror.timerCallback.error = false ∧ staleMirror.timerCallback.vec = [F32.fin 1] ∧
      staleMirror.timerCallback.repaints
        = staleMirror.repaints + (if staleMirror.timerCallback.vec ≠ staleMirror.vec then 1
            else 0)) ∧
    unresolvedMirror.timerCallback.error = true ∧
    editedMirror.timerCallback = editedMirror :=
  ⟨⟨((timerCallback_tick staleMirror).1 rfl [F32.fin 1] rfl).1,
    ((timerCallback_tick staleMirror).1 rfl [F32.fin 1] rfl).2.1,
    ((timerCallback_tick staleMirror).1 rfl [F32.fin 1] rfl).2.2.1
      (by simp [F32.isNaN])⟩,
   (timerCallback_tick unresolvedMirror).2.1 rfl rfl,
   (timerCallback_tick editedMirror).2.2 rfl⟩

theorem sizeSub_one_of_lt {n : Nat} (h0 : 0 < n) (h : n < 2 ^ 64) : sizeSub n 1 = n - 1 := by
  unfold sizeSub
  have h1 : (1 : Nat) % 2 ^ 64 = 1 := by norm_num
  rw [h1]
  have h2 : n + 2 ^ 64 - 1 = (n - 1) + 2 ^ 64 := by omega
  rw [h2, Nat.add_mod_right]
  exact Nat.mod_eq_of_lt (by omega)

theorem clip_one : clip 1 0 1 = 1 := by
  norm_num [clip, stdMax, stdMin]

/-- A mirror whose edit flag and error flag are both set is left as it is by every
pointer callback and by every timer tick. -/
theorem stuck_when_edited_and_error (a : GraphicalArray) (hed : a.edited = true)
    (herr : a.error = true) (e : MouseEvent) (lockAcquired : Bool) :
    a.mouseDown e lockAcquired = some a ∧ a.mouseDrag e lockAcquired = some a ∧
    a.mouseUp = a ∧ a.timerCallback = a := by
  refine ⟨?_, ?_, ?_, ?_⟩
  · simp [GraphicalArray.mouseDown, herr]
  · simp [GraphicalArray.mouseDrag, herr]
  · simp [GraphicalArray.mouseUp, herr]
  · simp [GraphicalArray.timerCallback, hed]

/-- The index of every drag on a one-sample mirror is `0`. -/
theorem dragIndex_one_sample (a : GraphicalArray) (e : MouseEvent) (hlen : a.vec.length = 1)
    (hw : a.width ≠ 0) : a.dragIndex e = some 0 := by
  have hw' : (a.width : ℚ) ≠ 0 := by exact_mod_cast hw
  have hr : stdRound (0 : ℚ) = 0 := by
    unfold stdRound
    rw [if_pos (le_refl 0)]
    have h : (0 : ℚ) + 1 / 2 = 1 / 2 := by norm_num
    rw [h, Int.floor_eq_iff]
    norm_num
  have hs : sizeSub 1 1 = 0 := by norm_num [sizeSub]
  simp [GraphicalArray.dragIndex, fdiv, hw', hlen, hs, hr]

/-- The value of a drag at a quarter of the height under the scale `(-1, 1)`. -/
theorem dragValue_quarter_of_unit_scale (a : GraphicalArray) (e : MouseEvent)
    (hscale : a.array.getScale = (-1, 1)) (hh : a.height ≠ 0) (hy : 4 * e.y = a.height) :
    a.dragValue e = some (1 / 2) := by
  have hh' : (a.height : ℚ) ≠ 0 := by exact_mod_cast hh
  have hq : (e.y : ℚ) / (a.height : ℚ) = 1 / 4 := by
    have hy0 : (e.y : ℚ) ≠ 0 := by
      intro h0
      have : e.y = 0 := by exact_mod_cast h0
      omega
    rw [← hy]; push_cast
    field_simp
    ring
  have hc : clip (1 / 4) 0 1 = 1 / 4 := by norm_num [clip, stdMax, stdMin]
  simp only [GraphicalArray.dragValue, fdiv, if_neg hh', Option.map_some', hq, hc, hscale]
  norm_num

/-- A run whose first event succeeds continues from the state that event leaves. -/
theorem run_cons_of_step (a a1 : GraphicalArray) (e : MirrorEvent) (rest : List MirrorEvent)
    (h : a.step e = some a1) : a.run (e :: rest) = a1.run rest := by
  simp [GraphicalArray.run, h]

/-- C24 (the code at the failing input): on the mirror `syncedMirror` the array is
removed from the engine and a gesture begins whose write-through is tried and fails;
that sets the error flag while the edit flag is set (`stuckMirror`).  `mouseUp` then
returns early and leaves the edit flag set, the next timer tick does nothing, and the
whole sequence `failedGesture` ends in that state, with both flags set. -/
theorem mouseUp_keeps_edit_flag_after_failed_write :
    syncedMirror.run [MirrorEvent.engine none,
        MirrorEvent.mouseDown { x := 0, y := 35 } true] = some stuckMirror ∧
    stuckMirror.edited = true ∧ stuckMirror.error = true ∧
    stuckMirror.mouseUp = stuckMirror ∧ stuckMirror.mouseUp.edited = true ∧
    stuckMirror.timerCallback = stuckMirror ∧
    syncedMirror.run failedGesture = some stuckMirror := by
  have h1 : syncedMirror.step (MirrorEvent.engine none) = some removedMirror := rfl
  have hi : ({ removedMirror with edited := true } : GraphicalArray).dragIndex { x := 0, y := 35 }
      = some 0 := dragIndex_one_sample _ _ rfl (by decide)
  have hv : ({ removedMirror with edited := true } : GraphicalArray).dragValue { x := 0, y := 35 }
      = some (1 / 2) :=
    dragValue_quarter_of_unit_scale _ _
      (by simp [removedMirror, PdArray.getScale, libpd_array_get_scale]) (by decide) (by decide)
  have h2 : removedMirror.step (MirrorEvent.mouseDown { x := 0, y := 35 } true)
      = some stuckMirror := by
    simp only [GraphicalArray.step, GraphicalArray.mouseDown, GraphicalArray.mouseDrag]
    rw [hi, hv]
    simp [removedMirror, stuckMirror, PdArray.write]
  have h3 : stuckMirror.mouseUp = stuckMirror :=
    (stuck_when_edited_and_error stuckMirror rfl rfl { x := 0, y := 0 } false).2.2.1
  have h4 : stuckMirror.timerCallback = stuckMirror :=
    (stuck_when_edited_and_error stuckMirror rfl rfl { x := 0, y := 0 } false).2.2.2
  have h5 : stuckMirror.step MirrorEvent.mouseUp = some stuckMirror := by
    simp only [GraphicalArray.step, h3]
  have h6 : stuckMirror.step MirrorEvent.timerCallback = some stuckMirror := by
    simp only [GraphicalArray.step, h4]
  refine ⟨?_, rfl, rfl, h3, ?_, h4, ?_⟩
  · rw [run_cons_of_step _ _ _ _ h1, run_cons_of_step _ _ _ _ h2]
    rfl
  · rw [h3]; rfl
  · unfold failedGesture
    rw [run_cons_of_step _ _ _ _ h1, run_cons_of_step _ _ _ _ h2,
      run_cons_of_step _ _ _ _ h5, run_cons_of_step _ _ _ _ h6]
    rfl

/-! ## C4, C23: the drag over binary32 values -/

/-! ## Binary32 values: operations on finite numbers -/

theorem isF32_zero : isF32 0 := roundF32_zero

theorem isF32_one : isF32 1 := by
  have h := isF32_intCast 1 (by norm_num)
  simpa using h

theorem isF32_half : isF32 (1 / 2) := by
  have h := isF32_grid (2 ^ 23) (-1) (by norm_num) (by norm_num)
  norm_num at h ⊢
  exact h

theorem isF32_floatMax : isF32 floatMax := by
  have h := isF32_grid (2 ^ 24 - 1) 127 (by norm_num) (by norm_num)
  have e : (((2 : Int) ^ 24 - 1 : Int) : ℚ) * 2 ^ ((127 : Int) - 23) = floatMax := by
    unfold floatMax
    norm_num
  rw [e] at h
  exact h

theorem floatMax_pos : 0 < floatMax := by unfold floatMax; norm_num

/-- Rounding does not leave an interval `[-b, b]` whose end is a binary32 number. -/
theorem roundF32_abs_le {q b : ℚ} (hb : isF32 b) (h : |q| ≤ b) : |roundF32 q| ≤ b := by
  rw [abs_le] at h ⊢
  obtain ⟨h1, h2⟩ := roundF32_between (isF32_neg hb) hb h.1 h.2
  exact ⟨h1, h2⟩

/-- An operation whose exact result has magnitude at most `floatMax` does not
overflow. -/
theorem F32.ofRat_of_abs_le {q : ℚ} (h : |q| ≤ floatMax) :
    F32.ofRat q = F32.fin (roundF32 q) := by
  unfold F32.ofRat
  rw [if_neg (not_lt.mpr (roundF32_abs_le isF32_floatMax h))]

theorem F32.ofRat_of_round_le {q : ℚ} (h : |roundF32 q| ≤ floatMax) :
    F32.ofRat q = F32.fin (roundF32 q) := by
  unfold F32.ofRat
  rw [if_neg (not_lt.mpr h)]

theorem F32.ofRat_of_isF32 {q : ℚ} (hq : isF32 q) (h : |q| ≤ floatMax) :
    F32.ofRat q = F32.fin q := by
  rw [F32.ofRat_of_abs_le h, hq]

theorem two_pow_31_le_floatMax : (2 : ℚ) ^ 31 ≤ floatMax := by unfold floatMax; norm_num

/-- The conversion of an `int` to `float` is finite, and at least `1` for a positive
`int`. -/
theorem F32.ofInt_eq (z : Int) (hz : |z| ≤ 2 ^ 31) :
    F32.ofInt z = F32.fin (roundF32 (z : ℚ)) := by
  unfold F32.ofInt
  apply F32.ofRat_of_abs_le
  have h : |(z : ℚ)| ≤ 2 ^ 31 := by
    have : ((|z| : Int) : ℚ) ≤ ((2 ^ 31 : Int) : ℚ) := by exact_mod_cast hz
    simpa using this
  exact le_trans h two_pow_31_le_floatMax

theorem one_le_roundF32_intCast (z : Int) (hz : 0 < z) : 1 ≤ roundF32 (z : ℚ) := by
  have h1 : (1 : ℚ) ≤ (z : ℚ) := by exact_mod_cast hz
  have := roundF32_mono h1
  rw [isF32_one] at this
  exact this

/-- The clip to `[0, 1]` of a finite float is the clip of its number. -/
theorem clip32_fin (r : ℚ) :
    Binary32.clip (F32.fin r) (F32.fin 0) (F32.fin 1) = F32.fin (clip r 0 1) := by
  unfold Binary32.clip clip F32.max F32.min stdMax stdMin
  by_cases h1 : (1 : ℚ) < r
  · simp [F32.lt, h1]
  · by_cases h0 : (0 : ℚ) < r
    · simp [F32.lt, h1, h0]
    · simp [F32.lt, h1, h0]


/-- Every float, NaN and the infinities included, clips to a number of `[0, 1]`. -/
theorem clip32_unit (v : F32) :
    ∃ c : ℚ, Binary32.clip v (F32.fin 0) (F32.fin 1) = F32.fin c ∧ 0 ≤ c ∧ c ≤ 1 := by
  cases v with
  | nan => exact ⟨0, by simp [Binary32.clip, F32.max, F32.min, F32.lt], le_refl 0, zero_le_one⟩
  | inf n =>
    cases n with
    | false =>
      exact ⟨1, by simp [Binary32.clip, F32.max, F32.min, F32.lt], zero_le_one, le_refl 1⟩
    | true =>
      exact ⟨0, by simp [Binary32.clip, F32.max, F32.min, F32.lt], le_refl 0, zero_le_one⟩
  | fin r => exact ⟨clip r 0 1, clip32_fin r, clip_unit_nonneg r, clip_unit_le_one r⟩

theorem stdRound_nonneg {q : ℚ} (h0 : 0 ≤ q) : 0 ≤ stdRound q := by
  unfold stdRound
  rw [if_pos h0]
  exact Int.floor_nonneg.mpr (by linarith)

theorem stdRound_le_natCast {q : ℚ} {s : Nat} (h0 : 0 ≤ q) (hs : q ≤ s) :
    stdRound q ≤ (s : Int) := by
  unfold stdRound
  rw [if_pos h0]
  have hlt : Int.floor (q + 1 / 2) < (s : Int) + 1 := by
    rw [Int.floor_lt]
    push_cast
    linarith
  omega

theorem two_pow_24_le_floatMax : (2 : ℚ) ^ 24 ≤ floatMax := by unfold floatMax; norm_num

/-- The float product `c * s` of a number `c` of `[0, 1]` and a count `s <= 2 ^ 24`
is a number of `[0, s]`. -/
theorem mul_unit_count (c : ℚ) (s : Nat) (h0 : 0 ≤ c) (h1 : c ≤ 1) (hs : s ≤ 2 ^ 24) :
    F32.mul (F32.fin c) (F32.ofRat (s : ℚ)) = F32.fin (roundF32 (c * (s : ℚ))) ∧
    0 ≤ roundF32 (c * (s : ℚ)) ∧ roundF32 (c * (s : ℚ)) ≤ (s : ℚ) := by
  have hsq : ((s : ℚ)) ≤ 2 ^ 24 := by exact_mod_cast hs
  have hs0 : (0 : ℚ) ≤ (s : ℚ) := Nat.cast_nonneg s
  have hsrep : isF32 (s : ℚ) := roundF32_natCast s hs
  have hsf : F32.ofRat (s : ℚ) = F32.fin (s : ℚ) :=
    F32.ofRat_of_isF32 hsrep (by rw [abs_of_nonneg hs0]; exact le_trans hsq two_pow_24_le_floatMax)
  have hp0 : 0 ≤ c * (s : ℚ) := mul_nonneg h0 hs0
  have hp1 : c * (s : ℚ) ≤ (s : ℚ) := by
    calc c * (s : ℚ) ≤ 1 * (s : ℚ) := mul_le_mul_of_nonneg_right h1 hs0
      _ = (s : ℚ) := one_mul _
  obtain ⟨hb0, hb1⟩ := roundF32_between isF32_zero hsrep hp0 hp1
  refine ⟨?_, hb0, hb1⟩
  rw [hsf]
  simp only [F32.mul]
  apply F32.ofRat_of_abs_le
  rw [abs_of_nonneg hp0]
  exact le_trans hp1 (le_trans hsq two_pow_24_le_floatMax)

/-- The index of a drag on a non-empty mirror of at most `2 ^ 24 + 1` samples: the
count `vec.size() - 1` converts to `float` exactly, and the rounded product stays
inside the mirror, whatever the pointer position and the width. -/
theorem dragIndex_lt_length32 (a : Binary32.GraphicalArray) (event : MouseEvent)
    (hne : a.vec ≠ []) (hsize : a.vec.length ≤ 2 ^ 24 + 1) :
    ∃ c : ℚ, 0 ≤ c ∧ c ≤ 1 ∧
      Binary32.clip (F32.div (F32.ofInt event.x) (F32.ofInt a.width)) (F32.fin 0) (F32.fin 1)
        = F32.fin c ∧
      a.dragIndex event
        = some (stdRound (roundF32 (c * ((a.vec.length - 1 : Nat) : ℚ)))).toNat ∧
      (stdRound (roundF32 (c * ((a.vec.length - 1 : Nat) : ℚ)))).toNat < a.vec.length := by
  have hpos : 0 < a.vec.length := List.length_pos.mpr hne
  have hs := sizeSub_one_of_lt hpos (by omega : a.vec.length < 2 ^ 64)
  obtain ⟨c, hc, h0, h1⟩ :=
    clip32_unit (F32.div (F32.ofInt event.x) (F32.ofInt a.width))
  have hle : a.vec.length - 1 ≤ 2 ^ 24 := by omega
  obtain ⟨hmul, hb0, hb1⟩ := mul_unit_count c (a.vec.length - 1) h0 h1 hle
  have hr0 := stdRound_nonneg hb0
  have hr1 := stdRound_le_natCast hb0 hb1
  refine ⟨c, h0, h1, hc, ?_, ?_⟩
  · unfold Binary32.GraphicalArray.dragIndex Binary32.GraphicalArray.dragPosition
    simp only [hs, hc, hmul, F32.round, F32.toSize]
    have hcond : (-1 : ℚ) < ((stdRound (roundF32 (c * ((a.vec.length - 1 : Nat) : ℚ))) : Int) : ℚ) ∧
        ((stdRound (roundF32 (c * ((a.vec.length - 1 : Nat) : ℚ))) : Int) : ℚ) < 2 ^ 64 := by
      constructor
      · have : ((0 : Int) : ℚ) ≤ ((stdRound (roundF32 (c * ((a.vec.length - 1 : Nat) : ℚ))) : Int) : ℚ) := by
          exact_mod_cast hr0
        simp only [Int.cast_zero] at this
        linarith
      · have h2 : ((stdRound (roundF32 (c * ((a.vec.length - 1 : Nat) : ℚ))) : Int) : ℚ)
            ≤ (((a.vec.length - 1 : Nat) : Int) : ℚ) := by exact_mod_cast hr1
        have h3 : ((((a.vec.length - 1 : Nat) : Int)) : ℚ) ≤ 2 ^ 24 := by exact_mod_cast hle
        have h4 : (2 : ℚ) ^ 24 < 2 ^ 64 := by norm_num
        linarith
    rw [if_pos hcond, truncToInt_intCast]
  · omega


theorem isF32_two_pow_31 : isF32 ((2 : ℚ) ^ 31) := by
  have h := isF32_grid (2 ^ 23) 31 (by norm_num) (by norm_num)
  have e : (((2 : Int) ^ 23 : Int) : ℚ) * 2 ^ ((31 : Int) - 23) = (2 : ℚ) ^ 31 := by norm_num
  rw [e] at h
  exact h

/-- The float quotient `x / w` of two converted `int` values, `w` positive. -/
theorem div_ofInt (x w : Int) (hx : |x| ≤ 2 ^ 31) (hw0 : 0 < w) (hw : w ≤ 2 ^ 31) :
    F32.div (F32.ofInt x) (F32.ofInt w)
      = F32.fin (roundF32 (roundF32 (x : ℚ) / roundF32 (w : ℚ))) := by
  have hwabs : |w| ≤ 2 ^ 31 := by rw [abs_of_pos hw0]; exact hw
  rw [F32.ofInt_eq x hx, F32.ofInt_eq w hwabs]
  have hb := one_le_roundF32_intCast w hw0
  have hb0 : roundF32 (w : ℚ) ≠ 0 := by linarith
  simp only [F32.div, if_neg hb0]
  apply F32.ofRat_of_abs_le
  have hxq : |(x : ℚ)| ≤ 2 ^ 31 := by
    have : ((|x| : Int) : ℚ) ≤ ((2 ^ 31 : Int) : ℚ) := by exact_mod_cast hx
    simpa using this
  have ha := roundF32_abs_le isF32_two_pow_31 hxq
  rw [abs_div, abs_of_pos (by linarith : (0 : ℚ) < roundF32 (w : ℚ))]
  calc |roundF32 (x : ℚ)| / roundF32 (w : ℚ) ≤ |roundF32 (x : ℚ)| / 1 :=
        div_le_div_of_nonneg_left (abs_nonneg _) one_pos hb
    _ = |roundF32 (x : ℚ)| := div_one _
    _ ≤ 2 ^ 31 := ha
    _ ≤ floatMax := two_pow_31_le_floatMax

/-- The float difference `1.f - c` for a number `c` of `[0, 1]` is a number of
`[0, 1]`. -/
theorem one_sub_unit (c : ℚ) (h0 : 0 ≤ c) (h1 : c ≤ 1) :
    F32.sub (F32.fin 1) (F32.fin c) = F32.fin (roundF32 (1 - c)) ∧
    0 ≤ roundF32 (1 - c) ∧ roundF32 (1 - c) ≤ 1 := by
  obtain ⟨hb0, hb1⟩ := roundF32_between isF32_zero isF32_one (by linarith : (0 : ℚ) ≤ 1 - c)
    (by linarith : 1 - c ≤ 1)
  refine ⟨?_, hb0, hb1⟩
  simp only [F32.sub, F32.neg, F32.add]
  rw [← sub_eq_add_neg]
  apply F32.ofRat_of_abs_le
  rw [abs_of_nonneg (by linarith)]
  have := floatMax_pos
  unfold floatMax at *
  norm_num
  linarith

/-- The float difference of two finite numbers that does not overflow. -/
theorem sub_fin (a b : ℚ) (h : |roundF32 (a - b)| ≤ floatMax) :
    F32.sub (F32.fin a) (F32.fin b) = F32.fin (roundF32 (a - b)) := by
  simp only [F32.sub, F32.neg, F32.add]
  rw [← sub_eq_add_neg]
  exact F32.ofRat_of_round_le h

/-- The numbers behind `t * d + lo` for `t` in `[0, 1]`: the rounded product lies
between `0` and `d`, and the rounded sum between `lo` and the rounded `d + lo`. -/
theorem scaled32_bounds (t lo d : ℚ) (ht0 : 0 ≤ t) (ht1 : t ≤ 1) (hd : isF32 d)
    (hlo : isF32 lo) :
    (0 ≤ d → 0 ≤ roundF32 (t * d) ∧ roundF32 (t * d) ≤ d ∧
      lo ≤ roundF32 (roundF32 (t * d) + lo) ∧
      roundF32 (roundF32 (t * d) + lo) ≤ roundF32 (d + lo)) ∧
    (d ≤ 0 → d ≤ roundF32 (t * d) ∧ roundF32 (t * d) ≤ 0 ∧
      roundF32 (d + lo) ≤ roundF32 (roundF32 (t * d) + lo) ∧
      roundF32 (roundF32 (t * d) + lo) ≤ lo) := by
  constructor
  · intro hd0
    have h1 : 0 ≤ t * d := mul_nonneg ht0 hd0
    have h2 : t * d ≤ d := by
      calc t * d ≤ 1 * d := mul_le_mul_of_nonneg_right ht1 hd0
        _ = d := one_mul d
    obtain ⟨hp0, hp1⟩ := roundF32_between isF32_zero hd h1 h2
    refine ⟨hp0, hp1, ?_, ?_⟩
    · have := roundF32_mono (by linarith : lo ≤ roundF32 (t * d) + lo)
      rw [hlo] at this
      exact this
    · exact roundF32_mono (by linarith)
  · intro hd0
    have h1 : t * d ≤ 0 := mul_nonpos_of_nonneg_of_nonpos ht0 hd0
    have h2 : d ≤ t * d := by
      have := mul_le_mul_of_nonneg_right ht1 (by linarith : (0 : ℚ) ≤ -d)
      linarith
    obtain ⟨hp0, hp1⟩ := roundF32_between hd isF32_zero h2 h1
    refine ⟨hp0, hp1, ?_, ?_⟩
    · exact roundF32_mono (by linarith)
    · have := roundF32_mono (by linarith : roundF32 (t * d) + lo ≤ lo)
      rw [hlo] at this
      exact this

/-- The float expression `t * d + lo` for `t` in `[0, 1]` and finite `d`, `lo`, when
the rounded `d + lo` is finite: no operation overflows. -/
theorem scaled32_eq (t lo d : ℚ) (ht0 : 0 ≤ t) (ht1 : t ≤ 1) (hd : isF32 d)
    (hdmax : |d| ≤ floatMax) (hlo : isF32 lo) (hlomax : |lo| ≤ floatMax)
    (htop : |roundF32 (d + lo)| ≤ floatMax) :
    F32.add (F32.mul (F32.fin t) (F32.fin d)) (F32.fin lo)
      = F32.fin (roundF32 (roundF32 (t * d) + lo)) := by
  obtain ⟨hpos, hneg⟩ := scaled32_bounds t lo d ht0 ht1 hd hlo
  rw [abs_le] at hdmax hlomax htop
  have hp : |roundF32 (t * d)| ≤ floatMax := by
    rw [abs_le]
    rcases le_total 0 d with h | h
    · obtain ⟨h1, h2, _, _⟩ := hpos h
      constructor <;> linarith [floatMax_pos]
    · obtain ⟨h1, h2, _, _⟩ := hneg h
      constructor <;> linarith [floatMax_pos]
  have hv : |roundF32 (roundF32 (t * d) + lo)| ≤ floatMax := by
    rw [abs_le]
    rcases le_total 0 d with h | h
    · obtain ⟨_, _, h3, h4⟩ := hpos h
      constructor <;> linarith
    · obtain ⟨_, _, h3, h4⟩ := hneg h
      constructor <;> linarith
  simp only [F32.mul]
  rw [F32.ofRat_of_round_le hp]
  simp only [F32.add]
  exact F32.ofRat_of_round_le hv

/-- What `mouseDrag` does once its index is known to lie inside the buffer: the value
is written at the index of the mirror before the lock is tried, and neither a lock
that is not acquired nor a write-through that fails touches the mirror again. -/
theorem mouseDrag_of_index32 (a : Binary32.GraphicalArray) (event : MouseEvent)
    (lockAcquired : Bool) (i : Nat) (herr : a.error = false)
    (hi : a.dragIndex event = some i) (hlt : i < a.vec.length) :
    ∃ a', a.mouseDrag event lockAcquired = some a' ∧
      a'.vec = a.vec.set i (a.dragValue event) ∧ a'.vec[i]? = some (a.dragValue event) ∧
      a'.edited = a.edited ∧
      a'.error = (lockAcquired && (a.array.write i (a.dragValue event)).isNone) := by
  unfold Binary32.GraphicalArray.mouseDrag
  simp only [herr, hi, hlt, if_true, Bool.false_eq_true, if_false]
  cases lockAcquired with
  | false =>
    refine ⟨_, rfl, rfl, ?_, rfl, ?_⟩
    · simp [hlt]
    · simp [herr]
  | true =>
    cases hw : a.array.write i (a.dragValue event) with
    | none =>
      refine ⟨_, rfl, ?_, ?_, ?_, ?_⟩ <;> simp [hw, hlt]
    | some arr =>
      refine ⟨_, rfl, ?_, ?_, ?_, ?_⟩ <;> simp [hw, hlt, herr]

/-- While the error flag is set, `mouseDrag` returns at once: nothing is written. -/
theorem mouseDrag_of_error32 (b : Binary32.GraphicalArray) (event : MouseEvent)
    (lockAcquired : Bool) (herr : b.error = true) : b.mouseDrag event lockAcquired = some b := by
  simp [Binary32.GraphicalArray.mouseDrag, herr]

/-- The value of a drag, for a finite scale `(lo, hi)` whose span and top value do not
overflow, a positive height and a pointer position in the range of `int`. -/
theorem dragValue_eq32 (a : Binary32.GraphicalArray) (event : MouseEvent) (lo hi : ℚ)
    (hh0 : 0 < a.height) (hh : a.height ≤ 2 ^ 31) (hy : |event.y| ≤ 2 ^ 31)
    (hscale : a.array.getScale = (F32.fin lo, F32.fin hi)) (hlo : isF32 lo)
    (hlomax : |lo| ≤ floatMax) (hspan : |roundF32 (hi - lo)| ≤ floatMax)
    (htop : |roundF32 (roundF32 (hi - lo) + lo)| ≤ floatMax) :
    a.dragValue event
      = F32.fin (roundF32 (roundF32 (roundF32
          (1 - clip (roundF32 (roundF32 (event.y : ℚ) / roundF32 (a.height : ℚ))) 0 1)
            * roundF32 (hi - lo)) + lo)) := by
  unfold Binary32.GraphicalArray.dragValue
  simp only [hscale, div_ofInt event.y a.height hy hh0 hh, clip32_fin]
  obtain ⟨ht, ht0, ht1⟩ := one_sub_unit _ (clip_unit_nonneg
    (roundF32 (roundF32 (event.y : ℚ) / roundF32 (a.height : ℚ))))
    (clip_unit_le_one (roundF32 (roundF32 (event.y : ℚ) / roundF32 (a.height : ℚ))))
  rw [ht, sub_fin hi lo hspan]
  exact scaled32_eq _ lo _ ht0 ht1 (isF32_roundF32 _) hspan hlo hlomax htop

theorem sizeSub_twelve : sizeSub 12 1 = 11 := by norm_num [sizeSub]

theorem sizeSub_large : sizeSub 16777220 1 = 16777219 := by norm_num [sizeSub]

/-- The float quotient `13.f / 22.f`. -/
theorem roundF32_13_div_22 : roundF32 (13 / 22) = 9913809 / 16777216 := by
  rw [roundF32_eval (-1) 9913809 (by norm_num) (by norm_num) (by norm_num)
    (roundHalfEven_eq_of_near _ (by norm_num [abs_lt]))]
  norm_num

/-- The float product of `13.f / 22.f` and `11.f`: just below `6.5`. -/
theorem roundF32_13_div_22_mul_11 :
    roundF32 (9913809 / 16777216 * 11) = 13631487 / 2097152 := by
  rw [roundF32_eval 2 13631487 (by norm_num) (by norm_num) (by norm_num)
    (roundHalfEven_eq_of_near _ (by norm_num [abs_lt]))]
  norm_num

/-- The conversion of `16777219` to `float` is a tie and rounds to `16777220`. -/
theorem roundF32_16777219 : roundF32 16777219 = 16777220 := by
  rw [roundF32_eval 24 8388610 (by norm_num) (by norm_num) (by norm_num)
    (by rw [roundHalfEven_tie 8388609 (by norm_num)]; norm_num)]
  norm_num

theorem isF32_16777220 : isF32 16777220 := by
  have h := isF32_grid 8388610 24 (by norm_num) (by norm_num)
  norm_num at h
  exact h

/-- The index the drag at `x = 13` maps to in the mirror `twelveMirror`, 22 wide. -/
theorem dragIndex_twelveMirror (y : Int) : twelveMirror.dragIndex { x := 13, y := y } = some 6 := by
  have h13 : roundF32 ((13 : Int) : ℚ) = 13 := by
    have h := roundF32_intCast 13 (by norm_num)
    simpa using h
  have h22 : roundF32 ((22 : Int) : ℚ) = 22 := by
    have h := roundF32_intCast 22 (by norm_num)
    simpa using h
  have hdiv : F32.div (F32.ofInt 13) (F32.ofInt 22) = F32.fin (9913809 / 16777216) := by
    rw [div_ofInt 13 22 (by norm_num) (by norm_num) (by norm_num), h13, h22, roundF32_13_div_22]
  have hclip : clip (9913809 / 16777216) 0 1 = 9913809 / 16777216 := by
    norm_num [clip, stdMax, stdMin]
  have hs : F32.ofRat (((11 : Nat)) : ℚ) = F32.fin ((11 : Nat) : ℚ) :=
    F32.ofRat_of_isF32 (roundF32_natCast 11 (by norm_num))
      (by unfold floatMax; norm_num [abs_of_nonneg])
  have hmul : F32.mul (F32.fin (9913809 / 16777216)) (F32.fin ((11 : Nat) : ℚ))
      = F32.fin (13631487 / 2097152) := by
    simp only [F32.mul]
    have e : (9913809 / 16777216 : ℚ) * ((11 : Nat) : ℚ) = 9913809 / 16777216 * 11 := by norm_num
    rw [e, F32.ofRat_of_abs_le (by unfold floatMax; norm_num [abs_of_nonneg]),
      roundF32_13_div_22_mul_11]
  have hround : stdRound (13631487 / 2097152 : ℚ) = 6 := by
    unfold stdRound
    rw [if_pos (by norm_num), Int.floor_eq_iff]
    norm_num
  have hlen : twelveMirror.vec.length = 12 := by simp [twelveMirror]
  have hw : twelveMirror.width = 22 := rfl
  have ht : truncToInt (((6 : Int)) : ℚ) = 6 := truncToInt_intCast 6
  unfold Binary32.GraphicalArray.dragIndex Binary32.GraphicalArray.dragPosition
  rw [hlen, sizeSub_twelve, hw]
  show F32.toSize (F32.round (F32.mul (Binary32.clip (F32.div (F32.ofInt 13) (F32.ofInt 22))
    (F32.fin 0) (F32.fin 1)) (F32.ofRat ((11 : Nat) : ℚ)))) = some 6
  rw [hdiv, clip32_fin, hclip, hs, hmul]
  simp only [F32.round, hround, F32.toSize]
  rw [if_pos (by norm_num), ht]
  rfl

/-- The whole span of the scale of `twelveMirror` is a tie of binary32 and rounds up. -/
theorem roundF32_span_twelve :
    roundF32 (9338003 / 1048576 - -11376537 / 2097152) = 469571 / 32768 := by
  rw [roundF32_eval 3 15026272 (by norm_num) (by norm_num) (by norm_num)
    (by rw [roundHalfEven_tie 15026271 (by norm_num)]; norm_num)]
  norm_num

/-- The top value of the scale of `twelveMirror`: the float sum of the rounded span
and the lower end is a tie again and rounds up, past the upper end. -/
theorem roundF32_top_twelve :
    roundF32 (469571 / 32768 + -11376537 / 2097152) = 2334501 / 262144 := by
  rw [roundF32_eval 3 9338004 (by norm_num) (by norm_num) (by norm_num)
    (by rw [roundHalfEven_tie 9338003 (by norm_num)]; norm_num)]
  norm_num

theorem isF32_lo_twelve : isF32 (-11376537 / 2097152) := by
  have h := isF32_grid (-11376537) 2 (by norm_num) (by norm_num)
  norm_num at h ⊢
  exact h

theorem getScale_twelveMirror :
    twelveMirror.array.getScale
      = (F32.fin (-11376537 / 2097152), F32.fin (9338003 / 1048576)) := by
  simp [twelveMirror, Binary32.PdArray.getScale, Binary32.libpd_array_get_scale]

/-- The value the drag at the top edge maps to in the mirror `twelveMirror`. -/
theorem dragValue_twelveMirror (x : Int) :
    twelveMirror.dragValue { x := x, y := 0 } = F32.fin (2334501 / 262144) := by
  have h := dragValue_eq32 twelveMirror { x := x, y := 0 } (-11376537 / 2097152)
    (9338003 / 1048576) (by decide) (by decide) (by norm_num) getScale_twelveMirror
    isF32_lo_twelve (by unfold floatMax; norm_num [abs_le])
    (by rw [roundF32_span_twelve]; unfold floatMax; norm_num [abs_le])
    (by rw [roundF32_span_twelve, roundF32_top_twelve]; unfold floatMax; norm_num [abs_le])
  rw [h]
  simp only [Int.cast_zero, roundF32_zero, zero_div, clip_zero, sub_zero]
  rw [isF32_one, one_mul, isF32_roundF32, roundF32_span_twelve, roundF32_top_twelve]

/-- C23 (as stated, refuted).  The mirror `erroredMirror32` is non-empty and its
component is 200 by 140, yet a drag writes nothing: the error flag is set.  In the
mirror `twelveMirror` (12 samples, 22 pixels wide, error flag clear) the drag at
`x = 13` writes at index 6, where `round(clip(13/22, 0, 1) * 11) = round(6.5)` is 7:
the float quotient `13.f / 22.f`, multiplied by `11.f`, is a float just below `6.5`.
The value it writes there at the top edge, `(1 - 0) * (max - min) + min` in binary32,
is `2334501 / 2 ^ 18`, which is not `max = 9338003 / 2 ^ 20` and lies above it. -/
theorem mouseDrag_differs_from_exact_formula :
    (erroredMirror32.vec ≠ [] ∧ 0 < erroredMirror32.width ∧ 0 < erroredMirror32.height ∧
      erroredMirror32.mouseDrag { x := 100, y := 0 } true = some erroredMirror32) ∧
    (twelveMirror.error = false ∧ twelveMirror.vec.length = 12 ∧ twelveMirror.width = 22 ∧
      twelveMirror.dragIndex { x := 13, y := 0 } = some 6 ∧
      (stdRound (clip ((13 : ℚ) / 22) 0 1 * ((12 - 1 : Nat) : ℚ))).toNat = 7) ∧
    (twelveMirror.array.getScale
        = (F32.fin (-11376537 / 2097152), F32.fin (9338003 / 1048576)) ∧
      twelveMirror.dragValue { x := 13, y := 0 } = F32.fin (2334501 / 262144) ∧
      (9338003 / 1048576 : ℚ) < 2334501 / 262144 ∧
      ∃ a', twelveMirror.mouseDrag { x := 13, y := 0 } true = some a' ∧
        a'.vec[6]? = some (F32.fin (2334501 / 262144)) ∧ a'.vec[7]? = some (F32.fin 0)) := by
  have hlen : twelveMirror.vec.length = 12 := by simp [twelveMirror]
  refine ⟨⟨?_, by decide, by decide, ?_⟩, ⟨rfl, hlen, rfl, dragIndex_twelveMirror 0, ?_⟩,
    ⟨getScale_twelveMirror, dragValue_twelveMirror 13, by norm_num, ?_⟩⟩
  · simp [erroredMirror32, tab1Mirror32]
  · exact mouseDrag_of_error32 erroredMirror32 _ true rfl
  · have hc : clip ((13 : ℚ) / 22) 0 1 = 13 / 22 := by norm_num [clip, stdMax, stdMin]
    have he : (13 / 22 : ℚ) * ((12 - 1 : Nat) : ℚ) = 13 / 2 := by norm_num
    rw [hc, he]
    unfold stdRound
    rw [if_pos (by norm_num)]
    have h7 : (13 / 2 : ℚ) + 1 / 2 = ((7 : Int) : ℚ) := by norm_num
    rw [h7, Int.floor_intCast]
    rfl
  · obtain ⟨a', h1, h2, h3, _⟩ := mouseDrag_of_index32 twelveMirror { x := 13, y := 0 } true 6
      rfl (dragIndex_twelveMirror 0) (by rw [hlen]; norm_num)
    refine ⟨a', h1, ?_, ?_⟩
    · rw [h3, dragValue_twelveMirror]
    · rw [h2]
      simp [twelveMirror]

/-- C23 (amended): for every mirror whose error flag is clear, of length `n` with
`0 < n <= 2 ^ 24 + 1`, component width `w > 0` and height `h > 0` and pointer position
`(x, y)` in the range of `int`, and finite scale `(min, max)` whose span `max - min`
and top value `(max - min) + min` do not overflow, `mouseDrag` writes at the index
`round(clip(x/w, 0, 1) * (n - 1))` as binary32 evaluates it, which lies in `[0, n - 1]`,
the value `(1 - clip(y/h, 0, 1)) * (max - min) + min` as binary32 evaluates it, which
lies between `min` and the top value, equals the top value at the top edge (`y = 0`)
and `min` at the bottom edge (`y = h`), and all other mirror elements are unchanged.
While the error flag is set `mouseDrag` writes nothing. -/
theorem mouseDrag_index_and_value (a : Binary32.GraphicalArray) (event : MouseEvent)
    (lockAcquired : Bool) (lo hi : ℚ)
    (herr : a.error = false) (hne : a.vec ≠ []) (hsize : a.vec.length ≤ 2 ^ 24 + 1)
    (hw0 : 0 < a.width) (hw : a.width ≤ 2 ^ 31) (hh0 : 0 < a.height) (hh : a.height ≤ 2 ^ 31)
    (hx : |event.x| ≤ 2 ^ 31) (hy : |event.y| ≤ 2 ^ 31)
    (hscale : a.array.getScale = (F32.fin lo, F32.fin hi)) (hlo : isF32 lo)
    (hlomax : |lo| ≤ floatMax) (hspan : |roundF32 (hi - lo)| ≤ floatMax)
    (htop : |roundF32 (roundF32 (hi - lo) + lo)| ≤ floatMax) :
    ∃ (i : Nat) (v : ℚ),
      i = (stdRound (roundF32
            (clip (roundF32 (roundF32 (event.x : ℚ) / roundF32 (a.width : ℚ))) 0 1
              * ((a.vec.length - 1 : Nat) : ℚ)))).toNat ∧
      v = roundF32 (roundF32 (roundF32
            (1 - clip (roundF32 (roundF32 (event.y : ℚ) / roundF32 (a.height : ℚ))) 0 1)
              * roundF32 (hi - lo)) + lo) ∧
      a.dragIndex event = some i ∧ i < a.vec.length ∧
      a.dragValue event = F32.fin v ∧
      (lo ≤ hi → lo ≤ v ∧ v ≤ roundF32 (roundF32 (hi - lo) + lo)) ∧
      (hi ≤ lo → roundF32 (roundF32 (hi - lo) + lo) ≤ v ∧ v ≤ lo) ∧
      (event.y = 0 → v = roundF32 (roundF32 (hi - lo) + lo)) ∧
      (event.y = a.height → v = lo) ∧
      (∃ a', a.mouseDrag event lockAcquired = some a' ∧ a'.vec = a.vec.set i (F32.fin v)) ∧
      (∀ b : Binary32.GraphicalArray, b.error = true →
        b.mouseDrag event lockAcquired = some b) := by
  obtain ⟨c, _, _, hc, hidx, hlt⟩ := dragIndex_lt_length32 a event hne hsize
  rw [div_ofInt event.x a.width hx hw0 hw, clip32_fin] at hc
  have hceq : clip (roundF32 (roundF32 (event.x : ℚ) / roundF32 (a.width : ℚ))) 0 1 = c := by
    injection hc
  rw [← hceq] at hidx hlt
  have hv := dragValue_eq32 a event lo hi hh0 hh hy hscale hlo hlomax hspan htop
  have ht0 := (one_sub_unit _ (clip_unit_nonneg
    (roundF32 (roundF32 (event.y : ℚ) / roundF32 (a.height : ℚ))))
    (clip_unit_le_one (roundF32 (roundF32 (event.y : ℚ) / roundF32 (a.height : ℚ))))).2
  obtain ⟨hpos, hneg⟩ := scaled32_bounds
    (roundF32 (1 - clip (roundF32 (roundF32 (event.y : ℚ) / roundF32 (a.height : ℚ))) 0 1))
    lo (roundF32 (hi - lo)) ht0.1 ht0.2 (isF32_roundF32 _) hlo
  refine ⟨_, _, rfl, rfl, hidx, hlt, hv, ?_, ?_, ?_, ?_, ?_, ?_⟩
  · intro hle
    exact (hpos (roundF32_nonneg (by linarith))).2.2
  · intro hle
    exact (hneg (roundF32_nonpos (by linarith))).2.2
  · intro hy0
    rw [hy0]
    simp only [Int.cast_zero, roundF32_zero, zero_div, clip_zero, sub_zero]
    rw [isF32_one, one_mul, isF32_roundF32]
  · intro hyh
    rw [hyh]
    have hb := one_le_roundF32_intCast a.height hh0
    rw [div_self (by linarith : roundF32 (a.height : ℚ) ≠ 0), isF32_one, clip_one, sub_self,
      roundF32_zero, zero_mul, roundF32_zero, zero_add, hlo]
  · obtain ⟨a', h1, h2, _⟩ := mouseDrag_of_index32 a event lockAcquired _ herr hidx hlt
    exact ⟨a', h1, by rw [h2, hv]⟩
  · intro b hb
    exact mouseDrag_of_error32 b event lockAcquired hb

theorem getScale_tab1Mirror32 :
    tab1Mirror32.array.getScale = (F32.fin (-1), F32.fin 1) := by
  simp [tab1Mirror32, Binary32.PdArray.getScale, Binary32.libpd_array_get_scale]

theorem isF32_neg_one : isF32 (-1) := isF32_neg isF32_one

theorem roundF32_two : roundF32 (1 - -1) = 2 := by
  have h := roundF32_intCast 2 (by norm_num)
  norm_num at h ⊢
  exact h

/-- C23 witness: scenario 2's mirror with the pointer at `(100, 0)`. -/
theorem mouseDrag_index_and_value_witness :
    ∃ (i : Nat) (v : ℚ),
      i = (stdRound (roundF32
            (clip (roundF32 (roundF32 ((100 : Int) : ℚ) / roundF32 (tab1Mirror32.width : ℚ))) 0 1
              * ((tab1Mirror32.vec.length - 1 : Nat) : ℚ)))).toNat ∧
      v = roundF32 (roundF32 (roundF32
            (1 - clip (roundF32 (roundF32 ((0 : Int) : ℚ) / roundF32 (tab1Mirror32.height : ℚ)))
                0 1)
              * roundF32 (1 - -1)) + -1) ∧
      tab1Mirror32.dragIndex { x := 100, y := 0 } = some i ∧ i < tab1Mirror32.vec.length ∧
      tab1Mirror32.dragValue { x := 100, y := 0 } = F32.fin v ∧
      ((-1 : ℚ) ≤ 1 → -1 ≤ v ∧ v ≤ roundF32 (roundF32 (1 - -1) + -1)) ∧
      ((1 : ℚ) ≤ -1 → roundF32 (roundF32 (1 - -1) + -1) ≤ v ∧ v ≤ -1) ∧
      ((0 : Int) = 0 → v = roundF32 (roundF32 (1 - -1) + -1)) ∧
      ((0 : Int) = tab1Mirror32.height → v = -1) ∧
      (∃ a', tab1Mirror32.mouseDrag { x := 100, y := 0 } false = some a' ∧
        a'.vec = tab1Mirror32.vec.set i (F32.fin v)) ∧
      (∀ b : Binary32.GraphicalArray, b.error = true →
        b.mouseDrag { x := 100, y := 0 } false = some b) :=
  mouseDrag_index_and_value tab1Mirror32 { x := 100, y := 0 } false (-1) 1 rfl
    (by simp [tab1Mirror32]) (by simp [tab1Mirror32]) (by decide) (by decide) (by decide)
    (by decide) (by norm_num) (by norm_num) getScale_tab1Mirror32 isF32_neg_one
    (by unfold floatMax; norm_num [abs_le])
    (by rw [roundF32_two]; unfold floatMax; norm_num [abs_le])
    (by
      rw [roundF32_two]
      have h : roundF32 ((2 : ℚ) + -1) = 1 := by
        have e : (2 : ℚ) + -1 = 1 := by norm_num
        rw [e]; exact isF32_one
      rw [h]; unfold floatMax; norm_num [abs_le])

/-- A drag whose index lies inside the buffer completes and leaves its value at that
index of the mirror, whatever `tryEnter` returned and whether or not the engine write
went through; for a non-empty mirror of at most `2 ^ 24 + 1` samples the index lies
inside the buffer. -/
theorem mouseDrag_mirror_holds_value32 (a : Binary32.GraphicalArray) (event : MouseEvent)
    (lockAcquired : Bool) (herr : a.error = false) (hne : a.vec ≠ [])
    (hsize : a.vec.length ≤ 2 ^ 24 + 1) :
    ∃ i a', a.dragIndex event = some i ∧ i < a.vec.length ∧
      a.mouseDrag event lockAcquired = some a' ∧ a'.vec[i]? = some (a.dragValue event) ∧
      a'.edited = a.edited ∧
      a'.error = (lockAcquired && (a.array.write i (a.dragValue event)).isNone) := by
  obtain ⟨c, _, _, _, hidx, hlt⟩ := dragIndex_lt_length32 a event hne hsize
  obtain ⟨a', h1, _, h3, h4, h5⟩ := mouseDrag_of_index32 a event lockAcquired _ herr hidx hlt
  exact ⟨_, a', hidx, hlt, h1, h3, h4, h5⟩

/-- A drag whose index lies outside the buffer has no defined result: `vec[index]`
is written outside the buffer. -/
theorem mouseDrag_of_index_outside32 (a : Binary32.GraphicalArray) (event : MouseEvent)
    (lockAcquired : Bool) (i : Nat) (herr : a.error = false)
    (hi : a.dragIndex event = some i) (hge : ¬ i < a.vec.length) :
    a.mouseDrag event lockAcquired = none := by
  unfold Binary32.GraphicalArray.mouseDrag
  simp only [herr, hi, hge, Bool.false_eq_true, if_false]

/-- The index the drag at the right edge maps to in the mirror `largeMirror`: the
count `16777219` converts to the float `16777220`, the length of the mirror. -/
theorem dragIndex_largeMirror (y : Int) :
    largeMirror.dragIndex { x := 200, y := y } = some 16777220 := by
  have h200 : roundF32 ((200 : Int) : ℚ) = 200 := by
    have h := roundF32_intCast 200 (by norm_num)
    simpa using h
  have hdiv : F32.div (F32.ofInt 200) (F32.ofInt 200) = F32.fin 1 := by
    rw [div_ofInt 200 200 (by norm_num) (by norm_num) (by norm_num), h200]
    have e : (200 : ℚ) / 200 = 1 := by norm_num
    rw [e, isF32_one]
  have hs : F32.ofRat (((16777219 : Nat)) : ℚ) = F32.fin 16777220 := by
    have e : (((16777219 : Nat)) : ℚ) = 16777219 := by norm_num
    rw [e, F32.ofRat_of_abs_le (by unfold floatMax; norm_num [abs_of_nonneg]), roundF32_16777219]
  have hmul : F32.mul (F32.fin 1) (F32.fin 16777220) = F32.fin 16777220 := by
    simp only [F32.mul]
    rw [one_mul, F32.ofRat_of_isF32 isF32_16777220 (by unfold floatMax; norm_num [abs_of_nonneg])]
  have hround : stdRound (16777220 : ℚ) = 16777220 := by
    unfold stdRound
    rw [if_pos (by norm_num), Int.floor_eq_iff]
    norm_num
  have hlen : largeMirror.vec.length = 16777220 := List.length_replicate _ _
  have hw : largeMirror.width = 200 := rfl
  have ht : truncToInt (((16777220 : Int)) : ℚ) = 16777220 := truncToInt_intCast 16777220
  unfold Binary32.GraphicalArray.dragIndex Binary32.GraphicalArray.dragPosition
  rw [hlen, sizeSub_large, hw]
  show F32.toSize (F32.round (F32.mul (Binary32.clip (F32.div (F32.ofInt 200) (F32.ofInt 200))
    (F32.fin 0) (F32.fin 1)) (F32.ofRat ((16777219 : Nat) : ℚ)))) = some 16777220
  rw [hdiv, clip32_fin, clip_one, hs, hmul]
  simp only [F32.round, hround, F32.toSize]
  rw [if_pos (by norm_num), ht]
  rfl

/-- A drag that does not get the callback lock, once its index is known to lie inside
the buffer: only the mirror element and the two counters change. -/
theorem mouseDrag_unlocked32 (a : Binary32.GraphicalArray) (event : MouseEvent) (i : Nat)
    (herr : a.error = false) (hi : a.dragIndex event = some i) (hlt : i < a.vec.length) :
    a.mouseDrag event false
      = some { a with vec := a.vec.set i (a.dragValue event), enqueued := a.enqueued + 1,
                      repaints := a.repaints + 1 } := by
  unfold Binary32.GraphicalArray.mouseDrag
  simp only [herr, hi, hlt, if_true, Bool.false_eq_true, if_false]

theorem isF32_8388610 : isF32 8388610 := by
  have h := isF32_intCast 8388610 (by norm_num)
  simpa using h

/-- The state `largeMirror` arises from the mirror in step with the engine by one click
at the centre of the component. -/
theorem largeMirror_reachable :
    largeSyncedMirror.mouseDown { x := 100, y := 70 } false = some largeMirror := by
  have hlen : ({ largeSyncedMirror with edited := true } : Binary32.GraphicalArray).vec.length
      = 16777220 := List.length_replicate _ _
  have h100 : roundF32 ((100 : Int) : ℚ) = 100 := by
    have h := roundF32_intCast 100 (by norm_num)
    simpa using h
  have h200 : roundF32 ((200 : Int) : ℚ) = 200 := by
    have h := roundF32_intCast 200 (by norm_num)
    simpa using h
  have h70 : roundF32 ((70 : Int) : ℚ) = 70 := by
    have h := roundF32_intCast 70 (by norm_num)
    simpa using h
  have h140 : roundF32 ((140 : Int) : ℚ) = 140 := by
    have h := roundF32_intCast 140 (by norm_num)
    simpa using h
  have hidx : ({ largeSyncedMirror with edited := true } : Binary32.GraphicalArray).dragIndex
      { x := 100, y := 70 } = some 8388610 := by
    have hdiv : F32.div (F32.ofInt 100) (F32.ofInt 200) = F32.fin (1 / 2) := by
      rw [div_ofInt 100 200 (by norm_num) (by norm_num) (by norm_num), h100, h200]
      have e : (100 : ℚ) / 200 = 1 / 2 := by norm_num
      rw [e, isF32_half]
    have hs : F32.ofRat (((16777219 : Nat)) : ℚ) = F32.fin 16777220 := by
      have e : (((16777219 : Nat)) : ℚ) = 16777219 := by norm_num
      rw [e, F32.ofRat_of_abs_le (by unfold floatMax; norm_num [abs_of_nonneg]),
        roundF32_16777219]
    have hmul : F32.mul (F32.fin (1 / 2)) (F32.fin 16777220) = F32.fin 8388610 := by
      simp only [F32.mul]
      have e : (1 / 2 : ℚ) * 16777220 = 8388610 := by norm_num
      rw [e, F32.ofRat_of_isF32 isF32_8388610 (by unfold floatMax; norm_num [abs_of_nonneg])]
    have hround : stdRound (8388610 : ℚ) = 8388610 := by
      unfold stdRound
      rw [if_pos (by norm_num), Int.floor_eq_iff]
      norm_num
    have ht : truncToInt (((8388610 : Int)) : ℚ) = 8388610 := truncToInt_intCast 8388610
    unfold Binary32.GraphicalArray.dragIndex Binary32.GraphicalArray.dragPosition
    rw [hlen, sizeSub_large]
    show F32.toSize (F32.round (F32.mul (Binary32.clip (F32.div (F32.ofInt 100) (F32.ofInt 200))
      (F32.fin 0) (F32.fin 1)) (F32.ofRat ((16777219 : Nat) : ℚ)))) = some 8388610
    rw [hdiv, clip32_fin, clip_half, hs, hmul]
    simp only [F32.round, hround, F32.toSize]
    rw [if_pos (by norm_num), ht]
    rfl
  have hval : ({ largeSyncedMirror with edited := true } : Binary32.GraphicalArray).dragValue
      { x := 100, y := 70 } = F32.fin 0 := by
    have h := dragValue_eq32 ({ largeSyncedMirror with edited := true } : Binary32.GraphicalArray)
      { x := 100, y := 70 } (-1) 1 (by decide) (by decide) (by norm_num) rfl isF32_neg_one
      (by unfold floatMax; norm_num [abs_le])
      (by rw [roundF32_two]; unfold floatMax; norm_num [abs_le])
      (by
        rw [roundF32_two]
        exact roundF32_abs_le isF32_floatMax (by unfold floatMax; norm_num [abs_le]))
    rw [h]
    show F32.fin (roundF32 (roundF32 (roundF32 (1 - clip (roundF32 (roundF32 ((70 : Int) : ℚ)
      / roundF32 ((140 : Int) : ℚ))) 0 1) * roundF32 (1 - -1)) + -1)) = F32.fin 0
    have e : (70 : ℚ) / 140 = 1 / 2 := by norm_num
    have e2 : (1 : ℚ) - 1 / 2 = 1 / 2 := by norm_num
    have e3 : (1 / 2 : ℚ) * 2 = 1 := by norm_num
    have e4 : (1 : ℚ) + -1 = 0 := by norm_num
    rw [h70, h140, e, isF32_half, clip_half, e2, isF32_half, roundF32_two, e3, isF32_one, e4,
      roundF32_zero]
  unfold Binary32.GraphicalArray.mouseDown
  rw [if_neg (by decide)]
  rw [mouseDrag_unlocked32 _ _ 8388610 rfl hidx (by rw [hlen]; norm_num), hval]
  show some ({ array := largeSyncedMirror.array,
               vec := (List.replicate 16777220 (F32.fin 0)).set 8388610 (F32.fin 0),
               temp := largeSyncedMirror.temp, edited := true, error := false, width := 200,
               height := 140, repaints := 0 + 1, enqueued := 0 + 1 }
      : Binary32.GraphicalArray) = some largeMirror
  rw [List.set_replicate_self]
  rfl

/-- C4 (the code at the failing input): a click at the centre of the mirror
`largeSyncedMirror` begins a gesture and leaves the mirror `largeMirror` in the Editing
state (16777220 samples, edit flag set, error flag clear).  A drag with the pointer at
the right edge (`x = w = 200`) then maps to the index `16777220`, the length of the
mirror: `vec[index] = ...` writes outside the buffer and the mirror holds the value at
no index, whatever `tryEnter` returns. -/
theorem mouseDrag_index_outside_large_mirror :
    largeSyncedMirror.mouseDown { x := 100, y := 70 } false = some largeMirror ∧
    largeMirror.edited = true ∧ largeMirror.error = false ∧
    largeMirror.vec.length = 16777220 ∧
    largeMirror.dragIndex { x := 200, y := 70 } = some 16777220 ∧
    largeMirror.vec[16777220]? = none ∧
    largeMirror.mouseDrag { x := 200, y := 70 } true = none ∧
    largeMirror.mouseDrag { x := 200, y := 70 } false = none := by
  have hlen : largeMirror.vec.length = 16777220 := List.length_replicate _ _
  have hidx := dragIndex_largeMirror 70
  refine ⟨largeMirror_reachable, rfl, rfl, hlen, hidx, ?_, ?_, ?_⟩
  · rw [List.getElem?_eq_none_iff, hlen]
  · exact mouseDrag_of_index_outside32 largeMirror _ true 16777220 rfl hidx
      (by rw [hlen]; exact lt_irrefl _)
  · exact mouseDrag_of_index_outside32 largeMirror _ false 16777220 rfl hidx
      (by rw [hlen]; exact lt_irrefl _)

/-! ## C20: direction and range of `setValueScaled` over binary32 values -/

theorem unitClamp32 (v : F32) (hv : v.isNaN = false) :
    F32.max (F32.min v (F32.fin 1)) (F32.fin 0) = F32.fin (unitClampNum v) := by
  cases v with
  | nan => simp [F32.isNaN] at hv
  | inf n => cases n <;> simp [F32.max, F32.min, F32.lt, unitClampNum]
  | fin q =>
    unfold F32.max F32.min unitClampNum stdMax stdMin
    by_cases h1 : (1 : ℚ) < q
    · simp [F32.lt, h1, (by norm_num : ¬ (1 : ℚ) < 0)]
    · by_cases h0 : q < 0
      · simp [F32.lt, h1, h0]
      · simp [F32.lt, h1, h0]

theorem unitClampNum_mem (v : F32) : 0 ≤ unitClampNum v ∧ unitClampNum v ≤ 1 := by
  cases v with
  | nan => simp [unitClampNum]
  | inf n => cases n <;> simp [unitClampNum]
  | fin q => exact unitClamp_mem q

theorem unitClampNum_mono (v₁ v₂ : F32) (h : F32.le v₁ v₂ = true) :
    unitClampNum v₁ ≤ unitClampNum v₂ := by
  cases v₁ with
  | nan => simp [F32.le] at h
  | inf n =>
    cases v₂ with
    | nan => simp [F32.le] at h
    | inf m => cases n <;> cases m <;> simp_all [F32.le, unitClampNum]
    | fin q =>
      cases n with
      | false => simp [F32.le] at h
      | true => exact (unitClamp_mem q).1
  | fin p =>
    cases v₂ with
    | nan => simp [F32.le] at h
    | inf m =>
      cases m with
      | false => exact (unitClamp_mem p).2
      | true => simp [F32.le] at h
    | fin q =>
      simp only [F32.le, decide_eq_true_eq] at h
      exact unitClamp_mono h

theorem unitClampNum_of_le_zero (v : F32) (h : F32.le v (F32.fin 0) = true) :
    unitClampNum v = 0 := by
  cases v with
  | nan => simp [F32.le] at h
  | inf n => cases n <;> simp_all [F32.le, unitClampNum]
  | fin q =>
    simp only [F32.le, decide_eq_true_eq] at h
    exact unitClamp_of_nonpos h

theorem unitClampNum_of_one_le (v : F32) (h : F32.le (F32.fin 1) v = true) :
    unitClampNum v = 1 := by
  cases v with
  | nan => simp [F32.le] at h
  | inf n => cases n <;> simp_all [F32.le, unitClampNum]
  | fin q =>
    simp only [F32.le, decide_eq_true_eq] at h
    exact unitClamp_of_one_le h

theorem F32.isNaN_of_le_left (a b : F32) (h : F32.le a b = true) : a.isNaN = false := by
  cases a with
  | nan => simp [F32.le] at h
  | inf n => rfl
  | fin q => rfl

theorem F32.isNaN_of_le_right (a b : F32) (h : F32.le a b = true) : b.isNaN = false := by
  cases b with
  | nan => cases a <;> simp [F32.le] at h
  | inf n => rfl
  | fin q => rfl

/-- The value `setValueScaled` stores in the branch `min < max`. -/
theorem setValueScaled_value_direct (c : Binary32.GUIComponent) (lo hi : ℚ) (v : F32)
    (hmin : c.min = F32.fin lo) (hmax : c.max = F32.fin hi) (hlo : isF32 lo)
    (hlomax : |lo| ≤ floatMax) (hlt : lo < hi) (hspan : |roundF32 (hi - lo)| ≤ floatMax)
    (htop : |roundF32 (roundF32 (hi - lo) + lo)| ≤ floatMax) (hv : v.isNaN = false) :
    (c.setValueScaled v).value
      = F32.fin (roundF32 (roundF32 (unitClampNum v * roundF32 (hi - lo)) + lo)) := by
  have hl : F32.lt (F32.fin lo) (F32.fin hi) = true := by simp [F32.lt, hlt]
  simp only [Binary32.GUIComponent.setValueScaled, hmin, hmax, hl, if_true, unitClamp32 v hv,
    sub_fin hi lo hspan]
  exact scaled32_eq _ lo _ (unitClampNum_mem v).1 (unitClampNum_mem v).2 (isF32_roundF32 _)
    hspan hlo hlomax htop

/-- The value `setValueScaled` stores in the branch `min >= max`. -/
theorem setValueScaled_value_reversed (c : Binary32.GUIComponent) (lo hi : ℚ) (v : F32)
    (hmin : c.min = F32.fin lo) (hmax : c.max = F32.fin hi) (hhi : isF32 hi)
    (hhimax : |hi| ≤ floatMax) (hge : hi ≤ lo) (hspan : |roundF32 (lo - hi)| ≤ floatMax)
    (htop : |roundF32 (roundF32 (lo - hi) + hi)| ≤ floatMax) (hv : v.isNaN = false) :
    (c.setValueScaled v).value
      = F32.fin (roundF32 (roundF32 (roundF32 (1 - unitClampNum v) * roundF32 (lo - hi))
          + hi)) := by
  have hl : F32.lt (F32.fin lo) (F32.fin hi) = false := by simp [F32.lt, hge]
  obtain ⟨ht, ht0, ht1⟩ := one_sub_unit _ (unitClampNum_mem v).1 (unitClampNum_mem v).2
  simp only [Binary32.GUIComponent.setValueScaled, hmin, hmax, hl, Bool.false_eq_true, if_false,
    unitClamp32 v hv, sub_fin lo hi hspan, ht]
  exact scaled32_eq _ hi _ ht0 ht1 (isF32_roundF32 _) hspan hhi hhimax htop


/-- The float difference `-1.6f - -5.f` is a tie of binary32 and rounds up. -/
theorem roundF32_span_negative :
    roundF32 (-13421773 / 8388608 - -5) = 7130317 / 2097152 := by
  rw [roundF32_eval 1 14260634 (by norm_num) (by norm_num) (by norm_num)
    (by rw [roundHalfEven_tie 14260633 (by norm_num)]; norm_num)]
  norm_num

/-- The float sum of that difference and `-5.f` is a binary32 number above `-1.6f`. -/
theorem roundF32_top_negative :
    roundF32 (7130317 / 2097152 + -5) = -3355443 / 2097152 := by
  have h := isF32_grid (-13421772) 0 (by norm_num) (by norm_num)
  norm_num at h ⊢
  exact h

theorem isF32_neg_five : isF32 (-5) := by
  have h := isF32_intCast (-5) (by norm_num)
  simpa using h

/-- C20 (as stated, refuted): over the range `min = -5`, `max = -1.6f` (so `min < max`)
the input `1` does not give `max`: the float difference `max - min` rounds up, and
`1 * (max - min) + min` is the binary32 number `-3355443 / 2 ^ 21 = -1.5999999`, which
lies above `max`, so the stored value does not lie between `min` and `max`. -/
theorem setValueScaled_one_exceeds_max :
    F32.lt sliderNegative.min sliderNegative.max = true ∧
    (sliderNegative.setValueScaled (F32.fin 1)).value = F32.fin (-3355443 / 2097152) ∧
    (sliderNegative.setValueScaled (F32.fin 1)).value ≠ sliderNegative.max ∧
    F32.le (sliderNegative.setValueScaled (F32.fin 1)).value sliderNegative.max = false := by
  have hv : (sliderNegative.setValueScaled (F32.fin 1)).value
      = F32.fin (-3355443 / 2097152) := by
    rw [setValueScaled_value_direct sliderNegative (-5) (-13421773 / 8388608) (F32.fin 1) rfl rfl
      isF32_neg_five (by unfold floatMax; norm_num [abs_le]) (by norm_num)
      (by rw [roundF32_span_negative]; unfold floatMax; norm_num [abs_le])
      (by
        rw [roundF32_span_negative, roundF32_top_negative]
        unfold floatMax; norm_num [abs_le])
      rfl]
    have hc : unitClampNum (F32.fin 1) = 1 := by norm_num [unitClampNum, stdMax, stdMin]
    rw [hc, one_mul, isF32_roundF32, roundF32_span_negative, roundF32_top_negative]
  refine ⟨by simp [sliderNegative, F32.lt]; norm_num, hv, ?_, ?_⟩
  · rw [hv]
    simp [sliderNegative]
    norm_num
  · rw [hv]
    simp [sliderNegative, F32.le]
    norm_num

/-- C20 (amended): the order of the range fixes the direction of `setValueScaled`.  For
a finite range whose span and whose far value, the float sum of the span and the near
end, do not overflow: when `min < max` the stored value is non-decreasing in the
normalized input, `0` gives `min`, `1` gives the float `(max - min) + min`, and the
stored value lies between `min` and the value for `1`; when `min >= max` the stored
value is non-increasing in the input, `1` gives `max`, `0` gives the float
`(min - max) + max`, and the stored value lies between `max` and the value for `0`.  In
both cases an input below `0` is stored as `0` is and an input above `1` as `1` is. -/
theorem setValueScaled_direction (c : Binary32.GUIComponent) (lo hi : ℚ)
    (hmin : c.min = F32.fin lo) (hmax : c.max = F32.fin hi) (hlo : isF32 lo) (hhi : isF32 hi)
    (hlomax : |lo| ≤ floatMax) (hhimax : |hi| ≤ floatMax) :
    (lo < hi → |roundF32 (hi - lo)| ≤ floatMax →
      |roundF32 (roundF32 (hi - lo) + lo)| ≤ floatMax →
      (∀ v₁ v₂ : F32, F32.le v₁ v₂ = true →
        F32.le (c.setValueScaled v₁).value (c.setValueScaled v₂).value = true) ∧
      (c.setValueScaled (F32.fin 0)).value = c.min ∧
      (c.setValueScaled (F32.fin 1)).value = F32.fin (roundF32 (roundF32 (hi - lo) + lo)) ∧
      (∀ v : F32, v.isNaN = false →
        F32.le c.min (c.setValueScaled v).value = true ∧
        F32.le (c.setValueScaled v).value (c.setValueScaled (F32.fin 1)).value = true)) ∧
    (hi ≤ lo → |roundF32 (lo - hi)| ≤ floatMax →
      |roundF32 (roundF32 (lo - hi) + hi)| ≤ floatMax →
      (∀ v₁ v₂ : F32, F32.le v₁ v₂ = true →
        F32.le (c.setValueScaled v₂).value (c.setValueScaled v₁).value = true) ∧
      (c.setValueScaled (F32.fin 1)).value = c.max ∧
      (c.setValueScaled (F32.fin 0)).value = F32.fin (roundF32 (roundF32 (lo - hi) + hi)) ∧
      (∀ v : F32, v.isNaN = false →
        F32.le c.max (c.setValueScaled v).value = true ∧
        F32.le (c.setValueScaled v).value (c.setValueScaled (F32.fin 0)).value = true)) ∧
    (∀ v : F32, F32.le v (F32.fin 0) = true →
      (c.setValueScaled v).value = (c.setValueScaled (F32.fin 0)).value) ∧
    (∀ v : F32, F32.le (F32.fin 1) v = true →
      (c.setValueScaled v).value = (c.setValueScaled (F32.fin 1)).value) := by
  have hc0 : unitClampNum (F32.fin 0) = 0 := by norm_num [unitClampNum, stdMax, stdMin]
  have hc1 : unitClampNum (F32.fin 1) = 1 := by norm_num [unitClampNum, stdMax, stdMin]
  refine ⟨?_, ?_, ?_, ?_⟩
  · intro hlt hspan htop
    have hval := fun (v : F32) (hv : v.isNaN = false) =>
      setValueScaled_value_direct c lo hi v hmin hmax hlo hlomax hlt hspan htop hv
    have hd0 : 0 ≤ roundF32 (hi - lo) := roundF32_nonneg (by linarith)
    have h0 : (c.setValueScaled (F32.fin 0)).value = c.min := by
      rw [hval (F32.fin 0) rfl, hc0, zero_mul, roundF32_zero, zero_add, hlo, hmin]
    have h1 : (c.setValueScaled (F32.fin 1)).value
        = F32.fin (roundF32 (roundF32 (hi - lo) + lo)) := by
      rw [hval (F32.fin 1) rfl, hc1, one_mul, isF32_roundF32]
    refine ⟨?_, h0, h1, ?_⟩
    · intro v₁ v₂ hle
      rw [hval v₁ (F32.isNaN_of_le_left _ _ hle), hval v₂ (F32.isNaN_of_le_right _ _ hle)]
      simp only [F32.le, decide_eq_true_eq]
      have hm := mul_le_mul_of_nonneg_right (unitClampNum_mono v₁ v₂ hle) hd0
      have hr := roundF32_mono hm
      exact roundF32_mono (by linarith)
    · intro v hv
      obtain ⟨_, _, hb1, hb2⟩ := (scaled32_bounds (unitClampNum v) lo (roundF32 (hi - lo))
        (unitClampNum_mem v).1 (unitClampNum_mem v).2 (isF32_roundF32 _) hlo).1 hd0
      rw [h1, hval v hv, hmin]
      simp only [F32.le, decide_eq_true_eq]
      exact ⟨hb1, hb2⟩
  · intro hge hspan htop
    have hval := fun (v : F32) (hv : v.isNaN = false) =>
      setValueScaled_value_reversed c lo hi v hmin hmax hhi hhimax hge hspan htop hv
    have hd0 : 0 ≤ roundF32 (lo - hi) := roundF32_nonneg (by linarith)
    have h1 : (c.setValueScaled (F32.fin 1)).value = c.max := by
      rw [hval (F32.fin 1) rfl, hc1, sub_self, roundF32_zero, zero_mul, roundF32_zero, zero_add, hhi, hmax]
    have h0 : (c.setValueScaled (F32.fin 0)).value
        = F32.fin (roundF32 (roundF32 (lo - hi) + hi)) := by
      rw [hval (F32.fin 0) rfl, hc0, sub_zero, isF32_one, one_mul, isF32_roundF32]
    refine ⟨?_, h1, h0, ?_⟩
    · intro v₁ v₂ hle
      rw [hval v₁ (F32.isNaN_of_le_left _ _ hle), hval v₂ (F32.isNaN_of_le_right _ _ hle)]
      simp only [F32.le, decide_eq_true_eq]
      have hc := unitClampNum_mono v₁ v₂ hle
      have ht : roundF32 (1 - unitClampNum v₂) ≤ roundF32 (1 - unitClampNum v₁) :=
        roundF32_mono (by linarith)
      have hm := mul_le_mul_of_nonneg_right ht hd0
      have hr := roundF32_mono hm
      exact roundF32_mono (by linarith)
    · intro v hv
      obtain ⟨_, ht0, ht1⟩ := one_sub_unit _ (unitClampNum_mem v).1 (unitClampNum_mem v).2
      obtain ⟨_, _, hb1, hb2⟩ := (scaled32_bounds (roundF32 (1 - unitClampNum v)) hi
        (roundF32 (lo - hi)) ht0 ht1 (isF32_roundF32 _) hhi).1 hd0
      rw [h0, hval v hv, hmax]
      simp only [F32.le, decide_eq_true_eq]
      exact ⟨hb1, hb2⟩
  · intro v hv
    have hn := F32.isNaN_of_le_left _ _ hv
    simp only [Binary32.GUIComponent.setValueScaled, unitClamp32 v hn,
      unitClamp32 (F32.fin 0) rfl, unitClampNum_of_le_zero v hv, hc0]
  · intro v hv
    have hn := F32.isNaN_of_le_right _ _ hv
    simp only [Binary32.GUIComponent.setValueScaled, unitClamp32 v hn,
      unitClamp32 (F32.fin 1) rfl, unitClampNum_of_one_le v hv, hc1]

theorem isF32_127 : isF32 127 := by
  have h := isF32_intCast 127 (by norm_num)
  simpa using h

theorem isF32_ten : isF32 10 := by
  have h := isF32_intCast 10 (by norm_num)
  simpa using h

theorem isF32_two_pow_127 : isF32 ((2 : ℚ) ^ 127) := by
  have h := isF32_grid (2 ^ 23) 127 (by norm_num) (by norm_num)
  have e : (((2 : Int) ^ 23 : Int) : ℚ) * 2 ^ ((127 : Int) - 23) = (2 : ℚ) ^ 127 := by norm_num
  rw [e] at h
  exact h

/-- For a range whose ends have magnitude at most `2 ^ 126`, neither the span nor the
float sum of the span and an end overflows. -/
theorem no_overflow_of_le_two_pow_126 {a b : ℚ} (ha : |a| ≤ 2 ^ 126) (hb : |b| ≤ 2 ^ 126) :
    |roundF32 (a - b)| ≤ floatMax ∧ |roundF32 (roundF32 (a - b) + b)| ≤ floatMax := by
  have h1 : |a - b| ≤ 2 ^ 127 := by
    rw [abs_le] at ha hb ⊢
    constructor <;> norm_num <;> linarith [ha.1, ha.2, hb.1, hb.2]
  have h2 := roundF32_abs_le isF32_two_pow_127 h1
  have hm : (2 : ℚ) ^ 127 + 2 ^ 126 ≤ floatMax := by unfold floatMax; norm_num
  refine ⟨le_trans h2 (by linarith [show (0 : ℚ) ≤ 2 ^ 126 by norm_num]), ?_⟩
  apply roundF32_abs_le isF32_floatMax
  rw [abs_le] at h2 hb ⊢
  constructor <;> linarith [h2.1, h2.2, hb.1, hb.2]

/-- C20 witness: the range `(0, 127)` and the inverted range `(10, 0)`, on the inputs
`1/4 <= 3/4`, and the clamping of the inputs `-2` and `5`. -/
theorem setValueScaled_direction_witness :
    F32.le (slider127.setValueScaled (F32.fin (1 / 4))).value
      (slider127.setValueScaled (F32.fin (3 / 4))).value = true ∧
    F32.le (sliderInverted.setValueScaled (F32.fin (3 / 4))).value
      (sliderInverted.setValueScaled (F32.fin (1 / 4))).value = true ∧
    (slider127.setValueScaled (F32.fin (-2))).value
      = (slider127.setValueScaled (F32.fin 0)).value ∧
    (slider127.setValueScaled (F32.fin 5)).value
      = (slider127.setValueScaled (F32.fin 1)).value :=
  ⟨((setValueScaled_direction slider127 0 127 rfl rfl isF32_zero isF32_127
        (by unfold floatMax; norm_num [abs_le]) (by unfold floatMax; norm_num [abs_le])).1
      (by norm_num)
      (no_overflow_of_le_two_pow_126 (by norm_num [abs_le]) (by norm_num [abs_le])).1
      (no_overflow_of_le_two_pow_126 (by norm_num [abs_le]) (by norm_num [abs_le])).2).1 _ _
      (by simp [F32.le]; norm_num),
   ((setValueScaled_direction sliderInverted 10 0 rfl rfl isF32_ten isF32_zero
        (by unfold floatMax; norm_num [abs_le]) (by unfold floatMax; norm_num [abs_le])).2.1
      (by norm_num)
      (no_overflow_of_le_two_pow_126 (by norm_num [abs_le]) (by norm_num [abs_le])).1
      (no_overflow_of_le_two_pow_126 (by norm_num [abs_le]) (by norm_num [abs_le])).2).1 _ _
      (by simp [F32.le]; norm_num),
   (setValueScaled_direction slider127 0 127 rfl rfl isF32_zero isF32_127
        (by unfold floatMax; norm_num [abs_le]) (by unfold floatMax; norm_num [abs_le])).2.2.1 _
      (by simp [F32.le]),
   (setValueScaled_direction slider127 0 127 rfl rfl isF32_zero isF32_127
        (by unfold floatMax; norm_num [abs_le]) (by unfold floatMax; norm_num [abs_le])).2.2.2 _
      (by simp [F32.le])⟩


/-! ## C1: the scaled round trip over binary32 values -/

theorem roundMag_err {q : ℚ} (h0 : 0 ≤ q) :
    |roundMag q - q| ≤ unitRoundoff * q + subnormalHalfUlp := by
  have hu := f32Ulp_pos q
  have h := roundHalfEven_sub_le (q / f32Ulp q)
  have he : roundMag q - q = ((roundHalfEven (q / f32Ulp q) : ℚ) - q / f32Ulp q) * f32Ulp q := by
    unfold roundMag
    field_simp
  have habs : |roundMag q - q| ≤ 1 / 2 * f32Ulp q := by
    rw [he, abs_mul, abs_of_pos hu]
    exact mul_le_mul_of_nonneg_right h (le_of_lt hu)
  have hulp : 1 / 2 * f32Ulp q ≤ unitRoundoff * q + subnormalHalfUlp := by
    unfold f32Ulp unitRoundoff subnormalHalfUlp
    by_cases hs : q < 2 ^ (-126 : Int)
    · rw [f32Exponent_of_small hs]
      have : (1 : ℚ) / 2 * 2 ^ ((-126 : Int) - 23) = 1 / 2 ^ 150 := by norm_num
      rw [this]
      have : 0 ≤ 1 / 2 ^ 24 * q := mul_nonneg (by norm_num) h0
      linarith
    · have h1 := zpow_f32Exponent_le (not_lt.mp hs)
      have e : (1 : ℚ) / 2 * 2 ^ (f32Exponent q - 23) = 1 / 2 ^ 24 * 2 ^ f32Exponent q := by
        rw [zpow_sub₀ (by norm_num : (2 : ℚ) ≠ 0)]
        norm_num
        ring
      rw [e]
      have : (1 : ℚ) / 2 ^ 24 * 2 ^ f32Exponent q ≤ 1 / 2 ^ 24 * q :=
        mul_le_mul_of_nonneg_left h1 (by norm_num)
      have h150 : (0 : ℚ) ≤ 1 / 2 ^ 150 := by norm_num
      linarith
  exact le_trans habs hulp

/-- The rounding error of binary32: relative `2 ^ -24`, absolute `2 ^ -150` for the
subnormal numbers. -/
theorem roundF32_err (q : ℚ) : |roundF32 q - q| ≤ unitRoundoff * |q| + subnormalHalfUlp := by
  by_cases h : 0 ≤ q
  · rw [roundF32_of_nonneg h, abs_of_nonneg h]
    exact roundMag_err h
  · have h1 : 0 ≤ -q := by linarith
    have e : roundF32 q = -roundMag (-q) := by unfold roundF32; rw [if_neg h]
    have := roundMag_err h1
    rw [e, abs_of_neg (not_le.mp h)]
    have e2 : -roundMag (-q) - q = -(roundMag (-q) - -q) := by ring
    rw [e2, abs_neg]
    exact this

/-- The numbers behind the round trip `((x * d + a) - a) / d` with every operation
rounded, for `x` in `[0, 1]` and a span `d` that is at least sixteen step errors: the
rounded difference `r` stays within `d + 3 * stepError`, and the rounded quotient is
`x` up to `7 * stepError / d + 2 ^ -24 + 2 ^ -150`. -/
theorem roundTrip_numbers (x a d : ℚ) (hx0 : 0 ≤ x) (hx1 : x ≤ 1) (hd : isF32 d)
    (hspan : 16 * stepError a d ≤ d) :
    0 < d ∧ 0 ≤ stepError a d ∧
    |roundF32 (roundF32 (roundF32 (x * d) + a) - a)| ≤ d + 3 * stepError a d ∧
    |roundF32 (roundF32 (roundF32 (x * d) + a) - a) / d| ≤ 1 + 3 * (stepError a d / d) ∧
    |roundF32 (roundF32 (roundF32 (roundF32 (x * d) + a) - a) / d) - x|
      ≤ 7 * (stepError a d / d) + unitRoundoff + subnormalHalfUlp := by
  have ha0 : 0 ≤ |a| := abs_nonneg a
  have hd0 : 0 < d := by
    unfold stepError unitRoundoff subnormalHalfUlp at hspan
    by_contra hneg
    have hle : d ≤ 0 := not_lt.mp hneg
    norm_num at hspan
    linarith
  have hA0 : 0 ≤ stepError a d := by
    unfold stepError unitRoundoff subnormalHalfUlp
    have : 0 ≤ d + |a| := by linarith
    positivity
  have hu0 : (0 : ℚ) ≤ unitRoundoff := by unfold unitRoundoff; norm_num
  have hu1 : unitRoundoff ≤ 1 := by unfold unitRoundoff; norm_num
  have hn0 : (0 : ℚ) ≤ subnormalHalfUlp := by unfold subnormalHalfUlp; norm_num
  -- the product
  have hxd0 : 0 ≤ x * d := mul_nonneg hx0 (le_of_lt hd0)
  have hxd1 : x * d ≤ d := by
    calc x * d ≤ 1 * d := mul_le_mul_of_nonneg_right hx1 (le_of_lt hd0)
      _ = d := one_mul d
  obtain ⟨hp0, hp1⟩ := roundF32_between isF32_zero hd hxd0 hxd1
  have he1 : |roundF32 (x * d) - x * d| ≤ stepError a d := by
    have h := roundF32_err (x * d)
    rw [abs_of_nonneg hxd0] at h
    have h2 : unitRoundoff * (x * d) ≤ unitRoundoff * (d + |a|) :=
      mul_le_mul_of_nonneg_left (by linarith) hu0
    unfold stepError
    linarith
  -- the sum
  have he2 : |roundF32 (roundF32 (x * d) + a) - (roundF32 (x * d) + a)| ≤ stepError a d := by
    have h := roundF32_err (roundF32 (x * d) + a)
    have h1 : |roundF32 (x * d) + a| ≤ d + |a| := by
      calc |roundF32 (x * d) + a| ≤ |roundF32 (x * d)| + |a| := abs_add _ _
        _ ≤ d + |a| := by rw [abs_of_nonneg hp0]; linarith
    have h2 : unitRoundoff * |roundF32 (x * d) + a| ≤ unitRoundoff * (d + |a|) :=
      mul_le_mul_of_nonneg_left h1 hu0
    unfold stepError
    linarith
  -- the difference
  have hdiff : |roundF32 (roundF32 (x * d) + a) - a| ≤ d + stepError a d := by
    have e : roundF32 (roundF32 (x * d) + a) - a
        = (roundF32 (roundF32 (x * d) + a) - (roundF32 (x * d) + a)) + roundF32 (x * d) := by
      ring
    rw [e]
    calc |(roundF32 (roundF32 (x * d) + a) - (roundF32 (x * d) + a)) + roundF32 (x * d)|
        ≤ |roundF32 (roundF32 (x * d) + a) - (roundF32 (x * d) + a)| + |roundF32 (x * d)| :=
          abs_add _ _
      _ ≤ stepError a d + d := by rw [abs_of_nonneg hp0]; linarith
      _ = d + stepError a d := by ring
  have he3 : |roundF32 (roundF32 (roundF32 (x * d) + a) - a)
      - (roundF32 (roundF32 (x * d) + a) - a)| ≤ 2 * stepError a d := by
    have h := roundF32_err (roundF32 (roundF32 (x * d) + a) - a)
    have h2 : unitRoundoff * |roundF32 (roundF32 (x * d) + a) - a|
        ≤ unitRoundoff * (d + stepError a d) := mul_le_mul_of_nonneg_left hdiff hu0
    have h3 : unitRoundoff * stepError a d ≤ 1 * stepError a d :=
      mul_le_mul_of_nonneg_right hu1 hA0
    have h4 : unitRoundoff * d + subnormalHalfUlp ≤ stepError a d := by
      unfold stepError
      have : 0 ≤ unitRoundoff * |a| := mul_nonneg hu0 ha0
      linarith
    linarith
  -- r against the exact product and against the rounded product
  have hr_p : |roundF32 (roundF32 (roundF32 (x * d) + a) - a) - roundF32 (x * d)|
      ≤ 3 * stepError a d := by
    have e : roundF32 (roundF32 (roundF32 (x * d) + a) - a) - roundF32 (x * d)
        = (roundF32 (roundF32 (roundF32 (x * d) + a) - a)
            - (roundF32 (roundF32 (x * d) + a) - a))
          + (roundF32 (roundF32 (x * d) + a) - (roundF32 (x * d) + a)) := by ring
    rw [e]
    exact le_trans (abs_add _ _) (by linarith)
  have hr_x : |roundF32 (roundF32 (roundF32 (x * d) + a) - a) - x * d|
      ≤ 4 * stepError a d := by
    have e : roundF32 (roundF32 (roundF32 (x * d) + a) - a) - x * d
        = (roundF32 (roundF32 (roundF32 (x * d) + a) - a) - roundF32 (x * d))
          + (roundF32 (x * d) - x * d) := by ring
    rw [e]
    exact le_trans (abs_add _ _) (by linarith)
  have hr : |roundF32 (roundF32 (roundF32 (x * d) + a) - a)| ≤ d + 3 * stepError a d := by
    have e : roundF32 (roundF32 (roundF32 (x * d) + a) - a)
        = (roundF32 (roundF32 (roundF32 (x * d) + a) - a) - roundF32 (x * d))
          + roundF32 (x * d) := by ring
    rw [e]
    calc |(roundF32 (roundF32 (roundF32 (x * d) + a) - a) - roundF32 (x * d))
          + roundF32 (x * d)|
        ≤ |roundF32 (roundF32 (roundF32 (x * d) + a) - a) - roundF32 (x * d)|
          + |roundF32 (x * d)| := abs_add _ _
      _ ≤ 3 * stepError a d + d := by rw [abs_of_nonneg hp0]; linarith
      _ = d + 3 * stepError a d := by ring
  -- the quotient
  have hq : |roundF32 (roundF32 (roundF32 (x * d) + a) - a) / d|
      ≤ 1 + 3 * (stepError a d / d) := by
    rw [abs_div, abs_of_pos hd0, div_le_iff₀ hd0]
    have e : (1 + 3 * (stepError a d / d)) * d = d + 3 * stepError a d := by
      field_simp
    rw [e]
    exact hr
  have hq_x : |roundF32 (roundF32 (roundF32 (x * d) + a) - a) / d - x|
      ≤ 4 * (stepError a d / d) := by
    have e : roundF32 (roundF32 (roundF32 (x * d) + a) - a) / d - x
        = (roundF32 (roundF32 (roundF32 (x * d) + a) - a) - x * d) / d := by
      field_simp
      ring
    rw [e, abs_div, abs_of_pos hd0, div_le_iff₀ hd0]
    have e2 : 4 * (stepError a d / d) * d = 4 * stepError a d := by
      field_simp
    rw [e2]
    exact hr_x
  have hAd0 : 0 ≤ stepError a d / d := div_nonneg hA0 (le_of_lt hd0)
  have he4 : |roundF32 (roundF32 (roundF32 (roundF32 (x * d) + a) - a) / d)
      - roundF32 (roundF32 (roundF32 (x * d) + a) - a) / d|
      ≤ unitRoundoff + 3 * (stepError a d / d) + subnormalHalfUlp := by
    have h := roundF32_err (roundF32 (roundF32 (roundF32 (x * d) + a) - a) / d)
    have h2 : unitRoundoff * |roundF32 (roundF32 (roundF32 (x * d) + a) - a) / d|
        ≤ unitRoundoff * (1 + 3 * (stepError a d / d)) := mul_le_mul_of_nonneg_left hq hu0
    have h3 : unitRoundoff * (3 * (stepError a d / d)) ≤ 1 * (3 * (stepError a d / d)) :=
      mul_le_mul_of_nonneg_right hu1 (by linarith)
    linarith
  refine ⟨hd0, hA0, hr, hq, ?_⟩
  have e : roundF32 (roundF32 (roundF32 (roundF32 (x * d) + a) - a) / d) - x
      = (roundF32 (roundF32 (roundF32 (roundF32 (x * d) + a) - a) / d)
          - roundF32 (roundF32 (roundF32 (x * d) + a) - a) / d)
        + (roundF32 (roundF32 (roundF32 (x * d) + a) - a) / d - x) := by ring
  rw [e]
  exact le_trans (abs_add _ _) (by linarith)

theorem isF32_two_pow_126 : isF32 ((2 : ℚ) ^ 126) := by
  have h := isF32_grid (2 ^ 23) 126 (by norm_num) (by norm_num)
  have e : (((2 : Int) ^ 23 : Int) : ℚ) * 2 ^ ((126 : Int) - 23) = (2 : ℚ) ^ 126 := by norm_num
  rw [e] at h
  exact h

/-- The span of a range whose ends have magnitude at most `2 ^ 125` is at most
`2 ^ 126`. -/
theorem span_le_two_pow_126 {a b : ℚ} (ha : |a| ≤ 2 ^ 125) (hb : |b| ≤ 2 ^ 125) :
    |roundF32 (a - b)| ≤ 2 ^ 126 := by
  apply roundF32_abs_le isF32_two_pow_126
  rw [abs_le] at ha hb ⊢
  constructor <;> norm_num <;> linarith [ha.1, ha.2, hb.1, hb.2]

theorem two_pow_125_le_126 : (2 : ℚ) ^ 125 ≤ 2 ^ 126 := by norm_num

theorem two_le_floatMax : (2 : ℚ) ≤ floatMax := by unfold floatMax; norm_num

/-- The float quotient `(value - a) / d` of the scaled round trip, for a stored value
`(x * d) + a`, is finite and close to `x`. -/
theorem roundTrip_quotient (x a d : ℚ) (hx0 : 0 ≤ x) (hx1 : x ≤ 1) (hd : isF32 d)
    (hdmax : d ≤ 2 ^ 126) (hspan : 16 * stepError a d ≤ d) :
    F32.div (F32.sub (F32.fin (roundF32 (roundF32 (x * d) + a))) (F32.fin a)) (F32.fin d)
      = F32.fin (roundF32 (roundF32 (roundF32 (roundF32 (x * d) + a) - a) / d)) ∧
    |roundF32 (roundF32 (roundF32 (roundF32 (x * d) + a) - a) / d) - x|
      ≤ 7 * (stepError a d / d) + unitRoundoff + subnormalHalfUlp := by
  obtain ⟨hd0, hA0, hr, hq, herr⟩ := roundTrip_numbers x a d hx0 hx1 hd hspan
  refine ⟨?_, herr⟩
  have hrmax : |roundF32 (roundF32 (roundF32 (x * d) + a) - a)| ≤ floatMax := by
    have h1 : d + 3 * stepError a d ≤ 2 * d := by linarith
    have h2 : (2 : ℚ) * 2 ^ 126 ≤ floatMax := by unfold floatMax; norm_num
    linarith
  rw [sub_fin _ _ hrmax]
  simp only [F32.div, if_neg (ne_of_gt hd0)]
  apply F32.ofRat_of_abs_le
  have hAd : stepError a d / d ≤ 1 / 16 := by
    rw [div_le_iff₀ hd0]
    linarith
  have := two_le_floatMax
  linarith

/-- The scaled round trip in the branch `min < max`. -/
theorem roundTrip_direct (c : Binary32.GUIComponent) (lo hi x : ℚ)
    (hmin : c.min = F32.fin lo) (hmax : c.max = F32.fin hi) (hlo : isF32 lo)
    (hlomag : |lo| ≤ 2 ^ 125) (hhimag : |hi| ≤ 2 ^ 125) (hx0 : 0 ≤ x) (hx1 : x ≤ 1)
    (hlt : lo < hi) (hspan : 16 * stepError lo (roundF32 (hi - lo)) ≤ roundF32 (hi - lo)) :
    (c.setValueScaled (F32.fin x)).getValueScaled
      = F32.fin (roundF32 (roundF32 (roundF32 (roundF32 (x * roundF32 (hi - lo)) + lo) - lo)
          / roundF32 (hi - lo))) ∧
    |roundF32 (roundF32 (roundF32 (roundF32 (x * roundF32 (hi - lo)) + lo) - lo)
        / roundF32 (hi - lo)) - x|
      ≤ 7 * (stepError lo (roundF32 (hi - lo)) / roundF32 (hi - lo)) + unitRoundoff
        + subnormalHalfUlp := by
  have hlo126 : |lo| ≤ 2 ^ 126 := le_trans hlomag two_pow_125_le_126
  have hhi126 : |hi| ≤ 2 ^ 126 := le_trans hhimag two_pow_125_le_126
  obtain ⟨hsp, htop⟩ := no_overflow_of_le_two_pow_126 hhi126 hlo126
  have hlomax : |lo| ≤ floatMax := le_trans hlo126 (by unfold floatMax; norm_num)
  have hd126 := span_le_two_pow_126 hhimag hlomag
  have hl : F32.lt (F32.fin lo) (F32.fin hi) = true := by simp [F32.lt, hlt]
  have hval := setValueScaled_value_direct c lo hi (F32.fin x) hmin hmax hlo hlomax hlt hsp htop
    rfl
  have hc : unitClampNum (F32.fin x) = x := unit_clamp_id hx0 hx1
  rw [hc] at hval
  obtain ⟨hq, herr⟩ := roundTrip_quotient x lo (roundF32 (hi - lo)) hx0 hx1 (isF32_roundF32 _)
    (le_trans (le_abs_self _) hd126) hspan
  refine ⟨?_, herr⟩
  have hmin' : (c.setValueScaled (F32.fin x)).min = F32.fin lo := hmin
  have hmax' : (c.setValueScaled (F32.fin x)).max = F32.fin hi := hmax
  unfold Binary32.GUIComponent.getValueScaled
  simp only [hmin', hmax', hl, if_true, hval, sub_fin hi lo hsp]
  exact hq

/-- The scaled round trip in the branch `min > max`. -/
theorem roundTrip_reversed (c : Binary32.GUIComponent) (lo hi x : ℚ)
    (hmin : c.min = F32.fin lo) (hmax : c.max = F32.fin hi) (hhi : isF32 hi)
    (hlomag : |lo| ≤ 2 ^ 125) (hhimag : |hi| ≤ 2 ^ 125) (hx0 : 0 ≤ x) (hx1 : x ≤ 1)
    (hgt : hi < lo) (hspan : 16 * stepError hi (roundF32 (lo - hi)) ≤ roundF32 (lo - hi)) :
    ∃ res : ℚ, (c.setValueScaled (F32.fin x)).getValueScaled = F32.fin res ∧
      |res - x| ≤ roundTripTolerance hi (roundF32 (lo - hi)) := by
  have hlo126 : |lo| ≤ 2 ^ 126 := le_trans hlomag two_pow_125_le_126
  have hhi126 : |hi| ≤ 2 ^ 126 := le_trans hhimag two_pow_125_le_126
  obtain ⟨hsp, htop⟩ := no_overflow_of_le_two_pow_126 hlo126 hhi126
  have hhimax : |hi| ≤ floatMax := le_trans hhi126 (by unfold floatMax; norm_num)
  have hd126 := span_le_two_pow_126 hlomag hhimag
  have hl : F32.lt (F32.fin lo) (F32.fin hi) = false := by simp [F32.lt, le_of_lt hgt]
  have hval := setValueScaled_value_reversed c lo hi (F32.fin x) hmin hmax hhi hhimax
    (le_of_lt hgt) hsp htop rfl
  have hc : unitClampNum (F32.fin x) = x := unit_clamp_id hx0 hx1
  rw [hc] at hval
  obtain ⟨_, ht0, ht1⟩ := one_sub_unit x hx0 hx1
  obtain ⟨hq, herr⟩ := roundTrip_quotient (roundF32 (1 - x)) hi (roundF32 (lo - hi)) ht0 ht1
    (isF32_roundF32 _) (le_trans (le_abs_self _) hd126) hspan
  obtain ⟨hd0, hA0, _, _, _⟩ := roundTrip_numbers (roundF32 (1 - x)) hi (roundF32 (lo - hi))
    ht0 ht1 (isF32_roundF32 _) hspan
  have hu0 : (0 : ℚ) ≤ unitRoundoff := by unfold unitRoundoff; norm_num
  have hn0 : (0 : ℚ) ≤ subnormalHalfUlp := by unfold subnormalHalfUlp; norm_num
  have hu : unitRoundoff + subnormalHalfUlp ≤ 1 / 16 := by
    unfold unitRoundoff subnormalHalfUlp; norm_num
  have hAd : stepError hi (roundF32 (lo - hi)) / roundF32 (lo - hi) ≤ 1 / 16 := by
    rw [div_le_iff₀ hd0]
    linarith
  -- the rounding of `1 - x`
  have het : |roundF32 (1 - x) - (1 - x)| ≤ unitRoundoff + subnormalHalfUlp := by
    have h := roundF32_err (1 - x)
    rw [abs_of_nonneg (by linarith : (0 : ℚ) ≤ 1 - x)] at h
    have : unitRoundoff * (1 - x) ≤ unitRoundoff * 1 :=
      mul_le_mul_of_nonneg_left (by linarith) hu0
    linarith
  -- the rounding of `1 - q`
  have hq1 : |1 - roundF32 (roundF32 (roundF32 (roundF32 (roundF32 (1 - x)
      * roundF32 (lo - hi)) + hi) - hi) / roundF32 (lo - hi))| ≤ 2 := by
    rw [abs_le] at herr ⊢
    constructor <;> linarith [herr.1, herr.2]
  have her : |roundF32 (1 - roundF32 (roundF32 (roundF32 (roundF32 (roundF32 (1 - x)
        * roundF32 (lo - hi)) + hi) - hi) / roundF32 (lo - hi)))
      - (1 - roundF32 (roundF32 (roundF32 (roundF32 (roundF32 (1 - x)
        * roundF32 (lo - hi)) + hi) - hi) / roundF32 (lo - hi)))|
      ≤ 2 * unitRoundoff + subnormalHalfUlp := by
    have h := roundF32_err (1 - roundF32 (roundF32 (roundF32 (roundF32 (roundF32 (1 - x)
        * roundF32 (lo - hi)) + hi) - hi) / roundF32 (lo - hi)))
    have : unitRoundoff * |1 - roundF32 (roundF32 (roundF32 (roundF32 (roundF32 (1 - x)
        * roundF32 (lo - hi)) + hi) - hi) / roundF32 (lo - hi))| ≤ unitRoundoff * 2 :=
      mul_le_mul_of_nonneg_left hq1 hu0
    linarith
  refine ⟨roundF32 (1 - roundF32 (roundF32 (roundF32 (roundF32 (roundF32 (1 - x)
      * roundF32 (lo - hi)) + hi) - hi) / roundF32 (lo - hi))), ?_, ?_⟩
  · have hmin' : (c.setValueScaled (F32.fin x)).min = F32.fin lo := hmin
    have hmax' : (c.setValueScaled (F32.fin x)).max = F32.fin hi := hmax
    unfold Binary32.GUIComponent.getValueScaled
    simp only [hmin', hmax', hl, Bool.false_eq_true, if_false, hval, sub_fin lo hi hsp]
    rw [hq]
    apply sub_fin
    apply roundF32_abs_le isF32_floatMax
    have := two_le_floatMax
    linarith
  · unfold roundTripTolerance
    have e : roundF32 (1 - roundF32 (roundF32 (roundF32 (roundF32 (roundF32 (1 - x)
          * roundF32 (lo - hi)) + hi) - hi) / roundF32 (lo - hi))) - x
        = (roundF32 (1 - roundF32 (roundF32 (roundF32 (roundF32 (roundF32 (1 - x)
            * roundF32 (lo - hi)) + hi) - hi) / roundF32 (lo - hi)))
          - (1 - roundF32 (roundF32 (roundF32 (roundF32 (roundF32 (1 - x)
            * roundF32 (lo - hi)) + hi) - hi) / roundF32 (lo - hi))))
          - (roundF32 (roundF32 (roundF32 (roundF32 (roundF32 (1 - x)
            * roundF32 (lo - hi)) + hi) - hi) / roundF32 (lo - hi)) - roundF32 (1 - x))
          - (roundF32 (1 - x) - (1 - x)) := by ring
    rw [e]
    rw [abs_le] at her herr het ⊢
    constructor <;> linarith [her.1, her.2, herr.1, herr.2, het.1, het.2]

/-- C1 (amended): for a finite range `(min, max)` with `min != max`, ends of magnitude
at most `2 ^ 125`, whose float span `d = |max - min|` is at least sixteen step errors
`2 ^ -24 * (d + |a|) + 2 ^ -150` of its near end `a` (`min` when `min < max`, `max`
when `min > max`), and for every `x` in `[0, 1]`: `setValueScaled(x)` followed by
`getValueScaled()` returns a finite number that differs from `x` by at most the
tolerance `7 * (2 ^ -24 * (d + |a|) + 2 ^ -150) / d + 4 * 2 ^ -24 + 3 * 2 ^ -150`. -/
theorem getValueScaled_setValueScaled (c : Binary32.GUIComponent) (lo hi x : ℚ)
    (hmin : c.min = F32.fin lo) (hmax : c.max = F32.fin hi) (hlo : isF32 lo) (hhi : isF32 hi)
    (hlomag : |lo| ≤ 2 ^ 125) (hhimag : |hi| ≤ 2 ^ 125) (hx0 : 0 ≤ x) (hx1 : x ≤ 1) :
    (lo < hi → 16 * stepError lo (roundF32 (hi - lo)) ≤ roundF32 (hi - lo) →
      ∃ res : ℚ, (c.setValueScaled (F32.fin x)).getValueScaled = F32.fin res ∧
        |res - x| ≤ roundTripTolerance lo (roundF32 (hi - lo))) ∧
    (hi < lo → 16 * stepError hi (roundF32 (lo - hi)) ≤ roundF32 (lo - hi) →
      ∃ res : ℚ, (c.setValueScaled (F32.fin x)).getValueScaled = F32.fin res ∧
        |res - x| ≤ roundTripTolerance hi (roundF32 (lo - hi))) := by
  refine ⟨?_, ?_⟩
  · intro hlt hspan
    obtain ⟨h1, h2⟩ := roundTrip_direct c lo hi x hmin hmax hlo hlomag hhimag hx0 hx1 hlt hspan
    refine ⟨_, h1, ?_⟩
    unfold roundTripTolerance
    have hu0 : (0 : ℚ) ≤ unitRoundoff := by unfold unitRoundoff; norm_num
    have hn0 : (0 : ℚ) ≤ subnormalHalfUlp := by unfold subnormalHalfUlp; norm_num
    linarith
  · intro hgt hspan
    exact roundTrip_reversed c lo hi x hmin hmax hhi hlomag hhimag hx0 hx1 hgt hspan

theorem isF32_five : isF32 5 := by
  have h := isF32_intCast 5 (by norm_num)
  simpa using h

/-- The scaled round trip over the degenerate range `(5, 5)`: the stored value is `5`
and the read-back divides `0` by `0`. -/
theorem roundTrip_degenerate :
    (sliderDegenerate.setValueScaled (F32.fin (1 / 2))).value = F32.fin 5 ∧
    (sliderDegenerate.setValueScaled (F32.fin (1 / 2))).getValueScaled = F32.nan := by
  have hval : (sliderDegenerate.setValueScaled (F32.fin (1 / 2))).value = F32.fin 5 := by
    rw [setValueScaled_value_reversed sliderDegenerate 5 5 (F32.fin (1 / 2)) rfl rfl isF32_five
      (by unfold floatMax; norm_num [abs_le]) (le_refl 5)
      (by rw [sub_self, roundF32_zero]; unfold floatMax; norm_num)
      (by rw [sub_self, roundF32_zero, zero_add, isF32_five]; unfold floatMax; norm_num [abs_le])
      rfl]
    rw [sub_self, roundF32_zero, mul_zero, roundF32_zero, zero_add, isF32_five]
  refine ⟨hval, ?_⟩
  have hmin : (sliderDegenerate.setValueScaled (F32.fin (1 / 2))).min = F32.fin 5 := rfl
  have hmax : (sliderDegenerate.setValueScaled (F32.fin (1 / 2))).max = F32.fin 5 := rfl
  have h0 : F32.ofRat 0 = F32.fin 0 := by
    rw [F32.ofRat_of_isF32 isF32_zero (by unfold floatMax; norm_num)]
  unfold Binary32.GUIComponent.getValueScaled
  simp only [hmin, hmax, hval, F32.lt, lt_irrefl, decide_False, Bool.false_eq_true, if_false,
    F32.sub, F32.neg, F32.add, add_neg_cancel, h0, F32.div, if_true]

theorem isF32_tenth : isF32 (13421773 / 134217728) := by
  have h := isF32_grid 13421773 (-4) (by norm_num) (by norm_num)
  norm_num at h ⊢
  exact h

/-- The float span `0.7f - 0.1f`. -/
theorem roundF32_span_tenths :
    roundF32 (11744051 / 16777216 - 13421773 / 134217728) = 10066329 / 16777216 := by
  rw [roundF32_eval (-1) 10066329 (by norm_num) (by norm_num) (by norm_num)
    (roundHalfEven_eq_of_near _ (by norm_num [abs_lt]))]
  norm_num

/-- The float product of `0.3f` and that span. -/
theorem roundF32_product_tenths :
    roundF32 (5033165 / 16777216 * (10066329 / 16777216)) = 12079595 / 67108864 := by
  rw [roundF32_eval (-3) 12079595 (by norm_num) (by norm_num) (by norm_num)
    (roundHalfEven_eq_of_near _ (by norm_num [abs_lt]))]
  norm_num

/-- The value stored for `0.3f`: the float sum of the product and `0.1f`. -/
theorem roundF32_value_tenths :
    roundF32 (12079595 / 67108864 + 13421773 / 134217728) = 9395241 / 33554432 := by
  rw [roundF32_eval (-2) 9395241 (by norm_num) (by norm_num) (by norm_num)
    (roundHalfEven_eq_of_near _ (by norm_num [abs_lt]))]
  norm_num

/-- The float difference of the stored value and `0.1f`: a tie, which rounds up. -/
theorem roundF32_difference_tenths :
    roundF32 (9395241 / 33554432 - 13421773 / 134217728) = 3019899 / 16777216 := by
  rw [roundF32_eval (-3) 12079596 (by norm_num) (by norm_num) (by norm_num)
    (by rw [roundHalfEven_tie 12079595 (by norm_num)]; norm_num)]
  norm_num

/-- The float quotient of that difference and the span: `0.30000004`. -/
theorem roundF32_quotient_tenths :
    roundF32 (3019899 / 16777216 / (10066329 / 16777216)) = 10066331 / 33554432 := by
  rw [roundF32_eval (-2) 10066331 (by norm_num) (by norm_num) (by norm_num)
    (roundHalfEven_eq_of_near _ (by norm_num [abs_lt]))]
  norm_num

/-- The scaled round trip of `0.3f` over the range `(0.1f, 0.7f)`. -/
theorem roundTrip_tenths :
    (sliderTenths.setValueScaled (F32.fin (5033165 / 16777216))).getValueScaled
      = F32.fin (10066331 / 33554432) := by
  have h := (roundTrip_direct sliderTenths (13421773 / 134217728) (11744051 / 16777216)
    (5033165 / 16777216) rfl rfl isF32_tenth (by norm_num [abs_le]) (by norm_num [abs_le])
    (by norm_num) (by norm_num) (by norm_num)
    (by
      rw [roundF32_span_tenths]
      unfold stepError unitRoundoff subnormalHalfUlp
      norm_num [abs_of_pos])).1
  rw [h, roundF32_span_tenths, roundF32_product_tenths, roundF32_value_tenths,
    roundF32_difference_tenths, roundF32_quotient_tenths]

theorem isF32_two : isF32 2 := by
  have h := isF32_intCast 2 (by norm_num)
  simpa using h

theorem isF32_two_pow_24 : isF32 16777216 := by
  have h := isF32_intCast 16777216 (by norm_num)
  simpa using h

/-- The float sum `0.5f + 16777216.f` is `16777216.f`: the half is absorbed. -/
theorem roundF32_absorbed : roundF32 (1 / 2 + 16777216) = 16777216 := by
  rw [roundF32_eval 24 8388608 (by norm_num) (by norm_num) (by norm_num)
    (roundHalfEven_eq_of_near _ (by norm_num [abs_lt]))]
  norm_num

/-- The scaled round trip of `0.25f` over the range `(2 ^ 24, 2 ^ 24 + 2)`: the stored
value is `min` and the read-back is `0`. -/
theorem roundTrip_adjacent :
    (sliderAdjacent.setValueScaled (F32.fin (1 / 4))).value = F32.fin 16777216 ∧
    (sliderAdjacent.setValueScaled (F32.fin (1 / 4))).getValueScaled = F32.fin 0 := by
  have hspan : roundF32 (16777218 - 16777216) = 2 := by
    have e : (16777218 : ℚ) - 16777216 = 2 := by norm_num
    rw [e, isF32_two]
  have hval : (sliderAdjacent.setValueScaled (F32.fin (1 / 4))).value = F32.fin 16777216 := by
    rw [setValueScaled_value_direct sliderAdjacent 16777216 16777218 (F32.fin (1 / 4)) rfl rfl
      isF32_two_pow_24 (by unfold floatMax; norm_num [abs_le]) (by norm_num)
      (by rw [hspan]; unfold floatMax; norm_num [abs_le])
      (by
        rw [hspan]
        exact roundF32_abs_le isF32_floatMax (by unfold floatMax; norm_num [abs_le]))
      rfl]
    have hc : unitClampNum (F32.fin (1 / 4)) = 1 / 4 := unit_clamp_id (by norm_num) (by norm_num)
    have e : (1 / 4 : ℚ) * 2 = 1 / 2 := by norm_num
    rw [hc, hspan, e, isF32_half, roundF32_absorbed]
  refine ⟨hval, ?_⟩
  have hmin : (sliderAdjacent.setValueScaled (F32.fin (1 / 4))).min = F32.fin 16777216 := rfl
  have hmax : (sliderAdjacent.setValueScaled (F32.fin (1 / 4))).max = F32.fin 16777218 := rfl
  have h0 : F32.ofRat 0 = F32.fin 0 := by
    rw [F32.ofRat_of_isF32 isF32_zero (by unfold floatMax; norm_num)]
  have hl : F32.lt (F32.fin 16777216) (F32.fin 16777218) = true := by
    simp [F32.lt]; norm_num
  have hd : F32.sub (F32.fin 16777218) (F32.fin 16777216) = F32.fin 2 := by
    rw [sub_fin _ _ (by rw [hspan]; unfold floatMax; norm_num [abs_le]), hspan]
  have hn : F32.sub (F32.fin 16777216) (F32.fin 16777216) = F32.fin 0 := by
    rw [sub_fin _ _ (by rw [sub_self, roundF32_zero]; unfold floatMax; norm_num), sub_self,
      roundF32_zero]
  unfold Binary32.GUIComponent.getValueScaled
  simp only [hmin, hmax, hval, hl, if_true, hd, hn]
  simp only [F32.div, (by norm_num : ¬ (2 : ℚ) = 0), if_false, zero_div, h0]

/-- C1 (as stated, refuted).  Over the degenerate range `min = max = 5` the round trip
of `x = 1/2` returns NaN (`0 / 0`).  Over the range `(0.1f, 0.7f)` the round trip of
`x = 0.3f` returns `0.30000004` (`10066331 / 2 ^ 25`), not `x` (`10066330 / 2 ^ 25`).
Over the range `(2 ^ 24, 2 ^ 24 + 2)` the round trip of `x = 1/4` returns `0`: the
stored value cannot resolve a quarter of the range. -/
theorem scaled_roundtrip_is_not_exact :
    (sliderDegenerate.min = sliderDegenerate.max ∧
      (sliderDegenerate.setValueScaled (F32.fin (1 / 2))).getValueScaled = F32.nan) ∧
    (isF32 (5033165 / 16777216) ∧ (0 : ℚ) ≤ 5033165 / 16777216 ∧
      (5033165 / 16777216 : ℚ) ≤ 1 ∧
      F32.lt sliderTenths.min sliderTenths.max = true ∧
      (sliderTenths.setValueScaled (F32.fin (5033165 / 16777216))).getValueScaled
        = F32.fin (10066331 / 33554432) ∧
      (sliderTenths.setValueScaled (F32.fin (5033165 / 16777216))).getValueScaled
        ≠ F32.fin (5033165 / 16777216)) ∧
    (F32.lt sliderAdjacent.min sliderAdjacent.max = true ∧
      (sliderAdjacent.setValueScaled (F32.fin (1 / 4))).getValueScaled = F32.fin 0 ∧
      (sliderAdjacent.setValueScaled (F32.fin (1 / 4))).getValueScaled ≠ F32.fin (1 / 4)) := by
  refine ⟨⟨rfl, roundTrip_degenerate.2⟩, ⟨?_, by norm_num, by norm_num, ?_, roundTrip_tenths, ?_⟩,
    ⟨?_, roundTrip_adjacent.2, ?_⟩⟩
  · have h := isF32_grid 10066330 (-2) (by norm_num) (by norm_num)
    norm_num at h ⊢
    exact h
  · simp [sliderTenths, F32.lt]; norm_num
  · rw [roundTrip_tenths]
    intro h
    injection h with h
    norm_num at h
  · simp [sliderAdjacent, F32.lt]; norm_num
  · rw [roundTrip_adjacent.2]
    intro h
    injection h with h
    norm_num at h

theorem roundF32_127 : roundF32 (127 - 0) = 127 := by
  have e : (127 : ℚ) - 0 = 127 := by norm_num
  rw [e, isF32_127]

theorem roundF32_ten : roundF32 (10 - 0) = 10 := by
  have e : (10 : ℚ) - 0 = 10 := by norm_num
  rw [e, isF32_ten]

/-- C1 witness: the range `(0, 127)` and the inverted range `(10, 0)`, with
`x = 1/4`. -/
theorem getValueScaled_setValueScaled_witness :
    (∃ res : ℚ, (slider127.setValueScaled (F32.fin (1 / 4))).getValueScaled = F32.fin res ∧
      |res - 1 / 4| ≤ roundTripTolerance 0 (roundF32 (127 - 0))) ∧
    (∃ res : ℚ, (sliderInverted.setValueScaled (F32.fin (1 / 4))).getValueScaled = F32.fin res ∧
      |res - 1 / 4| ≤ roundTripTolerance 0 (roundF32 (10 - 0))) :=
  ⟨(getValueScaled_setValueScaled slider127 0 127 (1 / 4) rfl rfl isF32_zero isF32_127
      (by norm_num [abs_le]) (by norm_num [abs_le]) (by norm_num) (by norm_num)).1
      (by norm_num)
      (by
        rw [roundF32_127]
        unfold stepError unitRoundoff subnormalHalfUlp
        norm_num),
   (getValueScaled_setValueScaled sliderInverted 10 0 (1 / 4) rfl rfl isF32_ten isF32_zero
      (by norm_num [abs_le]) (by norm_num [abs_le]) (by norm_num) (by norm_num)).2
      (by norm_num)
      (by
        rw [roundF32_ten]
        unfold stepError unitRoundoff subnormalHalfUlp
        norm_num)⟩

/-! ## C25, C26: the scaled and the original value mutators -/

/-- C25: the two branches of the scaled accessors compute one function over exact
arithmetic.  For all `min`, `max` and `v`, `setValueScaled` stores the specification's
`min + clamp(v, 0, 1) * (max - min)` whichever branch is taken, and for all `min ≠ max`
`getValueScaled` returns the specification's `(value - min) / (max - min)` whichever
branch is taken. -/
theorem scaled_accessors_refine_spec (c : GUIComponent) (v : ℚ) :
    (c.setValueScaled v).value = setValueScaledSpec c.min c.max v ∧
    (c.min ≠ c.max → c.getValueScaled = some (getValueScaledSpec c.min c.max c.value)) := by
  refine ⟨?_, ?_⟩
  · rw [setValueScaled_value, stdMax_eq_max, stdMin_eq_min, max_comm]
    rfl
  · intro hne
    unfold GUIComponent.getValueScaled getValueScaledSpec
    by_cases hlt : c.min < c.max
    · have hd : c.max - c.min ≠ 0 := sub_ne_zero.mpr (Ne.symm hne)
      simp only [if_pos hlt, fdiv, if_neg hd]
    · have hd : c.min - c.max ≠ 0 := sub_ne_zero.mpr hne
      have hd' : c.max - c.min ≠ 0 := sub_ne_zero.mpr (Ne.symm hne)
      simp only [if_neg hlt, fdiv, if_neg hd, Option.map_some']
      congr 1
      field_simp
      ring

/-- C25 witness: an inverted range `(10, 0)` holding the value `4`. -/
theorem scaled_accessors_refine_spec_witness :
    ({ min := 10, max := 0, value := 4 } : GUIComponent).getValueScaled
      = some (getValueScaledSpec 10 0 4) :=
  (scaled_accessors_refine_spec { min := 10, max := 0, value := 4 } 0).2 (by norm_num)

theorem F32.lt_eq_not_le (a b : F32) (ha : a.isNaN = false) (hb : b.isNaN = false) :
    F32.lt a b = !F32.le b a := by
  cases a with
  | nan => simp [F32.isNaN] at ha
  | inf n =>
    cases b with
    | nan => simp [F32.isNaN] at hb
    | inf m => cases n <;> cases m <;> rfl
    | fin y => cases n <;> rfl
  | fin x =>
    cases b with
    | nan => simp [F32.isNaN] at hb
    | inf m => cases m <;> rfl
    | fin y =>
      by_cases h : y ≤ x
      · simp [F32.lt, F32.le, h, not_lt.mpr h]
      · simp [F32.lt, F32.le, h, not_le.mp h]

theorem F32.le_refl (a : F32) (ha : a.isNaN = false) : F32.le a a = true := by
  cases a with
  | nan => simp [F32.isNaN] at ha
  | inf n => cases n <;> rfl
  | fin x => simp [F32.le]

theorem F32.isNaN_max (a b : F32) (ha : a.isNaN = false) (hb : b.isNaN = false) :
    (F32.max a b).isNaN = false := by
  unfold F32.max; split_ifs <;> assumption

theorem F32.isNaN_min (a b : F32) (ha : a.isNaN = false) (hb : b.isNaN = false) :
    (F32.min a b).isNaN = false := by
  unfold F32.min; split_ifs <;> assumption

/-- The clamp `std::max(std::min(v, hi), lo)` of numbers `lo <= hi` and `v`: it lies in
`[lo, hi]` and leaves a value of `[lo, hi]` as it is. -/
theorem F32.clamp_between (lo hi v : F32) (hlo : lo.isNaN = false) (hhi : hi.isNaN = false)
    (hv : v.isNaN = false) (hle : F32.le lo hi = true) :
    F32.le lo (F32.max (F32.min v hi) lo) = true ∧ F32.le (F32.max (F32.min v hi) lo) hi = true ∧
    (F32.le lo v = true → F32.le v hi = true → F32.max (F32.min v hi) lo = v) := by
  have h1 : F32.lt hi lo = false := by rw [F32.lt_eq_not_le hi lo hhi hlo, hle]; rfl
  by_cases hc : F32.lt hi v = true
  · have hm : F32.min v hi = hi := by unfold F32.min; rw [if_pos hc]
    have hr : F32.max (F32.min v hi) lo = hi := by
      rw [hm]; unfold F32.max; rw [if_neg (by rw [h1]; simp)]
    rw [hr]
    refine ⟨hle, F32.le_refl hi hhi, ?_⟩
    intro _ h
    rw [F32.lt_eq_not_le hi v hhi hv, h] at hc
    simp at hc
  · have hm : F32.min v hi = v := by unfold F32.min; rw [if_neg hc]
    have hvh : F32.le v hi = true := by
      rw [F32.lt_eq_not_le hi v hhi hv] at hc
      simpa using hc
    rw [hm]
    by_cases hd : F32.lt v lo = true
    · have hr : F32.max v lo = lo := by unfold F32.max; rw [if_pos hd]
      rw [hr]
      refine ⟨F32.le_refl lo hlo, hle, ?_⟩
      intro h _
      rw [F32.lt_eq_not_le v lo hv hlo, h] at hd
      simp at hd
    · have hr : F32.max v lo = v := by unfold F32.max; rw [if_neg hd]
      rw [hr]
      refine ⟨?_, hvh, fun _ _ => rfl⟩
      rw [F32.lt_eq_not_le v lo hv hlo] at hd
      simpa using hd

theorem F32.le_of_lt (a b : F32) (h : F32.lt a b = true) : F32.le a b = true := by
  cases a with
  | nan => simp [F32.lt] at h
  | inf n =>
    cases b with
    | nan => simp [F32.lt] at h
    | inf m => cases n <;> cases m <;> simp_all [F32.lt, F32.le]
    | fin y => cases n <;> simp_all [F32.lt, F32.le]
  | fin x =>
    cases b with
    | nan => simp [F32.lt] at h
    | inf m => cases m <;> simp_all [F32.lt, F32.le]
    | fin y =>
      simp only [F32.lt, decide_eq_true_eq] at h
      simp [F32.le, h.le]

/-- C26 (as stated, refuted): with the range `(0, 127)` and the input NaN,
`setValueOriginal` stores NaN and forwards it: `std::min(NaN, max)` and
`std::max(NaN, min)` both return their first argument.  The stored value is neither at
least `min` nor at most `max`.  (The logarithmic slider passes
`exp(val * log(maxValue / minimum)) * minimum`, which is NaN when the quotient is
negative.) -/
theorem setValueOriginal_stores_nan :
    (slider127.setValueOriginal F32.nan).value = F32.nan ∧
    (slider127.setValueOriginal F32.nan).setValueCalls = [F32.nan] ∧
    F32.le slider127.min (slider127.setValueOriginal F32.nan).value = false ∧
    F32.le (slider127.setValueOriginal F32.nan).value slider127.max = false := by
  refine ⟨?_, ?_, ?_, ?_⟩ <;>
    simp [slider127, Binary32.GUIComponent.setValueOriginal, F32.lt, F32.le, F32.max, F32.min]

/-- C26 (amended): for all `min`, `max` and `v` none of which is NaN,
`setValueOriginal(v)` stores a value lying between `min` and `max` taken in either
order, stores `v` itself when `v` already lies in that interval, forwards exactly the
stored value to `Gui::setValue`, and is idempotent. -/
theorem setValueOriginal_clamps (c : Binary32.GUIComponent) (v : F32)
    (hmin : c.min.isNaN = false) (hmax : c.max.isNaN = false) (hv : v.isNaN = false) :
    (F32.lt c.min c.max = true →
      F32.le c.min (c.setValueOriginal v).value = true ∧
      F32.le (c.setValueOriginal v).value c.max = true) ∧
    (F32.lt c.min c.max = false →
      F32.le c.max (c.setValueOriginal v).value = true ∧
      F32.le (c.setValueOriginal v).value c.min = true) ∧
    (F32.lt c.min c.max = true → F32.le c.min v = true → F32.le v c.max = true →
      (c.setValueOriginal v).value = v) ∧
    (F32.lt c.min c.max = false → F32.le c.max v = true → F32.le v c.min = true →
      (c.setValueOriginal v).value = v) ∧
    (c.setValueOriginal v).setValueCalls = c.setValueCalls ++ [(c.setValueOriginal v).value] ∧
    ((c.setValueOriginal v).setValueOriginal (c.setValueOriginal v).value).value
      = (c.setValueOriginal v).value := by
  by_cases hlt : F32.lt c.min c.max = true
  · have hle := F32.le_of_lt _ _ hlt
    have hval : (c.setValueOriginal v).value = F32.max (F32.min v c.max) c.min := by
      simp [Binary32.GUIComponent.setValueOriginal, hlt]
    obtain ⟨h1, h2, h3⟩ := F32.clamp_between c.min c.max v hmin hmax hv hle
    have hnan : (F32.max (F32.min v c.max) c.min).isNaN = false :=
      F32.isNaN_max _ _ (F32.isNaN_min _ _ hv hmax) hmin
    have hidem : ((c.setValueOriginal v).setValueOriginal (c.setValueOriginal v).value).value
        = (c.setValueOriginal v).value := by
      have hw : ((c.setValueOriginal v).setValueOriginal (c.setValueOriginal v).value).value
          = F32.max (F32.min (c.setValueOriginal v).value c.max) c.min := by
        simp [Binary32.GUIComponent.setValueOriginal, hlt]
      rw [hw, hval]
      exact (F32.clamp_between c.min c.max _ hmin hmax hnan hle).2.2 h1 h2
    refine ⟨fun _ => ?_, fun h => ?_, fun _ => ?_, fun h => ?_, rfl, hidem⟩
    · rw [hval]; exact ⟨h1, h2⟩
    · rw [h] at hlt; cases hlt
    · rw [hval]; exact h3
    · rw [h] at hlt; cases hlt
  · have hlt' : F32.lt c.min c.max = false := by simpa using hlt
    have hle : F32.le c.max c.min = true := by
      rw [F32.lt_eq_not_le c.min c.max hmin hmax] at hlt'
      simpa using hlt'
    have hval : (c.setValueOriginal v).value = F32.max (F32.min v c.min) c.max := by
      simp [Binary32.GUIComponent.setValueOriginal, hlt']
    obtain ⟨h1, h2, h3⟩ := F32.clamp_between c.max c.min v hmax hmin hv hle
    have hnan : (F32.max (F32.min v c.min) c.max).isNaN = false :=
      F32.isNaN_max _ _ (F32.isNaN_min _ _ hv hmin) hmax
    have hidem : ((c.setValueOriginal v).setValueOriginal (c.setValueOriginal v).value).value
        = (c.setValueOriginal v).value := by
      have hw : ((c.setValueOriginal v).setValueOriginal (c.setValueOriginal v).value).value
          = F32.max (F32.min (c.setValueOriginal v).value c.min) c.max := by
        simp [Binary32.GUIComponent.setValueOriginal, hlt']
      rw [hw, hval]
      exact (F32.clamp_between c.max c.min _ hmax hmin hnan hle).2.2 h1 h2
    refine ⟨fun h => absurd h hlt, fun _ => ?_, fun h => absurd h hlt, fun _ => ?_, rfl, hidem⟩
    · rw [hval]; exact ⟨h1, h2⟩
    · rw [hval]; exact h3

/-- C26 witness: the range `(0, 127)` with the inputs `200` (clamped) and `64` (kept), and
the inverted range `(10, 0)` with the input `4` (kept). -/
theorem setValueOriginal_clamps_witness :
    (F32.le slider127.min (slider127.setValueOriginal (F32.fin 200)).value = true ∧
      F32.le (slider127.setValueOriginal (F32.fin 200)).value slider127.max = true) ∧
    (slider127.setValueOriginal (F32.fin 64)).value = F32.fin 64 ∧
    (sliderInverted.setValueOriginal (F32.fin 4)).value = F32.fin 4 :=
  ⟨(setValueOriginal_clamps slider127 (F32.fin 200) rfl rfl rfl).1
      (by simp [slider127, F32.lt]),
   (setValueOriginal_clamps slider127 (F32.fin 64) rfl rfl rfl).2.2.1
      (by simp [slider127, F32.lt]) (by simp [slider127, F32.le])
      (by simp [slider127, F32.le]; norm_num),
   (setValueOriginal_clamps sliderInverted (F32.fin 4) rfl rfl rfl).2.2.2.1
      (by simp [sliderInverted, F32.lt]) (by simp [sliderInverted, F32.le])
      (by simp [sliderInverted, F32.le]; norm_num)⟩

/-! ## C27: the number of steps of the radio groups -/

/-- The steps `getNumberOfSteps` reports for a radio control with a live handle: one less
than the stored button count for the horizontal one, the stored button count for the
vertical one. -/
theorem getNumberOfSteps_radio (g : Gui) (o : PdObject) (hptr : g.ptr = some o) :
    (g.type = GuiType.HorizontalRadio → g.getNumberOfSteps = sizeOfInt (o.x_number - 1)) ∧
    (g.type = GuiType.VerticalRadio → g.getNumberOfSteps = sizeOfInt o.x_number) ∧
    (g.type = GuiType.Toggle → g.getNumberOfSteps = 2) := by
  refine ⟨?_, ?_, ?_⟩ <;> intro h <;> simp [Gui.getNumberOfSteps, hptr, h]

/-- C27 (the code at the failing input): the horizontal radio `hradio8` and the vertical
radio `vradio8` hold the same stored button count 8, yet `getNumberOfSteps` returns 7 for
the horizontal and 8 for the vertical one. -/
theorem getNumberOfSteps_differs_by_orientation :
    hradio8.ptr.map (fun o => o.x_number) = some 8 ∧
    vradio8.ptr.map (fun o => o.x_number) = some 8 ∧
    hradio8.getNumberOfSteps = 7 ∧ vradio8.getNumberOfSteps = 8 ∧
    hradio8.getNumberOfSteps ≠ vradio8.getNumberOfSteps := by
  have h7 : sizeOfInt 7 = 7 := by
    unfold sizeOfInt; norm_num; rfl
  have h8 : sizeOfInt 8 = 8 := by
    unfold sizeOfInt; norm_num; rfl
  have hh : hradio8.getNumberOfSteps = 7 := by
    simp [Gui.getNumberOfSteps, hradio8, h7]
  have hv : vradio8.getNumberOfSteps = 8 := by
    simp [Gui.getNumberOfSteps, vradio8, h8]
  refine ⟨rfl, rfl, hh, hv, ?_⟩
  rw [hh, hv]
  decide

/-! ## C28: the indices `mouseDrag` writes -/

/-- On an empty mirror whose error flag is clear no drag has a result: the index it
computes is not an index of the mirror. -/
theorem mouseDrag_on_empty_mirror (a : GraphicalArray) (e : MouseEvent) (lockAcquired : Bool)
    (herr : a.error = false) (hempty : a.vec = []) :
    a.mouseDrag e lockAcquired = none ∧
    ∀ i, a.dragIndex e = some i → ¬ i < a.vec.length := by
  refine ⟨?_, ?_⟩
  · unfold GraphicalArray.mouseDrag
    simp only [herr, Bool.false_eq_true, if_false]
    cases a.dragIndex e <;> cases a.dragValue e <;> simp [hempty]
  · intro i _
    simp [hempty]

/-- C28 (the code at the failing input): the mirror `emptyMirror`, built for an array
without a name, has length 0 and a clear error flag, so the click at `(0, 35)` is
accepted; it computes the index 0, which is not an index of the empty mirror, and the
write `vec[0] = ...` is outside the buffer. -/
theorem mouseDrag_writes_outside_empty_mirror :
    emptyMirror.vec.length = 0 ∧ emptyMirror.error = false ∧
    emptyMirror.dragIndex { x := 0, y := 35 } = some 0 ∧
    ¬ (0 < emptyMirror.vec.length) ∧
    emptyMirror.mouseDown { x := 0, y := 35 } true = none ∧
    emptyMirror.mouseDrag { x := 0, y := 35 } true = none := by
  have hr : stdRound (0 : ℚ) = 0 := by
    unfold stdRound
    rw [if_pos (le_refl 0)]
    have h : (0 : ℚ) + 1 / 2 = 1 / 2 := by norm_num
    rw [h, Int.floor_eq_iff]
    norm_num
  have hvec : emptyMirror.vec = [] := rfl
  have herr : emptyMirror.error = false := rfl
  refine ⟨rfl, rfl, ?_, by decide, ?_, ?_⟩
  · have hw : ((emptyMirror.width : Int) : ℚ) ≠ 0 := by
      have : emptyMirror.width = 200 := rfl
      rw [this]; norm_num
    simp [GraphicalArray.dragIndex, fdiv, hw, clip_zero, hr]
  · unfold GraphicalArray.mouseDown
    rw [if_neg (by rw [herr]; decide)]
    exact (mouseDrag_on_empty_mirror _ _ _ rfl rfl).1
  · exact (mouseDrag_on_empty_mirror _ _ _ rfl rfl).1

/-! ## C29: the line metrics of `MessageComponent` -/

/-- The loop of `updateValue` counts one line per newline character. -/
theorem messageScan_numLines (text : List Char) :
    ∀ numLines longestLine currentLineLength : Int,
      (messageScan text (numLines, longestLine, currentLineLength)).1
        = numLines + (text.count (Char.ofNat 10) : Int) := by
  induction text with
  | nil => intro n l c; simp [messageScan]
  | cons ch rest ih =>
    intro n l c
    by_cases h : ch = Char.ofNat 10
    · subst h
      rw [messageScan, if_pos rfl, ih]
      simp
      ring
    · rw [messageScan, if_neg h, ih]
      have hc : List.count (Char.ofNat 10) (ch :: rest) = List.count (Char.ofNat 10) rest := by
        rw [List.count_cons_of_ne]
        exact fun h' => h h'.symm
      rw [hc]

/-- On a text without a newline the loop only counts the characters. -/
theorem messageScan_single_line (text : List Char) (h : Char.ofNat 10 ∉ text) :
    ∀ numLines longestLine currentLineLength : Int,
      messageScan text (numLines, longestLine, currentLineLength)
        = (numLines, longestLine, currentLineLength + (text.length : Int)) := by
  induction text with
  | nil => intro n l c; simp [messageScan]
  | cons ch rest ih =>
    intro n l c
    have hch : ch ≠ Char.ofNat 10 := fun h' => h (by rw [h']; exact List.mem_cons_self _ _)
    have hrest : Char.ofNat 10 ∉ rest := fun h' => h (List.mem_cons_of_mem _ h')
    rw [messageScan, if_neg hch, ih hrest]
    simp
    ring

/-- C29 (the code at the failing input): the message box `messageBox` accepts the text
`twoLineText`, whose lines are `ab` and `abcdefghijkl`.  `numLines` becomes 2, one plus
the number of newlines, but `longestLine` becomes 7, not the 12 characters of the last
line: the last line is only counted when the text has a single line. -/
theorem longestLine_ignores_last_line :
    twoLineText.toList = "ab".toList ++ [Char.ofNat 10] ++ "abcdefghijkl".toList ∧
    ("abcdefghijkl" : String).length = 12 ∧
    messageScan twoLineText.toList (1, 7, 0) = (2, 7, 12) ∧
    ∃ m, messageBox.updateValue (fun _ => twoLineText) = some m ∧
      m.lastMessage = twoLineText ∧ m.updates = 1 ∧
      m.numLines = 2 ∧ m.longestLine = 7 ∧ m.longestLine ≠ 12 := by
  refine ⟨by decide, by decide, by decide, _, rfl, ?_, ?_, ?_, ?_, ?_⟩ <;> decide

/-! ## C30: IEM colours -/

theorem toU32_of_lt (c : Nat) (h : c < 2 ^ 32) : toU32 (c : Int) = c := by
  unfold toU32
  have h1 : ((c : Int) % 2 ^ 32) = (c : Int) := by
    apply Int.emod_eq_of_lt
    · exact Int.natCast_nonneg c
    · exact_mod_cast h
  rw [h1]
  exact Int.toNat_ofNat c

/-- The bits of `(c >>> k) <<< k` are bits of `c`. -/
theorem shift_back_lor_self (c k : Nat) : ((c >>> k) <<< k) ||| c = c := by
  apply Nat.eq_of_testBit_eq
  intro j
  rw [Nat.testBit_or, Nat.testBit_shiftLeft, Nat.testBit_shiftRight]
  by_cases h : j ≥ k
  · have hk : k + (j - k) = j := by omega
    simp [h, hk]
  · simp [h]

/-- The body shared by `convert_from_iem_color` and `fromIemColors`, on a 24-bit
colour. -/
theorem iem_color_body (c : Nat) (h : c < 2 ^ 24) :
    ((0xFF <<< 24) ||| (((((c <<< 8) ||| 0xFF) % 2 ^ 32) >>> 24) <<< 16)
        ||| (((((c <<< 8) ||| 0xFF) % 2 ^ 32) >>> 16) <<< 8)
        ||| ((((c <<< 8) ||| 0xFF) % 2 ^ 32) >>> 8)) % 2 ^ 32
      = 0xFF000000 ||| c := by
  have hc : ((c <<< 8) ||| 0xFF) % 2 ^ 32 = 2 ^ 8 * c + 255 := by
    have h1 : c <<< 8 = 2 ^ 8 * c := by rw [Nat.shiftLeft_eq, Nat.mul_comm]
    have h2 : 2 ^ 8 * c ||| 255 = 2 ^ 8 * c + 255 :=
      (Nat.mul_add_lt_is_or (by norm_num) c).symm
    rw [h1, h2]
    apply Nat.mod_eq_of_lt
    omega
  rw [hc]
  have h8 : (2 ^ 8 * c + 255) >>> 8 = c := by
    rw [Nat.shiftRight_eq_div_pow]; omega
  have h16 : (2 ^ 8 * c + 255) >>> 16 = c >>> 8 := by
    rw [Nat.shiftRight_eq_div_pow, Nat.shiftRight_eq_div_pow]; omega
  have h24 : (2 ^ 8 * c + 255) >>> 24 = c >>> 16 := by
    rw [Nat.shiftRight_eq_div_pow, Nat.shiftRight_eq_div_pow]; omega
  rw [h8, h16, h24]
  have hor : (0xFF <<< 24) ||| ((c >>> 16) <<< 16) ||| ((c >>> 8) <<< 8) ||| c
      = 0xFF000000 ||| c := by
    have hs : (0xFF : Nat) <<< 24 = 0xFF000000 := by decide
    rw [Nat.or_assoc, Nat.or_assoc, shift_back_lor_self c 8, shift_back_lor_self c 16, hs]
  rw [hor]
  apply Nat.mod_eq_of_lt
  exact Nat.or_lt_two_pow (by norm_num) (by omega)

/-- C30: for every 24-bit IEM colour `c` (`0 <= c < 2^24`), in 32-bit unsigned
arithmetic, `convert_from_iem_color(c)` equals `0xFF000000 | c`, a fully opaque ARGB
value with the same red, green and blue bytes, and `fromIemColors` of `PdGui.cpp` returns
the same value. -/
theorem convert_from_iem_color_opaque (c : Nat) (h : c < 2 ^ 24) :
    convert_from_iem_color (c : Int) = 0xFF000000 ||| c ∧
    fromIemColors (c : Int) = convert_from_iem_color (c : Int) ∧
    convert_from_iem_color (c : Int) % 2 ^ 24 = c ∧
    convert_from_iem_color (c : Int) / 2 ^ 24 = 0xFF := by
  have hu : toU32 (c : Int) = c := toU32_of_lt c (by omega)
  have hmain : convert_from_iem_color (c : Int) = 0xFF000000 ||| c := by
    unfold convert_from_iem_color
    simp only [hu]
    exact iem_color_body c h
  have hadd : 0xFF000000 ||| c = 2 ^ 24 * 255 + c := by
    have := Nat.mul_add_lt_is_or h 255
    rw [this]
  refine ⟨hmain, rfl, ?_, ?_⟩
  · rw [hmain, hadd]; omega
  · rw [hmain, hadd]; omega

/-- C30 witness: the colour `0x123456` becomes `0xFF123456`. -/
theorem convert_from_iem_color_opaque_witness :
    convert_from_iem_color ((0x123456 : Nat) : Int) = 0xFF000000 ||| 0x123456 ∧
    fromIemColors ((0x123456 : Nat) : Int) = convert_from_iem_color ((0x123456 : Nat) : Int) ∧
    convert_from_iem_color ((0x123456 : Nat) : Int) % 2 ^ 24 = 0x123456 ∧
    convert_from_iem_color ((0x123456 : Nat) : Int) / 2 ^ 24 = 0xFF :=
  convert_from_iem_color_opaque 0x123456 (by norm_num)

end pd
